import Mathlib

/-!
AI Judicial Suite: the case lifecycle core of `src/src/App.jsx`.

A shallow embedding of the event handlers of the React prototype
(`App.signup`, `App.login`, `App.logout`, `App.fakeAiResponse`, the
default-selection effect, `LandingAssistant.askAssistant`,
`LawyerPage.submitCase`, `LawyerPage.sendMessage`, `CaseAssistant.ask`,
`JudgePage.evaluate`) as pure functions on the React state they read and write.

Conventions of the embedding.

* React state is passed explicitly: a handler takes the props it reads and
  returns the state after all its `setX` calls, together with the text it
  passed to `alert` (if any).  A handler that returns early returns the state
  it was given.
* `Date.now()` is a clock `now : Nat → Int`: `now k` is the reading of the
  `k`-th call (counted from 0) made while the handler runs.
* `String.prototype.toLowerCase` depends on the Unicode case tables of the
  runtime; it is a parameter `toLowerCase : String → String` of the handlers
  that call it.  `asciiLower` is the instance used on concrete ASCII inputs.
* `App2.jsx` has the same handlers with the same control flow; it differs in
  the wording of some alerts and generated texts, in the seeded users and in
  one more evidence item of the first sample case.  The embedding follows
  `App.jsx`.
-/

namespace AIJudicial

/-! ## JavaScript built-ins used by the handlers -/

/-- White space and line terminators, the characters `String.prototype.trim`
removes (ECMAScript `WhiteSpace` and `LineTerminator`). -/
def isWhiteSpace (c : Char) : Bool :=
  [0x09, 0x0A, 0x0B, 0x0C, 0x0D, 0x20, 0xA0, 0x1680, 0x2028, 0x2029, 0x202F, 0x205F,
    0x3000, 0xFEFF].contains c.toNat
  || (0x2000 ≤ c.toNat && c.toNat ≤ 0x200A)

/-- The method `String.prototype.trim`: white space removed from both ends. -/
def trim (s : String) : String :=
  ⟨(s.data.dropWhile isWhiteSpace).rdropWhile isWhiteSpace⟩

/-- Lower-casing of the ASCII letters, the instance of `toLowerCase` used on
concrete ASCII inputs. -/
def asciiLower (s : String) : String :=
  ⟨s.data.map Char.toLower⟩

/-- The method `String.prototype.includes`: `sub` occurs in `s` as a contiguous run. -/
def includes (s sub : String) : Bool :=
  s.data.tails.any (fun t => sub.data.isPrefixOf t)

/-- The method `String.prototype.padStart` with a one-character filler. -/
def padStart (s : String) (targetLength : Nat) (fill : Char) : String :=
  ⟨List.replicate (targetLength - s.data.length) fill ++ s.data⟩

/-- The pieces of a character list between the occurrences of `sep`
(`String.prototype.split` with a one-character separator). -/
def splitChars (sep : Char) : List Char → List (List Char)
  | [] => [[]]
  | c :: cs =>
    if c = sep then [] :: splitChars sep cs
    else
      match splitChars sep cs with
      | [] => [[c]]
      | h :: t => (c :: h) :: t

/-- The method `String.prototype.split` with a one-character separator. -/
def split (s : String) (sep : Char) : List String :=
  (splitChars sep s.data).map String.mk

/-- The first `n` UTF-16 code units of a text given by its characters. A
character outside the Basic Multilingual Plane is a surrogate pair and counts
two units. A cut between the two halves of a pair leaves a lone high surrogate
in JavaScript; no character stands for it, and U+FFFD is put in its place. -/
def takeUnits : Nat → List Char → List Char
  | 0, _ => []
  | _, [] => []
  | n + 1, c :: cs =>
    if c.toNat < 0x10000 then c :: takeUnits n cs
    else
      match n with
      | 0 => [Char.ofNat 0xFFFD]
      | m + 1 => c :: takeUnits m cs

/-- The call `s.slice(0, n)`: the first `n` UTF-16 code units of `s`. -/
def slice0 (s : String) (n : Nat) : String :=
  ⟨takeUnits n s.data⟩

/-- The expression `x || d` for an optional string `x`: `d` when `x` is
`undefined` or the empty string. -/
def orElse (x : Option String) (d : String) : String :=
  match x with
  | some v => if v = "" then d else v
  | none => d

/-- Truthiness of an optional string (`null` and `""` are falsy). -/
def truthy (x : Option String) : Bool :=
  match x with
  | some v => v ≠ ""
  | none => false

/-! ## Data model -/

/-- The roles offered by the signup and login forms. -/
inductive Role where
  | Judge
  | Lawyer
  | LegalAssistant
  | Public
  deriving DecidableEq, Repr

/-- The string a role has in the source. -/
def Role.toString : Role → String
  | .Judge => "Judge"
  | .Lawyer => "Lawyer"
  | .LegalAssistant => "Legal Assistant"
  | .Public => "Public"

/-- The three values of `status` that occur in the source. -/
inductive Status where
  | Submitted
  | UnderReview
  | Ruled
  deriving DecidableEq, Repr

/-- The string a status has in the source. -/
def Status.toString : Status → String
  | .Submitted => "Submitted"
  | .UnderReview => "Under Review"
  | .Ruled => "Ruled"

/-- An element of `users`: `{ name, role, password }`. -/
structure User where
  name : String
  role : Role
  password : String
  deriving DecidableEq, Repr

/-- The signed-in `user` object: `{ name, role }`. -/
structure Principal where
  name : String
  role : Role
  deriving DecidableEq, Repr

/-- An element of `evidence`. -/
structure Evidence where
  id : String
  name : String
  deriving DecidableEq, Repr

/-- An element of `timeline`: `{ ts, actor, action }`. -/
structure TimelineEntry where
  ts : Int
  actor : String
  action : String
  deriving DecidableEq, Repr

/-- An element of `messages`: `{ id, from, to, text, ts }`. -/
structure Message where
  id : String
  from_ : String
  to_ : String
  text : String
  ts : Int
  deriving DecidableEq, Repr

/-- The `ruling` object: `{ id, text, ts, judge }`. -/
structure Ruling where
  id : String
  text : String
  ts : Int
  judge : String
  deriving DecidableEq, Repr

/-- A case record. -/
structure Case where
  id : String
  title : String
  description : String
  tags : List String
  evidence : List Evidence
  status : Status
  timeline : List TimelineEntry
  messages : List Message
  ruling : Option Ruling
  deriving DecidableEq, Repr

/-- A turn of an assistant chat: `{ id, from, text, ts }`. -/
structure ChatMsg where
  id : String
  from_ : String
  text : String
  ts : Int
  deriving DecidableEq, Repr

/-- The case store: the `cases` and `selectedCaseId` state of `App`. -/
structure Store where
  cases : List Case
  selectedCaseId : Option String
  deriving DecidableEq, Repr

/-- The state of the application: `users`, `user`, the case store,
`assistantHistory` (an object keyed by case id, kept as the list of its own
properties) and the `localChat` of the landing page. `crashed` records that a
state updater has thrown: the error is not caught anywhere in the source, and
nothing the updater was to write is recorded. -/
structure AppState where
  users : List User
  user : Option Principal
  store : Store
  assistantHistory : List (String × List ChatMsg)
  localChat : List ChatMsg
  crashed : Bool
  deriving DecidableEq, Repr

/-- What a handler leaves behind: the text it passed to `alert`, if it called
it, and the state after the handler. -/
structure Outcome (σ : Type) where
  alert : Option String
  state : σ
  deriving DecidableEq, Repr

/-- The `context` argument of `fakeAiResponse`; a field is `none` when the
caller does not pass it or passes `undefined`. -/
structure Context where
  caseTitle : Option String
  shortFacts : Option String
  favored : Option String
  deriving DecidableEq, Repr

/-- The `newCase` form of the lawyer page. -/
structure NewCase where
  title : String
  description : String
  tags : String
  deriving DecidableEq, Repr

/-- The `signupForm` of the signup dialog. -/
structure SignupForm where
  name : String
  role : Role
  password : String
  deriving DecidableEq, Repr

/-! ## Seed data -/

/-- The function `sampleCases`: the two preloaded cases. -/
def sampleCases (now : Nat → Int) : List Case :=
  [ { id := "CASE-001"
      title := "Breach of Contract — Service Agreement"
      description := "Plaintiff claims Defendant failed to deliver contracted services within the agreed timeline. Key witnesses: A, B. Exhibit A: signed contract. Exhibit B: emails showing missed deadlines."
      tags := ["contract", "civil"]
      evidence := [{ id := "ev1", name := "Exhibit A - Contract" }]
      status := Status.UnderReview
      timeline := [{ ts := now 0 - 1000 * 60 * 60 * 24, actor := "System", action := "Imported" }]
      messages := []
      ruling := none },
    { id := "CASE-002"
      title := "Neighbor Dispute — Noise Complaint"
      description := "Defendant alleges plaintiff created excessive noise after 10 PM. Seeking injunction and damages."
      tags := ["tort"]
      evidence := []
      status := Status.Submitted
      timeline := [{ ts := now 1 - 1000 * 60 * 60 * 12, actor := "User:Anon", action := "Submitted" }]
      messages := []
      ruling := none } ]

/-- The initial case store: `useState(sampleCases())` and
`useState(cases[0]?.id || null)`. -/
def initialStore (now : Nat → Int) : Store :=
  { cases := sampleCases now
    selectedCaseId :=
      match (sampleCases now).head? with
      | some c => if c.id = "" then none else some c.id
      | none => none }

/-- The seeded directory of `App.jsx`. -/
def initialUsers : List User :=
  [{ name := "Judge Judy", role := Role.Judge, password := "judgepass" }]

/-- The initial state of `App`. -/
def initialState (now : Nat → Int) : AppState :=
  { users := initialUsers
    user := none
    store := initialStore now
    assistantHistory := []
    localChat := []
    crashed := false }

/-! ## Identity directory: `signup`, `login`, `logout` -/

/-- The handler `App.signup`. -/
def signup (toLowerCase : String → String) (signupForm : SignupForm) (s : AppState) :
    Outcome AppState :=
  if trim signupForm.name = "" ∨ trim signupForm.password = "" then
    ⟨some "Please provide name and password", s⟩
  else if (s.users.find? (fun u =>
      decide (toLowerCase u.name = toLowerCase (trim signupForm.name)))).isSome then
    ⟨some "User already exists (prototype)", s⟩
  else
    let u : User :=
      { name := trim signupForm.name, role := signupForm.role, password := signupForm.password }
    ⟨some "Signup saved locally — use Login (prototype)", { s with users := u :: s.users }⟩

/-- The handler `App.login`. -/
def login (toLowerCase : String → String) (loginName loginPassword : String) (s : AppState) :
    Outcome AppState :=
  if trim loginName = "" ∨ trim loginPassword = "" then
    ⟨some "Enter name and password", s⟩
  else
    match s.users.find? (fun u =>
      decide (toLowerCase u.name = toLowerCase (trim loginName)) && decide (u.password = loginPassword)) with
    | none => ⟨some "Invalid credentials (prototype)", s⟩
    | some found => ⟨none, { s with user := some { name := found.name, role := found.role } }⟩

/-- The handler `App.logout`. -/
def logout (s : AppState) : Outcome AppState :=
  ⟨none, { s with user := none }⟩

/-! ## Response generator -/

/-- The function `App.fakeAiResponse`. -/
def fakeAiResponse (toLowerCase : String → String) (prompt : String) (context : Context) :
    String :=
  if prompt = "" then "..."
  else
    let p := toLowerCase prompt
    if includes p "summarize" then
      "Summary — " ++ orElse context.caseTitle "No case" ++ ": "
        ++ orElse context.shortFacts "No facts provided."
    else if includes p "advice" || includes p "what should" then
      "Legal Assistant: Based on the facts, consider documenting evidence and reviewing statutory provisions."
    else if includes p "evaluate" || includes p "decide" then
      "Ruling: In favor of " ++ orElse context.favored "plaintiff"
        ++ "\nReasoning: The record indicates breach of duty supported by exhibits."
    else
      "AI: (Simulated) I can help with: \"" ++ prompt ++ "\""

/-! ## Case store: selection, `submitCase`, `sendMessage` -/

/-- The default-selection effect of `App`:
`if (!selectedCaseId && cases.length) setSelectedCaseId(cases[0].id)`. -/
def defaultSelection (st : Store) : Store :=
  if truthy st.selectedCaseId then st
  else
    match st.cases with
    | [] => st
    | c :: _ => { st with selectedCaseId := some c.id }

/-- The call `setSelectedCaseId(id)` of the case lists. -/
def selectCase (id : Option String) (st : Store) : Store :=
  { st with selectedCaseId := id }

/-- The identifier computed by `submitCase` for the counter value `n`:
`"CASE-" + n.toString().padStart(3, "0")`. -/
def caseId (n : Nat) : String :=
  "CASE-" ++ padStart (Nat.repr n) 3 '0'

/-- The handler `LawyerPage.submitCase`. -/
def submitCase (user : Option Principal) (newCase : NewCase) (now : Nat → Int) (st : Store) :
    Outcome Store :=
  if trim newCase.title = "" then ⟨some "Title required", st⟩
  else
    let id := caseId (st.cases.length + 1)
    let c : Case :=
      { id := id
        title := newCase.title
        description := newCase.description
        tags := ((split newCase.tags ',').map trim).filter (fun t => decide (t ≠ ""))
        evidence := []
        status := Status.Submitted
        timeline :=
          [{ ts := now 0, actor := orElse (user.map (fun u => u.name)) "Anon",
             action := "Submitted case" }]
        messages := []
        ruling := none }
    ⟨none, { cases := c :: st.cases, selectedCaseId := some c.id }⟩

/-- The update `prev.map((c) => c.id === selectedCaseId ? upd(c) : c)`, where
`upd` reads the clock once: the `k`-th case that matches gets the reading `now k`. -/
def mapSelected (selectedCaseId : Option String) (upd : Case → Int → Case) :
    (Nat → Int) → List Case → List Case
  | _, [] => []
  | now, c :: cs =>
    if some c.id = selectedCaseId then
      upd c (now 0) :: mapSelected selectedCaseId upd (fun k => now (k + 1)) cs
    else c :: mapSelected selectedCaseId upd now cs

/-- The handler `LawyerPage.sendMessage`. -/
def sendMessage (user : Option Principal) (message : String) (to_ : String) (now : Nat → Int)
    (st : Store) : Outcome Store :=
  if trim message = "" then ⟨none, st⟩
  else
    let msg : Message :=
      { id := toString (now 0)
        from_ := orElse (user.map (fun u => u.role.toString)) "Lawyer" ++ ":"
          ++ orElse (user.map (fun u => u.name)) "Anon"
        to_ := to_
        text := message
        ts := now 1 }
    ⟨none, { st with
      cases := mapSelected st.selectedCaseId
        (fun c t => { c with
          messages := c.messages ++ [msg]
          timeline := c.timeline ++ [{ ts := t, actor := msg.from_, action := "Message to " ++ to_ }] })
        (fun k => now (k + 2)) st.cases }⟩

/-! ## Adjudication: `evaluate` -/

/-- The handler `JudgePage.evaluate`. -/
def evaluate (toLowerCase : String → String) (userObj : Option Principal) (favored : String)
    (now : Nat → Int) (st : Store) : Outcome Store :=
  match userObj with
  | none => ⟨some "Sign in as Judge to evaluate.", st⟩
  | some judge =>
    if judge.role ≠ Role.Judge then ⟨some "Sign in as Judge to evaluate.", st⟩
    else
      match st.cases.find? (fun c => decide (some c.id = st.selectedCaseId)) with
      | none => ⟨some "Select a case", st⟩
      | some sc =>
        let resp := fakeAiResponse toLowerCase "Evaluate and decide"
          { favored := some favored, caseTitle := some sc.title, shortFacts := none }
        let ruling : Ruling :=
          { id := "R-" ++ toString (now 0), text := resp, ts := now 1, judge := judge.name }
        ⟨none, { st with
          cases := mapSelected st.selectedCaseId
            (fun c t => { c with
              ruling := some ruling
              status := Status.Ruled
              timeline := c.timeline ++
                [{ ts := t, actor := "Judge:" ++ judge.name, action := "Issued ruling" }] })
            (fun k => now (k + 2)) st.cases }⟩

/-! ## Conversation ledger: `askAssistant`, `ask` -/

/-- The property names every JavaScript object inherits from `Object.prototype`.
The ledger is a plain object, so `prev[key]` for such a key that was never
written is the inherited function or object, not `undefined`. -/
def inheritedKeys : List String :=
  ["constructor", "hasOwnProperty", "isPrototypeOf", "propertyIsEnumerable", "toLocaleString",
    "toString", "valueOf", "__proto__", "__defineGetter__", "__defineSetter__",
    "__lookupGetter__", "__lookupSetter__"]

/-- Whether the read `prev[key]` finds an inherited member: `key` is no own
property of the ledger and is a name of `Object.prototype`. The member is truthy
and not iterable, so `[...(prev[key] || []), u, b]` throws a `TypeError`. -/
def readsInherited (h : List (String × List ChatMsg)) (key : String) : Bool :=
  !h.any (fun e => decide (e.1 = key)) && inheritedKeys.contains key

/-- The read `prev[key] || []` of the `assistantHistory` object where it yields
an array: the own property `key`, or `[]` when `prev[key]` is `undefined`. The
read that finds an inherited member instead is `readsInherited`. -/
def history (h : List (String × List ChatMsg)) (key : String) : List ChatMsg :=
  match h.find? (fun e => decide (e.1 = key)) with
  | some e => e.2
  | none => []

/-- The object spread with one computed key: an existing key keeps its place and
gets the new value, a new key is added last. JavaScript enumerates keys that are
array indices before the others; the ledger is only ever read by key. -/
def setKey (h : List (String × List ChatMsg)) (key : String) (v : List ChatMsg) :
    List (String × List ChatMsg) :=
  if h.any (fun e => decide (e.1 = key)) then
    h.map (fun e => if e.1 = key then (key, v) else e)
  else h ++ [(key, v)]

/-- The property key an optional case id is turned into (`null` becomes `"null"`). -/
def keyOf (selectedCaseId : Option String) : String :=
  match selectedCaseId with
  | some k => k
  | none => "null"

/-- The handler `LandingAssistant.askAssistant`. The two updaters run when the
component renders next; when the ledger updater throws, the render fails and
neither the local chat nor the ledger has the exchange. -/
def askAssistant (toLowerCase : String → String) (prompt : String) (now : Nat → Int)
    (s : AppState) : Outcome AppState :=
  if trim prompt = "" then ⟨none, s⟩
  else
    let q := trim prompt
    let sel := s.store.cases.find? (fun c => decide (some c.id = s.store.selectedCaseId))
    let resp := fakeAiResponse toLowerCase q
      { caseTitle := sel.map (fun c => c.title)
        shortFacts := sel.map (fun c => slice0 c.description 120)
        favored := none }
    let userMsg : ChatMsg :=
      { id := toString (now 0) ++ "-u", from_ := orElse (s.user.map (fun u => u.name)) "Guest",
        text := q, ts := now 1 }
    let botMsg : ChatMsg :=
      { id := toString (now 2) ++ "-b", from_ := "AI Assistant", text := resp, ts := now 3 + 1 }
    if truthy s.store.selectedCaseId
        && readsInherited s.assistantHistory (keyOf s.store.selectedCaseId) then
      ⟨none, { s with crashed := true }⟩
    else
      ⟨none, { s with
        localChat := s.localChat ++ [userMsg, botMsg]
        assistantHistory :=
          if truthy s.store.selectedCaseId then
            setKey s.assistantHistory (keyOf s.store.selectedCaseId)
              (history s.assistantHistory (keyOf s.store.selectedCaseId) ++ [userMsg, botMsg])
          else s.assistantHistory }⟩

/-- The handler `CaseAssistant.ask`. The context it passes to the response
generator is empty whatever case is selected. When the ledger updater throws,
nothing is recorded. -/
def ask (toLowerCase : String → String) (prompt : String) (now : Nat → Int) (s : AppState) :
    Outcome AppState :=
  if trim prompt = "" then ⟨none, s⟩
  else
    let q := trim prompt
    let resp := fakeAiResponse toLowerCase q
      { caseTitle := some "", shortFacts := some "", favored := none }
    let u : ChatMsg := { id := toString (now 0) ++ "-u", from_ := "User", text := q, ts := now 1 }
    let b : ChatMsg :=
      { id := toString (now 2) ++ "-b", from_ := "AI Assistant", text := resp, ts := now 3 + 1 }
    if readsInherited s.assistantHistory (keyOf s.store.selectedCaseId) then
      ⟨none, { s with crashed := true }⟩
    else
      ⟨none, { s with
        assistantHistory :=
          setKey s.assistantHistory (keyOf s.store.selectedCaseId)
            (history s.assistantHistory (keyOf s.store.selectedCaseId) ++ [u, b]) }⟩

/-! ## The operations of the design as calls on the state -/

/-- A call on the case store with every argument of the design explicit: the
case id of `appendMessage` and `evaluate` is the case the caller has selected,
the principal is the `user` prop of the page. -/
inductive StoreCall where
  | create (author : Option Principal) (newCase : NewCase) (now : Nat → Int)
  | appendMessage (id : Option String) (sender : Option Principal) (message to_ : String)
      (now : Nat → Int)
  | evaluate (id : Option String) (principal : Option Principal) (favored : String)
      (now : Nat → Int)

/-- Runs one call on the case store. -/
def StoreCall.run (toLowerCase : String → String) : StoreCall → Store → Outcome Store
  | .create author newCase now, st => submitCase author newCase now st
  | .appendMessage id sender message to_ now, st =>
    sendMessage sender message to_ now (selectCase id st)
  | .evaluate id principal favored now, st =>
    AIJudicial.evaluate toLowerCase principal favored now (selectCase id st)

/-- Runs a finite sequence of calls on the case store, first call first. -/
def runCalls (toLowerCase : String → String) : List StoreCall → Store → Store
  | [], st => st
  | call :: rest, st => runCalls toLowerCase rest (call.run toLowerCase st).state

/-- One `submitCase` call: the signed-in principal, the form and the clock. -/
structure CreateCall where
  user : Option Principal
  newCase : NewCase
  now : Nat → Int

/-- The ids assigned by a sequence of `submitCase` calls, first call first: a
call that succeeds contributes the id of the case it put at the head of the
store, a call that fails contributes nothing. -/
def assignedIds : List CreateCall → Store → List String
  | [], _ => []
  | call :: rest, st =>
    let r := submitCase call.user call.newCase call.now st
    match r.alert, r.state.cases with
    | none, c :: _ => c.id :: assignedIds rest r.state
    | _, _ => assignedIds rest r.state

/-- A handler of the application, with the form state it reads as arguments. -/
inductive Op where
  | signup (signupForm : SignupForm)
  | login (loginName loginPassword : String)
  | logout
  | selectCase (id : Option String)
  | submitCase (newCase : NewCase) (now : Nat → Int)
  | sendMessage (message to_ : String) (now : Nat → Int)
  | evaluate (favored : String) (now : Nat → Int)
  | askAssistant (prompt : String) (now : Nat → Int)
  | ask (prompt : String) (now : Nat → Int)

/-- The outcome of a handler of the case store as an outcome on the whole state. -/
def liftStore (s : AppState) (r : Outcome Store) : Outcome AppState :=
  ⟨r.alert, { s with store := r.state }⟩

/-- Runs one handler on the application state; the pages get `user`, `cases`
and `selectedCaseId` from the state. -/
def Op.run (toLowerCase : String → String) : Op → AppState → Outcome AppState
  | .signup signupForm, s => AIJudicial.signup toLowerCase signupForm s
  | .login loginName loginPassword, s => AIJudicial.login toLowerCase loginName loginPassword s
  | .logout, s => AIJudicial.logout s
  | .selectCase id, s => ⟨none, { s with store := AIJudicial.selectCase id s.store }⟩
  | .submitCase newCase now, s => liftStore s (AIJudicial.submitCase s.user newCase now s.store)
  | .sendMessage message to_ now, s => liftStore s (AIJudicial.sendMessage s.user message to_ now s.store)
  | .evaluate favored now, s => liftStore s (AIJudicial.evaluate toLowerCase s.user favored now s.store)
  | .askAssistant prompt now, s => AIJudicial.askAssistant toLowerCase prompt now s
  | .ask prompt now, s => AIJudicial.ask toLowerCase prompt now s

/-- Runs a finite sequence of handlers on the application state, first one
first. The handlers are run whether or not an updater has thrown before, so the
runs of the application are among the sequences covered. -/
def runOps (toLowerCase : String → String) : List Op → AppState → AppState
  | [], s => s
  | op :: rest, s => runOps toLowerCase rest (op.run toLowerCase s).state

/-- No principal of the directory and no signed-in principal has the empty name. -/
def NamesNonEmpty (s : AppState) : Prop :=
  (∀ u ∈ s.users, u.name ≠ "") ∧ ∀ p, s.user = some p → p.name ≠ ""

/-! ## Predicates used by the statements -/

/-- The ids are pairwise distinct and each is an id `submitCase` computes for a
counter value between 1 and the number of ids. -/
def NumberedIds (ids : List String) : Prop :=
  ids.Nodup ∧ ∀ id ∈ ids, ∃ k, 1 ≤ k ∧ k ≤ ids.length ∧ id = caseId k

/-- The cases of a store carry pairwise distinct ids of the form `submitCase`
computes, with counter values between 1 and the number of cases: the ids of a
store that was seeded `CASE-001`, `CASE-002`, ... and then filled by
`submitCase`. -/
def Numbered (cases : List Case) : Prop :=
  NumberedIds (cases.map (fun c => c.id))

/-- The value of a list of decimal digit characters, most significant first. -/
def digitsValue (l : List Char) : Nat :=
  l.foldl (fun acc c => acc * 10 + (c.toNat - 48)) 0

/-- A case changes in place without leaving `Ruled`: the id is kept and the
status is kept or goes from `Submitted` or `Under Review` to `Ruled`. -/
def StatusStep (c c2 : Case) : Prop :=
  c2.id = c.id ∧
    (c2.status = c.status ∨
      ((c.status = Status.Submitted ∨ c.status = Status.UnderReview) ∧ c2.status = Status.Ruled))

/-- A clock used on concrete inputs: the `k`-th reading is `1700000000000 + k`. -/
def sampleClock (k : Nat) : Int :=
  1700000000000 + k

/-- The ruling `evaluate` builds for the case `sc` it found. -/
def evaluateRuling (toLowerCase : String → String) (judge : Principal) (favored : String)
    (now : Nat → Int) (sc : Case) : Ruling :=
  { id := "R-" ++ toString (now 0)
    text := fakeAiResponse toLowerCase "Evaluate and decide"
      { favored := some favored, caseTitle := some sc.title, shortFacts := none }
    ts := now 1
    judge := judge.name }

/-- The case record `submitCase` builds. -/
def createdCase (user : Option Principal) (newCase : NewCase) (now : Nat → Int) (st : Store) :
    Case :=
  { id := caseId (st.cases.length + 1)
    title := newCase.title
    description := newCase.description
    tags := ((split newCase.tags ',').map trim).filter (fun t => decide (t ≠ ""))
    evidence := []
    status := Status.Submitted
    timeline :=
      [{ ts := now 0, actor := orElse (user.map (fun u => u.name)) "Anon",
         action := "Submitted case" }]
    messages := []
    ruling := none }

/-- A filled-in case form used on concrete inputs. -/
def sampleForm : NewCase :=
  { title := "Lease dispute", description := "Tenant withholds rent.", tags := "civil, lease" }

/-- The store reached from the seeded store by 996 submissions: 998 cases. -/
def store998 : Store :=
  runCalls asciiLower (List.replicate 996 (StoreCall.create none sampleForm sampleClock))
    (initialStore sampleClock)

/-- A store seeded with the second sample case only. -/
def storeSeededCase002 : Store :=
  { cases := (sampleCases sampleClock).tail, selectedCaseId := some "CASE-002" }

/-- The failure kinds of the design. -/
inductive Failure where
  | InvalidInput
  | NotFound
  | Unauthorized
  | DuplicatePrincipal
  | InvalidCredentials
  deriving DecidableEq, Repr

/-- The failure a handler reports. A handler reports to its caller through
`alert` only, and each alert text of a failing path of `App.jsx` stands for one
failure kind; no alert, and the alert of a successful signup, report none. -/
def reportedFailure (alert : Option String) : Option Failure :=
  match alert with
  | none => none
  | some text =>
    if text = "Please provide name and password" then some Failure.InvalidInput
    else if text = "Enter name and password" then some Failure.InvalidInput
    else if text = "Title required" then some Failure.InvalidInput
    else if text = "User already exists (prototype)" then some Failure.DuplicatePrincipal
    else if text = "Invalid credentials (prototype)" then some Failure.InvalidCredentials
    else if text = "Sign in as Judge to evaluate." then some Failure.Unauthorized
    else if text = "Select a case" then some Failure.NotFound
    else none

/-- The message `sendMessage` builds. -/
def sentMessage (user : Option Principal) (message to_ : String) (now : Nat → Int) : Message :=
  { id := toString (now 0)
    from_ := orElse (user.map (fun u => u.role.toString)) "Lawyer" ++ ":"
      ++ orElse (user.map (fun u => u.name)) "Anon"
    to_ := to_
    text := message
    ts := now 1 }

/-- The test of `login` on a directory entry: the names agree after
lower-casing, the typed name trimmed, and the passwords are equal. -/
def loginMatch (toLowerCase : String → String) (loginName loginPassword : String) (u : User) :
    Bool :=
  decide (toLowerCase u.name = toLowerCase (trim loginName)) && decide (u.password = loginPassword)

/-- The directory entry `signup` builds from the form. -/
def signedUpUser (signupForm : SignupForm) : User :=
  { name := trim signupForm.name, role := signupForm.role, password := signupForm.password }

/-- No two principals of the directory have names that are equal after
lower-casing. -/
def NamesUnique (toLowerCase : String → String) (users : List User) : Prop :=
  users.Pairwise (fun u v => toLowerCase u.name ≠ toLowerCase v.name)

/-- The user turn `ask` builds. -/
def askUserTurn (prompt : String) (now : Nat → Int) : ChatMsg :=
  { id := toString (now 0) ++ "-u", from_ := "User", text := trim prompt, ts := now 1 }

/-- The assistant turn `ask` builds. -/
def askBotTurn (toLowerCase : String → String) (prompt : String) (now : Nat → Int) : ChatMsg :=
  { id := toString (now 2) ++ "-b", from_ := "AI Assistant",
    text := fakeAiResponse toLowerCase (trim prompt)
      { caseTitle := some "", shortFacts := some "", favored := none },
    ts := now 3 + 1 }

/-- The user turn `askAssistant` builds. -/
def askAssistantUserTurn (prompt : String) (now : Nat → Int) (s : AppState) : ChatMsg :=
  { id := toString (now 0) ++ "-u", from_ := orElse (s.user.map (fun u => u.name)) "Guest",
    text := trim prompt, ts := now 1 }

/-- The assistant turn `askAssistant` builds. -/
def askAssistantBotTurn (toLowerCase : String → String) (prompt : String) (now : Nat → Int)
    (s : AppState) : ChatMsg :=
  { id := toString (now 2) ++ "-b", from_ := "AI Assistant",
    text := fakeAiResponse toLowerCase (trim prompt)
      { caseTitle := (s.store.cases.find?
          (fun c => decide (some c.id = s.store.selectedCaseId))).map (fun c => c.title)
        shortFacts := (s.store.cases.find?
          (fun c => decide (some c.id = s.store.selectedCaseId))).map
            (fun c => slice0 c.description 120)
        favored := none },
    ts := now 3 + 1 }

/-- A clock that always shows the same time. -/
def frozenClock (_ : Nat) : Int :=
  1700000000000

/-- The handler `CaseAssistant.ask` with the response generator it gets as the
prop `fakeAiResponse` left open. -/
def askWith (generate : String → Context → String) (prompt : String) (now : Nat → Int)
    (s : AppState) : Outcome AppState :=
  if trim prompt = "" then ⟨none, s⟩
  else
    let q := trim prompt
    let resp := generate q { caseTitle := some "", shortFacts := some "", favored := none }
    let u : ChatMsg := { id := toString (now 0) ++ "-u", from_ := "User", text := q, ts := now 1 }
    let b : ChatMsg :=
      { id := toString (now 2) ++ "-b", from_ := "AI Assistant", text := resp, ts := now 3 + 1 }
    if readsInherited s.assistantHistory (keyOf s.store.selectedCaseId) then
      ⟨none, { s with crashed := true }⟩
    else
      ⟨none, { s with
        assistantHistory :=
          setKey s.assistantHistory (keyOf s.store.selectedCaseId)
            (history s.assistantHistory (keyOf s.store.selectedCaseId) ++ [u, b]) }⟩

/-- The handler `LandingAssistant.askAssistant` with the response generator it
gets as the prop `fakeAiResponse` left open. -/
def askAssistantWith (generate : String → Context → String) (prompt : String)
    (now : Nat → Int) (s : AppState) : Outcome AppState :=
  if trim prompt = "" then ⟨none, s⟩
  else
    let q := trim prompt
    let sel := s.store.cases.find? (fun c => decide (some c.id = s.store.selectedCaseId))
    let resp := generate q
      { caseTitle := sel.map (fun c => c.title)
        shortFacts := sel.map (fun c => slice0 c.description 120)
        favored := none }
    let userMsg : ChatMsg :=
      { id := toString (now 0) ++ "-u", from_ := orElse (s.user.map (fun u => u.name)) "Guest",
        text := q, ts := now 1 }
    let botMsg : ChatMsg :=
      { id := toString (now 2) ++ "-b", from_ := "AI Assistant", text := resp, ts := now 3 + 1 }
    if truthy s.store.selectedCaseId
        && readsInherited s.assistantHistory (keyOf s.store.selectedCaseId) then
      ⟨none, { s with crashed := true }⟩
    else
      ⟨none, { s with
        localChat := s.localChat ++ [userMsg, botMsg]
        assistantHistory :=
          if truthy s.store.selectedCaseId then
            setKey s.assistantHistory (keyOf s.store.selectedCaseId)
              (history s.assistantHistory (keyOf s.store.selectedCaseId) ++ [userMsg, botMsg])
          else s.assistantHistory }⟩

/-- The method `Array.prototype.reverse`: it reverses the receiver in place and
returns it. The pair is the value returned and the receiver after the call. -/
def reverseInPlace (a : List TimelineEntry) : List TimelineEntry × List TimelineEntry :=
  (a.reverse, a.reverse)

/-- The timeline rendering of the judge page, `timeline.slice().reverse()`: the
entries shown and the stored timeline after the expression. `slice()` makes the
copy that `reverse` then reverses in place. -/
def entries (c : Case) : List TimelineEntry × List TimelineEntry :=
  let copy := c.timeline
  ((reverseInPlace copy).1, c.timeline)

/-- The clock a call reads. -/
def StoreCall.clock : StoreCall → Nat → Int
  | .create _ _ now => now
  | .appendMessage _ _ _ _ now => now
  | .evaluate _ _ _ now => now

/-- The calls are made against a clock whose readings never decrease: the
readings of one call never decrease and no reading of a call is smaller than a
reading taken before it (`prev` lists the readings taken before the first call).
A call takes finitely many readings; its clock may repeat the last one. -/
def ClockOrdered : (Nat → Int) → List StoreCall → Prop
  | _, [] => True
  | prev, call :: rest =>
    Monotone call.clock ∧ (∀ a b, prev a ≤ call.clock b) ∧ ClockOrdered call.clock rest

/-- The calls are made against a clock that moves on between calls: the readings
of one call never decrease and every reading of a call is greater than every
reading taken before it. -/
def ClockAdvancing : (Nat → Int) → List StoreCall → Prop
  | _, [] => True
  | prev, call :: rest =>
    Monotone call.clock ∧ (∀ a b, prev a < call.clock b) ∧ ClockAdvancing call.clock rest

/-- A clock that shows the same time, `n` milliseconds after the frozen clock,
at every reading of one call. -/
def tickClock (n : Nat) (_ : Nat) : Int :=
  1700000000000 + n

/-- A run of the case store on the seeded store: a submission, two messages to
CASE-001 and a ruling on CASE-001, each call one millisecond after the one
before. -/
def sampleCalls : List StoreCall :=
  [StoreCall.create (some ⟨"Lawyer John", Role.Lawyer⟩) sampleForm (tickClock 1),
   StoreCall.appendMessage (some "CASE-001") (some ⟨"Lawyer John", Role.Lawyer⟩)
     "Please file the reply by Friday." "All" (tickClock 2),
   StoreCall.appendMessage (some "CASE-001") none "Noted." "All" (tickClock 3),
   StoreCall.evaluate (some "CASE-001") (some ⟨"Judge Judy", Role.Judge⟩) "plaintiff"
     (tickClock 4)]

/-- Two messages sent to CASE-001 while the clock shows the same time. -/
def frozenCalls : List StoreCall :=
  [StoreCall.appendMessage (some "CASE-001") none "First." "All" frozenClock,
   StoreCall.appendMessage (some "CASE-001") none "Second." "All" frozenClock]

/-- A run of the application: Judge Judy signs in and rules on CASE-001, a lawyer
registers, the judge signs out, the lawyer signs in and sends a message. -/
def sampleOps : List Op :=
  [Op.login "judge judy" "judgepass",
   Op.evaluate "defendant" (tickClock 1),
   Op.signup ⟨"Lawyer John", Role.Lawyer, "lawyerpass"⟩,
   Op.logout,
   Op.login "Lawyer John" "lawyerpass",
   Op.sendMessage "Please file the reply by Friday." "All" (tickClock 2)]

/-- The signed-in principal is in the directory and every ruling names a Judge
of the directory. -/
def Attributable (s : AppState) : Prop :=
  (∀ p, s.user = some p → ∃ u ∈ s.users, u.name = p.name ∧ u.role = p.role) ∧
  ∀ c ∈ s.store.cases, ∀ r, c.ruling = some r →
    ∃ u ∈ s.users, u.name = r.judge ∧ u.role = Role.Judge

/-- The timeline of a case is in time order and no entry is later than the
readings of the clock `f`. -/
def TimelineOk (f : Nat → Int) (c : Case) : Prop :=
  (c.timeline.map (fun e => e.ts)).Pairwise (fun a b => a ≤ b) ∧
  ∀ e ∈ c.timeline, ∃ a, e.ts ≤ f a

/-- The messages of a case have pairwise distinct ids and each id is the decimal
form of a time not later than the readings of the clock `f`. -/
def MessagesOk (f : Nat → Int) (c : Case) : Prop :=
  (c.messages.map (fun m => m.id)).Nodup ∧
  ∀ m ∈ c.messages, ∃ (t : Int) (a : Nat), m.id = toString t ∧ t ≤ f a

/-- The initial state after `setSelectedCaseId(id)`. -/
def selecting (id : String) : AppState :=
  { initialState sampleClock with
    store := selectCase (some id) (initialState sampleClock).store }

/-! ## Facts about the built-ins -/

theorem dropWhile_all_iff (p : Char → Bool) (l : List Char) :
    (∀ x ∈ l.dropWhile p, p x = true) ↔ ∀ x ∈ l, p x = true := by
  constructor
  · intro h
    have hnil : l.dropWhile p = [] := by
      by_contra hne
      have h1 := List.head_dropWhile_not p l hne
      have h2 := h _ (List.head_mem hne)
      simp [h2] at h1
    exact List.dropWhile_eq_nil_iff.mp hnil
  · intro h x hx
    exact h x ((List.dropWhile_suffix p).subset hx)

/-- The test `!s.trim()` of the handlers succeeds exactly on the strings made
of white space only (the empty string among them). -/
theorem trim_eq_empty_iff (s : String) :
    trim s = "" ↔ ∀ c ∈ s.data, isWhiteSpace c = true := by
  rw [String.ext_iff]
  show (s.data.dropWhile isWhiteSpace).rdropWhile isWhiteSpace = [] ↔ _
  rw [List.rdropWhile_eq_nil_iff, dropWhile_all_iff]

theorem trim_ne_empty_of_exists (s : String) (h : ∃ c ∈ s.data, isWhiteSpace c = false) :
    trim s ≠ "" := by
  intro h0
  obtain ⟨c, hc, hw⟩ := h
  have := (trim_eq_empty_iff s).mp h0 c hc
  simp [hw] at this

/-! ## Facts about the in-place update -/

theorem mapSelected_forall₂ (R : Case → Case → Prop) (sel : Option String)
    (upd : Case → Int → Case) (hrefl : ∀ c, some c.id ≠ sel → R c c)
    (hupd : ∀ c t, some c.id = sel → R c (upd c t)) :
    ∀ (cs : List Case) (now : Nat → Int), List.Forall₂ R cs (mapSelected sel upd now cs) := by
  intro cs
  induction cs with
  | nil => intro now; exact List.Forall₂.nil
  | cons c cs ih =>
    intro now
    unfold mapSelected
    by_cases h : some c.id = sel
    · rw [if_pos h]
      exact List.Forall₂.cons (hupd c _ h) (ih _)
    · rw [if_neg h]
      exact List.Forall₂.cons (hrefl c h) (ih _)

theorem mapSelected_of_not_mem (sel : Option String) (upd : Case → Int → Case) :
    ∀ (cs : List Case) (now : Nat → Int), (∀ c ∈ cs, some c.id ≠ sel) →
      mapSelected sel upd now cs = cs := by
  intro cs
  induction cs with
  | nil => intro now _; rfl
  | cons c cs ih =>
    intro now h
    unfold mapSelected
    rw [if_neg (h c (List.mem_cons_self _ _)), ih now (fun d hd => h d (List.mem_cons_of_mem _ hd))]

theorem mapSelected_ids (sel : Option String) (upd : Case → Int → Case)
    (hid : ∀ c t, (upd c t).id = c.id) :
    ∀ (cs : List Case) (now : Nat → Int),
      (mapSelected sel upd now cs).map (fun c => c.id) = cs.map (fun c => c.id) := by
  intro cs
  induction cs with
  | nil => intro now; rfl
  | cons c cs ih =>
    intro now
    unfold mapSelected
    by_cases h : some c.id = sel
    · rw [if_pos h, List.map_cons, List.map_cons, hid, ih]
    · rw [if_neg h, List.map_cons, List.map_cons, ih]

/-! ## `evaluate` -/

/-- C1. A principal that is absent or whose role is not Judge cannot evaluate:
whatever the store and the selected case id, `evaluate` alerts
"Sign in as Judge to evaluate." (the Unauthorized failure) and returns the
store it was given, so no case changes its status, ruling or timeline. -/
theorem evaluate_unauthorized (toLowerCase : String → String) (userObj : Option Principal)
    (favored : String) (now : Nat → Int) (st : Store)
    (h : ∀ p, userObj = some p → p.role ≠ Role.Judge) :
    evaluate toLowerCase userObj favored now st
      = ⟨some "Sign in as Judge to evaluate.", st⟩ := by
  unfold evaluate
  cases userObj with
  | none => rfl
  | some p => simp [h p rfl]

theorem evaluate_unauthorized_witness :
    (∀ p, some (Principal.mk "Lawyer John" Role.Lawyer) = some p → p.role ≠ Role.Judge) ∧
    evaluate asciiLower (some ⟨"Lawyer John", Role.Lawyer⟩) "plaintiff" sampleClock
        (initialStore sampleClock)
      = ⟨some "Sign in as Judge to evaluate.", initialStore sampleClock⟩ :=
  ⟨by intro p hp; cases hp; decide,
   evaluate_unauthorized asciiLower (some ⟨"Lawyer John", Role.Lawyer⟩) "plaintiff" sampleClock
     (initialStore sampleClock) (by intro p hp; cases hp; decide)⟩

theorem find?_selected_eq_none (st : Store) (h : ∀ c ∈ st.cases, some c.id ≠ st.selectedCaseId) :
    st.cases.find? (fun c => decide (some c.id = st.selectedCaseId)) = none := by
  rw [List.find?_eq_none]
  intro c hc
  simpa using h c hc

theorem find?_selected_isSome (st : Store) (h : ∃ c ∈ st.cases, some c.id = st.selectedCaseId) :
    ∃ sc, st.cases.find? (fun c => decide (some c.id = st.selectedCaseId)) = some sc := by
  obtain ⟨c, hc, hid⟩ := h
  cases hf : st.cases.find? (fun c => decide (some c.id = st.selectedCaseId)) with
  | some sc => exact ⟨sc, rfl⟩
  | none =>
    rw [List.find?_eq_none] at hf
    have := hf c hc
    simp [hid] at this

/-- C4. A Judge evaluating a case id that no case of the store has (or with
nothing selected) gets the alert "Select a case" (the NotFound failure); no
ruling is recorded and the store is returned as it was. -/
theorem evaluate_not_found (toLowerCase : String → String) (judge : Principal)
    (favored : String) (now : Nat → Int) (st : Store)
    (hrole : judge.role = Role.Judge)
    (h : ∀ c ∈ st.cases, some c.id ≠ st.selectedCaseId) :
    evaluate toLowerCase (some judge) favored now st = ⟨some "Select a case", st⟩ := by
  unfold evaluate
  simp only [hrole, ne_eq, not_true_eq_false, if_false, find?_selected_eq_none st h]

theorem evaluate_not_found_witness :
    (Principal.mk "Judge Judy" Role.Judge).role = Role.Judge ∧
    (∀ c ∈ (selectCase (some "CASE-999") (initialStore sampleClock)).cases,
      some c.id ≠ (selectCase (some "CASE-999") (initialStore sampleClock)).selectedCaseId) ∧
    evaluate asciiLower (some ⟨"Judge Judy", Role.Judge⟩) "plaintiff" sampleClock
        (selectCase (some "CASE-999") (initialStore sampleClock))
      = ⟨some "Select a case", selectCase (some "CASE-999") (initialStore sampleClock)⟩ :=
  ⟨rfl, by decide,
   evaluate_not_found asciiLower ⟨"Judge Judy", Role.Judge⟩ "plaintiff" sampleClock
     (selectCase (some "CASE-999") (initialStore sampleClock)) rfl (by decide)⟩

theorem evaluate_eq_of_found (toLowerCase : String → String) (judge : Principal)
    (favored : String) (now : Nat → Int) (st : Store) (sc : Case)
    (hrole : judge.role = Role.Judge)
    (hsc : st.cases.find? (fun c => decide (some c.id = st.selectedCaseId)) = some sc) :
    evaluate toLowerCase (some judge) favored now st
      = ⟨none, { st with
          cases := mapSelected st.selectedCaseId
            (fun c t => { c with
              ruling := some (evaluateRuling toLowerCase judge favored now sc)
              status := Status.Ruled
              timeline := c.timeline ++
                [{ ts := t, actor := "Judge:" ++ judge.name, action := "Issued ruling" }] })
            (fun k => now (k + 2)) st.cases }⟩ := by
  unfold evaluate
  simp only [hrole, ne_eq, not_true_eq_false, if_false, hsc]
  rfl

/-- C2. A Judge evaluating a case id that the store holds succeeds whatever the
status of the case: no alert, the selection is kept, every case with another id
is untouched, and the case with the selected id gets status Ruled, the new
ruling (judge name equal to the name of the requesting principal, replacing any
earlier ruling) and its old timeline followed by exactly one entry, whose action
is "Issued ruling". -/
theorem evaluate_rules (toLowerCase : String → String) (judge : Principal) (favored : String)
    (now : Nat → Int) (st : Store) (hrole : judge.role = Role.Judge)
    (hsel : ∃ c ∈ st.cases, some c.id = st.selectedCaseId) :
    (evaluate toLowerCase (some judge) favored now st).alert = none ∧
    (evaluate toLowerCase (some judge) favored now st).state.selectedCaseId
      = st.selectedCaseId ∧
    ∃ r : Ruling, r.judge = judge.name ∧ r.id = "R-" ++ toString (now 0) ∧ r.ts = now 1 ∧
      List.Forall₂
        (fun c c2 =>
          (some c.id ≠ st.selectedCaseId ∧ c2 = c) ∨
          (some c.id = st.selectedCaseId ∧ c2.id = c.id ∧ c2.status = Status.Ruled ∧
            c2.ruling = some r ∧ c2.title = c.title ∧
            ∃ e : TimelineEntry, e.action = "Issued ruling" ∧ c2.timeline = c.timeline ++ [e]))
        st.cases (evaluate toLowerCase (some judge) favored now st).state.cases := by
  obtain ⟨sc, hsc⟩ := find?_selected_isSome st hsel
  rw [evaluate_eq_of_found toLowerCase judge favored now st sc hrole hsc]
  refine ⟨rfl, rfl, ⟨evaluateRuling toLowerCase judge favored now sc, rfl, rfl, rfl, ?_⟩⟩
  apply mapSelected_forall₂
  · intro c hc
    exact Or.inl ⟨hc, rfl⟩
  · intro c t hc
    exact Or.inr ⟨hc, rfl, rfl, rfl, rfl, ⟨_, rfl, rfl⟩⟩

theorem evaluate_rules_witness :
    (login asciiLower "Judge Judy" "judgepass" (initialState sampleClock)).state.user
      = some ⟨"Judge Judy", Role.Judge⟩ ∧
    (∃ c ∈ (initialStore sampleClock).cases,
      some c.id = (initialStore sampleClock).selectedCaseId) ∧
    (evaluate asciiLower (some ⟨"Judge Judy", Role.Judge⟩) "plaintiff" sampleClock
        (initialStore sampleClock)).state.cases.map
      (fun c => (c.id, c.status, c.ruling.map (fun r => r.judge), c.timeline.length))
      = [("CASE-001", Status.Ruled, some "Judge Judy", 2),
         ("CASE-002", Status.Submitted, none, 1)] ∧
    ∃ r : Ruling, r.judge = "Judge Judy" ∧ r.id = "R-" ++ toString (sampleClock 0) ∧
      r.ts = sampleClock 1 ∧
      List.Forall₂
        (fun c c2 =>
          (some c.id ≠ (initialStore sampleClock).selectedCaseId ∧ c2 = c) ∨
          (some c.id = (initialStore sampleClock).selectedCaseId ∧ c2.id = c.id ∧
            c2.status = Status.Ruled ∧ c2.ruling = some r ∧ c2.title = c.title ∧
            ∃ e : TimelineEntry, e.action = "Issued ruling" ∧ c2.timeline = c.timeline ++ [e]))
        (initialStore sampleClock).cases
        (evaluate asciiLower (some ⟨"Judge Judy", Role.Judge⟩) "plaintiff" sampleClock
          (initialStore sampleClock)).state.cases :=
  ⟨by decide, by decide, by decide,
   (evaluate_rules asciiLower ⟨"Judge Judy", Role.Judge⟩ "plaintiff" sampleClock
     (initialStore sampleClock) rfl (by decide)).2.2⟩

/-! ## Ruled is terminal -/

theorem StatusStep.refl (c : Case) : StatusStep c c :=
  ⟨rfl, Or.inl rfl⟩

theorem statusStep_forall₂_refl (cs : List Case) : List.Forall₂ StatusStep cs cs := by
  induction cs with
  | nil => exact List.Forall₂.nil
  | cons c cs ih => exact List.Forall₂.cons (StatusStep.refl c) ih

theorem sendMessage_statusStep (user : Option Principal) (message to_ : String)
    (now : Nat → Int) (st : Store) :
    List.Forall₂ StatusStep st.cases (sendMessage user message to_ now st).state.cases := by
  unfold sendMessage
  split
  · exact statusStep_forall₂_refl _
  · apply mapSelected_forall₂
    · intro c _; exact StatusStep.refl c
    · intro c t _; exact ⟨rfl, Or.inl rfl⟩

theorem evaluate_statusStep (toLowerCase : String → String) (userObj : Option Principal)
    (favored : String) (now : Nat → Int) (st : Store) :
    List.Forall₂ StatusStep st.cases
      (evaluate toLowerCase userObj favored now st).state.cases := by
  unfold evaluate
  split
  · exact statusStep_forall₂_refl _
  · split
    · exact statusStep_forall₂_refl _
    · split
      · exact statusStep_forall₂_refl _
      · apply mapSelected_forall₂
        · intro c _; exact StatusStep.refl c
        · intro c t _
          refine ⟨rfl, ?_⟩
          cases hs : c.status
          · exact Or.inr ⟨Or.inl rfl, rfl⟩
          · exact Or.inr ⟨Or.inr rfl, rfl⟩
          · exact Or.inl rfl

theorem submitCase_cases (user : Option Principal) (newCase : NewCase) (now : Nat → Int)
    (st : Store) :
    ∃ added, (submitCase user newCase now st).state.cases = added ++ st.cases := by
  unfold submitCase
  split
  · exact ⟨[], rfl⟩
  · exact ⟨[_], rfl⟩

/-- C3. Ruled is terminal. Whatever handler of the application runs (signup,
login, logout, selecting a case, submitCase, sendMessage, evaluate and the two
assistant handlers), with any arguments on any state, the cases after it are
the cases before it, each changed in place, possibly preceded by newly created
ones; a case that was there before keeps its id, and its status is what it was
or has gone from Submitted or Under Review to Ruled, so a case that was Ruled
is still Ruled. -/
theorem ruled_is_terminal (toLowerCase : String → String) (op : Op) (s : AppState) :
    ∃ added kept, (op.run toLowerCase s).state.store.cases = added ++ kept ∧
      List.Forall₂ StatusStep s.store.cases kept := by
  cases op with
  | signup signupForm =>
    refine ⟨[], s.store.cases, ?_, statusStep_forall₂_refl _⟩
    simp only [Op.run, signup]
    split
    · rfl
    · split <;> rfl
  | login loginName loginPassword =>
    refine ⟨[], s.store.cases, ?_, statusStep_forall₂_refl _⟩
    simp only [Op.run, login]
    split
    · rfl
    · split <;> rfl
  | logout => exact ⟨[], s.store.cases, rfl, statusStep_forall₂_refl _⟩
  | selectCase id => exact ⟨[], s.store.cases, rfl, statusStep_forall₂_refl _⟩
  | submitCase newCase now =>
    obtain ⟨added, h⟩ := submitCase_cases s.user newCase now s.store
    exact ⟨added, s.store.cases, h, statusStep_forall₂_refl _⟩
  | sendMessage message to_ now =>
    exact ⟨[], _, rfl, sendMessage_statusStep s.user message to_ now s.store⟩
  | evaluate favored now =>
    exact ⟨[], _, rfl, evaluate_statusStep toLowerCase s.user favored now s.store⟩
  | askAssistant prompt now =>
    refine ⟨[], s.store.cases, ?_, statusStep_forall₂_refl _⟩
    simp only [Op.run, askAssistant]
    split
    · rfl
    · split <;> rfl
  | ask prompt now =>
    refine ⟨[], s.store.cases, ?_, statusStep_forall₂_refl _⟩
    simp only [Op.run, ask]
    split
    · rfl
    · split <;> rfl

/-! ## Decimal digits and the identifier -/

theorem toDigitsCore_append (b : Nat) :
    ∀ (fuel n : Nat) (ds : List Char),
      Nat.toDigitsCore b fuel n ds = Nat.toDigitsCore b fuel n [] ++ ds := by
  intro fuel
  induction fuel with
  | zero => intro n ds; simp [Nat.toDigitsCore]
  | succ fuel ih =>
    intro n ds
    simp only [Nat.toDigitsCore]
    split
    · simp
    · rw [ih (n / b) (Nat.digitChar (n % b) :: ds), ih (n / b) [Nat.digitChar (n % b)]]
      simp

theorem digitsValue_append_singleton (l : List Char) (c : Char) :
    digitsValue (l ++ [c]) = digitsValue l * 10 + (c.toNat - 48) := by
  simp [digitsValue, List.foldl_append]

theorem digitChar_toNat (k : Nat) (hk : k < 10) : (Nat.digitChar k).toNat - 48 = k := by
  interval_cases k <;> rfl

theorem digitsValue_toDigitsCore :
    ∀ (fuel n : Nat), n < fuel → digitsValue (Nat.toDigitsCore 10 fuel n []) = n := by
  intro fuel
  induction fuel with
  | zero => intro n h; omega
  | succ fuel ih =>
    intro n h
    simp only [Nat.toDigitsCore]
    split
    · next h0 =>
      have hn : n < 10 := by omega
      have hm : n % 10 = n := by omega
      rw [hm]
      simp [digitsValue, digitChar_toNat n hn]
    · next h0 =>
      rw [toDigitsCore_append, digitsValue_append_singleton, ih (n / 10) (by omega),
        digitChar_toNat (n % 10) (Nat.mod_lt _ (by decide))]
      omega

theorem digitsValue_repr (n : Nat) : digitsValue (Nat.repr n).data = n := by
  show digitsValue (Nat.toDigitsCore 10 (n + 1) n []) = n
  exact digitsValue_toDigitsCore (n + 1) n (Nat.lt_succ_self n)

theorem digitsValue_replicate_zero (k : Nat) (l : List Char) :
    digitsValue (List.replicate k '0' ++ l) = digitsValue l := by
  induction k with
  | zero => rfl
  | succ k ih =>
    rw [List.replicate_succ, List.cons_append]
    unfold digitsValue at ih ⊢
    rw [List.foldl_cons]
    exact ih

theorem digitsValue_padStart (n : Nat) : digitsValue (padStart (Nat.repr n) 3 '0').data = n := by
  show digitsValue (List.replicate _ '0' ++ (Nat.repr n).data) = n
  rw [digitsValue_replicate_zero, digitsValue_repr]

theorem caseId_data (n : Nat) :
    (caseId n).data = ['C', 'A', 'S', 'E', '-'] ++ (padStart (Nat.repr n) 3 '0').data := by
  unfold caseId
  rw [String.data_append]

/-- Different counter values give different identifiers. -/
theorem caseId_injective : Function.Injective caseId := by
  intro a b h
  have h1 : (caseId a).data = (caseId b).data := by rw [h]
  rw [caseId_data, caseId_data] at h1
  have h2 := List.append_cancel_left h1
  rw [← digitsValue_padStart a, ← digitsValue_padStart b, h2]


/-! ## Identifiers of the same width are ordered like their numbers -/

theorem char_eq_of_toNat_eq (c1 c2 : Char) (h : c1.toNat = c2.toNat) : c1 = c2 := by
  apply Char.ext
  apply UInt32.ext
  exact h

theorem digitsValue_foldl (l : List Char) :
    ∀ a : Nat, l.foldl (fun acc c => acc * 10 + (c.toNat - 48)) a
      = a * 10 ^ l.length + digitsValue l := by
  induction l with
  | nil => intro a; simp [digitsValue]
  | cons c l ih =>
    intro a
    unfold digitsValue
    rw [List.foldl_cons, List.foldl_cons, ih, ih (0 * 10 + (c.toNat - 48)), List.length_cons]
    ring

theorem digitsValue_cons (c : Char) (l : List Char) :
    digitsValue (c :: l) = (c.toNat - 48) * 10 ^ l.length + digitsValue l := by
  show (c :: l).foldl _ 0 = _
  rw [List.foldl_cons, digitsValue_foldl]
  simp

theorem digitsValue_lt (l : List Char) (hd : ∀ c ∈ l, 48 ≤ c.toNat ∧ c.toNat ≤ 57) :
    digitsValue l < 10 ^ l.length := by
  induction l with
  | nil => simp [digitsValue]
  | cons c l ih =>
    have h1 := ih (fun d hd2 => hd d (List.mem_cons_of_mem _ hd2))
    have h2 := hd c (List.mem_cons_self _ _)
    rw [digitsValue_cons, List.length_cons, pow_succ]
    have h3 : (c.toNat - 48) * 10 ^ l.length ≤ 9 * 10 ^ l.length :=
      Nat.mul_le_mul_right _ (by omega)
    omega

/-- Digit strings of the same length compare as strings the way their values
compare as numbers. -/
theorem digits_lex_of_value_lt :
    ∀ (l1 l2 : List Char), l1.length = l2.length →
      (∀ c ∈ l1, 48 ≤ c.toNat ∧ c.toNat ≤ 57) → (∀ c ∈ l2, 48 ≤ c.toNat ∧ c.toNat ≤ 57) →
      digitsValue l1 < digitsValue l2 → l1 < l2 := by
  intro l1
  induction l1 with
  | nil =>
    intro l2 hlen _ _ hv
    cases l2 with
    | nil => simp [digitsValue] at hv
    | cons c l => simp at hlen
  | cons c1 t1 ih =>
    intro l2 hlen hd1 hd2 hv
    cases l2 with
    | nil => simp at hlen
    | cons c2 t2 =>
      have hlen2 : t1.length = t2.length := by simpa using hlen
      have ht1 := fun d hd => hd1 d (List.mem_cons_of_mem _ hd)
      have ht2 := fun d hd => hd2 d (List.mem_cons_of_mem _ hd)
      have hc1 := hd1 c1 (List.mem_cons_self _ _)
      have hc2 := hd2 c2 (List.mem_cons_self _ _)
      have hb1 := digitsValue_lt t1 ht1
      have hb2 := digitsValue_lt t2 ht2
      rw [digitsValue_cons, digitsValue_cons, hlen2] at hv
      rw [hlen2] at hb1
      rcases Nat.lt_trichotomy c1.toNat c2.toNat with hlt | heq | hgt
      · exact List.Lex.rel hlt
      · have hceq : c1 = c2 := char_eq_of_toNat_eq c1 c2 heq
        subst hceq
        exact List.Lex.cons (ih t2 hlen2 ht1 ht2 (by omega))
      · exfalso
        have h3 : (c2.toNat - 48 + 1) * 10 ^ t2.length ≤ (c1.toNat - 48) * 10 ^ t2.length :=
          Nat.mul_le_mul_right _ (by omega)
        rw [Nat.add_mul] at h3
        omega

theorem digitChar_isDigit (k : Nat) (hk : k < 10) :
    48 ≤ (Nat.digitChar k).toNat ∧ (Nat.digitChar k).toNat ≤ 57 := by
  interval_cases k <;> decide

theorem toDigitsCore_isDigit :
    ∀ (fuel n : Nat) (ds : List Char), (∀ c ∈ ds, 48 ≤ c.toNat ∧ c.toNat ≤ 57) →
      ∀ c ∈ Nat.toDigitsCore 10 fuel n ds, 48 ≤ c.toNat ∧ c.toNat ≤ 57 := by
  intro fuel
  induction fuel with
  | zero => intro n ds h; simpa [Nat.toDigitsCore] using h
  | succ fuel ih =>
    intro n ds h
    have hcons : ∀ c ∈ Nat.digitChar (n % 10) :: ds, 48 ≤ c.toNat ∧ c.toNat ≤ 57 := by
      intro c hc
      rcases List.mem_cons.mp hc with rfl | hc
      · exact digitChar_isDigit _ (Nat.mod_lt _ (by decide))
      · exact h c hc
    simp only [Nat.toDigitsCore]
    split
    · exact hcons
    · exact ih _ _ hcons

theorem padStart_isDigit (n : Nat) :
    ∀ c ∈ (padStart (Nat.repr n) 3 '0').data, 48 ≤ c.toNat ∧ c.toNat ≤ 57 := by
  intro c hc
  have hc2 : c ∈ List.replicate (3 - (Nat.repr n).data.length) '0' ++ (Nat.repr n).data := hc
  rcases List.mem_append.mp hc2 with h | h
  · rw [(List.mem_replicate.mp h).2]; decide
  · exact toDigitsCore_isDigit (n + 1) n [] (by simp) c h

theorem padStart_length (n : Nat) (hn : n < 1000) :
    (padStart (Nat.repr n) 3 '0').data.length = 3 := by
  have h := Nat.repr_length n 3 (by decide) (by omega)
  have h2 : (Nat.repr n).data.length ≤ 3 := h
  show (List.replicate (3 - (Nat.repr n).data.length) '0' ++ (Nat.repr n).data).length = 3
  rw [List.length_append, List.length_replicate]
  omega

theorem lex_append_left (p : List Char) {x y : List Char} (h : x < y) : p ++ x < p ++ y := by
  induction p with
  | nil => exact h
  | cons c p ih => exact List.Lex.cons ih

/-- Identifiers of the same length are ordered, as strings, like their counter
values. -/
theorem caseId_lt_of_lt_of_length (a b : Nat) (hab : a < b)
    (hlen : (padStart (Nat.repr a) 3 '0').data.length = (padStart (Nat.repr b) 3 '0').data.length) :
    caseId a < caseId b := by
  rw [String.lt_iff_toList_lt]
  show (caseId a).data < (caseId b).data
  rw [caseId_data, caseId_data]
  apply lex_append_left
  apply digits_lex_of_value_lt _ _ hlen (padStart_isDigit a) (padStart_isDigit b)
  rw [digitsValue_padStart, digitsValue_padStart]
  exact hab

/-- Up to `CASE-999` the identifiers are ordered, as strings, like their
counter values. -/
theorem caseId_lt_of_lt (a b : Nat) (hab : a < b) (hb : b ≤ 999) : caseId a < caseId b :=
  caseId_lt_of_lt_of_length a b hab
    (by rw [padStart_length a (by omega), padStart_length b (by omega)])

/-! ## `submitCase` -/

theorem submitCase_of_blank (user : Option Principal) (newCase : NewCase) (now : Nat → Int)
    (st : Store) (h : trim newCase.title = "") :
    submitCase user newCase now st = ⟨some "Title required", st⟩ := by
  unfold submitCase
  rw [if_pos h]

theorem submitCase_of_not_blank (user : Option Principal) (newCase : NewCase)
    (now : Nat → Int) (st : Store) (h : trim newCase.title ≠ "") :
    submitCase user newCase now st
      = ⟨none, { cases := createdCase user newCase now st :: st.cases,
                 selectedCaseId := some (caseId (st.cases.length + 1)) }⟩ := by
  unfold submitCase
  rw [if_neg h]
  rfl

theorem sendMessage_ids (user : Option Principal) (message to_ : String) (now : Nat → Int)
    (st : Store) :
    (sendMessage user message to_ now st).state.cases.map (fun c => c.id)
      = st.cases.map (fun c => c.id) := by
  unfold sendMessage
  split
  · rfl
  · refine mapSelected_ids _ _ ?_ _ _
    intro _ _
    rfl

theorem evaluate_ids (toLowerCase : String → String) (userObj : Option Principal)
    (favored : String) (now : Nat → Int) (st : Store) :
    (evaluate toLowerCase userObj favored now st).state.cases.map (fun c => c.id)
      = st.cases.map (fun c => c.id) := by
  unfold evaluate
  split
  · rfl
  · split
    · rfl
    · split
      · rfl
      · refine mapSelected_ids _ _ ?_ _ _
        intro _ _
        rfl

/-! ## Uniqueness of the case ids -/

theorem numberedIds_cons (ids : List String) (h : NumberedIds ids) :
    NumberedIds (caseId (ids.length + 1) :: ids) := by
  obtain ⟨hnd, hmem⟩ := h
  refine ⟨List.nodup_cons.mpr ⟨?_, hnd⟩, ?_⟩
  · intro hin
    obtain ⟨k, _, hk, he⟩ := hmem _ hin
    have := caseId_injective he
    omega
  · intro id hid
    rcases List.mem_cons.mp hid with rfl | hid
    · exact ⟨ids.length + 1, by omega, by simp, rfl⟩
    · obtain ⟨k, h1, hk, he⟩ := hmem id hid
      exact ⟨k, h1, by simp; omega, he⟩

theorem numbered_sampleCases (now : Nat → Int) : Numbered (sampleCases now) := by
  refine ⟨by simp [sampleCases], ?_⟩
  intro id hid
  simp only [sampleCases, List.map_cons, List.map_nil, List.mem_cons, List.mem_singleton,
    List.not_mem_nil, or_false] at hid
  rcases hid with rfl | rfl
  · exact ⟨1, by decide, by simp [sampleCases], by decide⟩
  · exact ⟨2, by decide, by simp [sampleCases], by decide⟩

theorem numbered_run (toLowerCase : String → String) (call : StoreCall) (st : Store)
    (h : Numbered st.cases) : Numbered (call.run toLowerCase st).state.cases := by
  cases call with
  | create author newCase now =>
    show Numbered (submitCase author newCase now st).state.cases
    by_cases hb : trim newCase.title = ""
    · rw [submitCase_of_blank _ _ _ _ hb]; exact h
    · rw [submitCase_of_not_blank _ _ _ _ hb]
      have := numberedIds_cons _ h
      rw [List.length_map] at this
      exact this
  | appendMessage id sender message to_ now =>
    show NumberedIds ((sendMessage sender message to_ now (selectCase id st)).state.cases.map _)
    rw [sendMessage_ids]
    exact h
  | evaluate id principal favored now =>
    show NumberedIds
      ((evaluate toLowerCase principal favored now (selectCase id st)).state.cases.map _)
    rw [evaluate_ids]
    exact h

theorem numbered_runCalls (toLowerCase : String → String) (calls : List StoreCall) :
    ∀ st : Store, Numbered st.cases → Numbered (runCalls toLowerCase calls st).cases := by
  induction calls with
  | nil => intro st h; exact h
  | cons call rest ih =>
    intro st h
    exact ih _ (numbered_run toLowerCase call st h)

/-- C5. Case ids stay unique: in the store reached from the seeded store
(CASE-001, CASE-002) by any finite sequence of create, appendMessage and
evaluate calls, with any case ids, principals, texts and clock readings, the
ids of the cases are pairwise distinct. -/
theorem case_ids_unique (toLowerCase : String → String) (calls : List StoreCall)
    (now : Nat → Int) :
    ((runCalls toLowerCase calls (initialStore now)).cases.map (fun c => c.id)).Nodup :=
  (numbered_runCalls toLowerCase calls (initialStore now) (numbered_sampleCases now)).1


/-! ## The ids assigned by successive creations -/

theorem assignedIds_eq_range (calls : List CreateCall) :
    ∀ st : Store, ∃ k, k ≤ calls.length ∧
      assignedIds calls st = (List.range' (st.cases.length + 1) k).map caseId := by
  induction calls with
  | nil => intro st; exact ⟨0, le_refl _, rfl⟩
  | cons call rest ih =>
    intro st
    unfold assignedIds
    by_cases hb : trim call.newCase.title = ""
    · rw [submitCase_of_blank _ _ _ _ hb]
      obtain ⟨k, hk, he⟩ := ih st
      exact ⟨k, by simp; omega, he⟩
    · rw [submitCase_of_not_blank _ _ _ _ hb]
      obtain ⟨k, hk, he⟩ := ih
        { cases := createdCase call.user call.newCase call.now st :: st.cases,
          selectedCaseId := some (caseId (st.cases.length + 1)) }
      refine ⟨k + 1, by simp; omega, ?_⟩
      show (createdCase call.user call.newCase call.now st).id :: assignedIds rest _ = _
      rw [he, List.range'_succ, List.map_cons]
      rfl

theorem range_map_caseId_chain (s k : Nat) (h : s + k ≤ 1000) :
    List.Chain' (fun a b : String => a < b) ((List.range' s k).map caseId) := by
  apply List.Pairwise.chain'
  rw [List.pairwise_map]
  have hp : List.Pairwise (fun a b => a < b) (List.range' s k) := List.pairwise_lt_range' s k
  have hm : ∀ a ∈ List.range' s k, a ≤ 999 := by
    intro a ha
    have := (List.mem_range'_1.mp ha).2
    omega
  exact hp.imp_of_mem (fun _ hb hab => caseId_lt_of_lt _ _ hab (hm _ hb))

/-- C6, as amended. The ids assigned by any sequence of submitCase calls on any
store are pairwise distinct; and as long as the counter stays within the padding
width (the store holds at most 999 cases after the calls) each id is strictly
greater, as a string, than the id assigned by the call before it. -/
theorem assignedIds_distinct_increasing (calls : List CreateCall) (st : Store) :
    (assignedIds calls st).Nodup ∧
    (st.cases.length + calls.length ≤ 999 →
      List.Chain' (fun a b : String => a < b) (assignedIds calls st)) := by
  obtain ⟨k, hk, he⟩ := assignedIds_eq_range calls st
  rw [he]
  constructor
  · exact (List.nodup_range' _ _).map caseId_injective
  · intro hlen
    exact range_map_caseId_chain _ _ (by omega)


theorem assignedIds_distinct_increasing_witness :
    (initialStore sampleClock).cases.length
        + [CreateCall.mk none sampleForm sampleClock, ⟨none, sampleForm, sampleClock⟩].length
      ≤ 999 ∧
    assignedIds [⟨none, sampleForm, sampleClock⟩, ⟨none, sampleForm, sampleClock⟩]
        (initialStore sampleClock) = ["CASE-003", "CASE-004"] ∧
    List.Chain' (fun a b : String => a < b)
      (assignedIds [⟨none, sampleForm, sampleClock⟩, ⟨none, sampleForm, sampleClock⟩]
        (initialStore sampleClock)) :=
  ⟨by decide, by decide,
   (assignedIds_distinct_increasing
      [⟨none, sampleForm, sampleClock⟩, ⟨none, sampleForm, sampleClock⟩]
      (initialStore sampleClock)).2 (by decide)⟩

set_option maxRecDepth 100000 in
/-- C6, counterexample. On the store of 998 cases reached from the seeded store
by 996 submissions, two more submissions are assigned CASE-999 and then
CASE-1000, and "CASE-1000" is not greater than "CASE-999" as a string: the ids of
successive creations are not lexicographically increasing there. -/
theorem assignedIds_not_increasing :
    store998.cases.length = 998 ∧
    assignedIds [⟨none, sampleForm, sampleClock⟩, ⟨none, sampleForm, sampleClock⟩] store998
      = ["CASE-999", "CASE-1000"] ∧
    ¬ List.Chain' (fun a b : String => a < b)
      (assignedIds [⟨none, sampleForm, sampleClock⟩, ⟨none, sampleForm, sampleClock⟩]
        store998) := by
  have hids : assignedIds [⟨none, sampleForm, sampleClock⟩, ⟨none, sampleForm, sampleClock⟩]
      store998 = ["CASE-999", "CASE-1000"] := by decide
  refine ⟨by decide, hids, ?_⟩
  rw [hids]
  intro h
  have hlt : "CASE-999" < "CASE-1000" := by
    simpa [List.Chain'] using h
  rw [String.lt_iff_toList_lt] at hlt
  revert hlt
  decide

/-- C7, as amended. The id submitCase assigns is "CASE-" followed by the count
of cases plus one, zero-padded to three digits. In a store whose ids are
pairwise distinct and are ids of that form for counter values between 1 and the
number of cases (the seeded store CASE-001, CASE-002 and every store filled from
it), a successful submitCase assigns an id different from the id of every case
already in the store, and the store it leaves is again of that kind. -/
theorem submitCase_fresh_id (user : Option Principal) (newCase : NewCase) (now : Nat → Int)
    (st : Store) (hnum : Numbered st.cases)
    (htitle : ∃ ch ∈ newCase.title.data, isWhiteSpace ch = false) :
    (submitCase user newCase now st).alert = none ∧
    ∃ c, (submitCase user newCase now st).state.cases = c :: st.cases ∧
      c.id = "CASE-" ++ padStart (Nat.repr (st.cases.length + 1)) 3 '0' ∧
      (∀ d ∈ st.cases, d.id ≠ c.id) ∧
      Numbered (submitCase user newCase now st).state.cases := by
  rw [submitCase_of_not_blank _ _ _ _ (trim_ne_empty_of_exists _ htitle)]
  refine ⟨rfl, createdCase user newCase now st, rfl, rfl, ?_, ?_⟩
  · intro d hd he
    obtain ⟨k, _, hk, hid⟩ := hnum.2 d.id (List.mem_map_of_mem _ hd)
    have h1 : caseId k = caseId (st.cases.length + 1) := by rw [← hid, he]; rfl
    have := caseId_injective h1
    rw [List.length_map] at hk
    omega
  · have := numberedIds_cons _ hnum
    rw [List.length_map] at this
    exact this

theorem submitCase_fresh_id_witness :
    Numbered (initialStore sampleClock).cases ∧
    (∃ ch ∈ sampleForm.title.data, isWhiteSpace ch = false) ∧
    (submitCase none sampleForm sampleClock (initialStore sampleClock)).alert = none ∧
    ∃ c, (submitCase none sampleForm sampleClock (initialStore sampleClock)).state.cases
        = c :: (initialStore sampleClock).cases ∧
      c.id = "CASE-" ++ padStart (Nat.repr ((initialStore sampleClock).cases.length + 1)) 3 '0' ∧
      (∀ d ∈ (initialStore sampleClock).cases, d.id ≠ c.id) ∧
      Numbered (submitCase none sampleForm sampleClock (initialStore sampleClock)).state.cases :=
  ⟨numbered_sampleCases sampleClock, by decide,
   submitCase_fresh_id none sampleForm sampleClock (initialStore sampleClock)
     (numbered_sampleCases sampleClock) (by decide)⟩

/-- C7, counterexample. A store seeded with the single case CASE-002 has
pairwise distinct ids, yet a successful submitCase on it assigns CASE-002 again:
the id comes from the number of cases, not from a counter that is never reused. -/
theorem submitCase_reuses_id :
    (storeSeededCase002.cases.map (fun c => c.id)).Nodup ∧
    (submitCase none sampleForm sampleClock storeSeededCase002).alert = none ∧
    (submitCase none sampleForm sampleClock storeSeededCase002).state.cases.map (fun c => c.id)
      = ["CASE-002", "CASE-002"] ∧
    ¬ (∀ d ∈ storeSeededCase002.cases,
        some d.id ≠ (submitCase none sampleForm sampleClock storeSeededCase002).state.selectedCaseId) := by
  decide

/-- C8. A title that is empty or made of white space only is rejected: submitCase
alerts "Title required" (the InvalidInput failure) and returns the store it was
given, with the same cases in the same order and the same selected case id. -/
theorem submitCase_blank_title (user : Option Principal) (newCase : NewCase)
    (now : Nat → Int) (st : Store)
    (htitle : ∀ ch ∈ newCase.title.data, isWhiteSpace ch = true) :
    submitCase user newCase now st = ⟨some "Title required", st⟩ :=
  submitCase_of_blank user newCase now st ((trim_eq_empty_iff _).mpr htitle)

theorem submitCase_blank_title_witness :
    (∀ ch ∈ (NewCase.mk " \t" "desc" "").title.data, isWhiteSpace ch = true) ∧
    (∀ ch ∈ (NewCase.mk "" "desc" "").title.data, isWhiteSpace ch = true) ∧
    submitCase none ⟨"", "desc", ""⟩ sampleClock (initialStore sampleClock)
      = ⟨some "Title required", initialStore sampleClock⟩ ∧
    submitCase none ⟨" \t", "desc", ""⟩ sampleClock (initialStore sampleClock)
      = ⟨some "Title required", initialStore sampleClock⟩ :=
  ⟨by decide, by decide,
   submitCase_blank_title none ⟨"", "desc", ""⟩ sampleClock (initialStore sampleClock)
     (by decide),
   submitCase_blank_title none ⟨" \t", "desc", ""⟩ sampleClock (initialStore sampleClock)
     (by decide)⟩

/-- C9. A title with at least one character that is not white space is accepted:
submitCase raises no alert and puts exactly one new case in front of the cases
of the store; the new case has the title and the description of the form, status
Submitted, no ruling, no messages, no evidence and a timeline of exactly one
entry, whose action is "Submitted case" and whose actor is "Anon" when nobody is
signed in and the name of the signed-in principal otherwise (names of principals
are never empty: signup and the seeds see to that). -/
theorem submitCase_creates (user : Option Principal) (newCase : NewCase) (now : Nat → Int)
    (st : Store) (htitle : ∃ ch ∈ newCase.title.data, isWhiteSpace ch = false)
    (hname : ∀ p, user = some p → p.name ≠ "") :
    (submitCase user newCase now st).alert = none ∧
    ∃ c, (submitCase user newCase now st).state.cases = c :: st.cases ∧
      c.title = newCase.title ∧ c.description = newCase.description ∧
      c.status = Status.Submitted ∧ c.ruling = none ∧ c.messages = [] ∧ c.evidence = [] ∧
      ∃ e : TimelineEntry, c.timeline = [e] ∧ e.action = "Submitted case" ∧ e.ts = now 0 ∧
        e.actor = (match user with
          | none => "Anon"
          | some p => p.name) := by
  rw [submitCase_of_not_blank _ _ _ _ (trim_ne_empty_of_exists _ htitle)]
  refine ⟨rfl, createdCase user newCase now st, rfl, rfl, rfl, rfl, rfl, rfl, rfl, _, rfl, rfl,
    rfl, ?_⟩
  cases user with
  | none => rfl
  | some p => simp [orElse, hname p rfl]

theorem submitCase_creates_witness :
    (∃ ch ∈ sampleForm.title.data, isWhiteSpace ch = false) ∧
    (∀ p, some (Principal.mk "Lawyer John" Role.Lawyer) = some p → p.name ≠ "") ∧
    (submitCase (some ⟨"Lawyer John", Role.Lawyer⟩) sampleForm sampleClock
        (initialStore sampleClock)).state.cases.map (fun c => (c.id, c.title))
      = [("CASE-003", "Lease dispute"), ("CASE-001", "Breach of Contract — Service Agreement"),
          ("CASE-002", "Neighbor Dispute — Noise Complaint")] ∧
    (submitCase (some ⟨"Lawyer John", Role.Lawyer⟩) sampleForm sampleClock
        (initialStore sampleClock)).state.cases.map (fun c => c.tags)
      = [["civil", "lease"], ["contract", "civil"], ["tort"]] ∧
    ∃ c, (submitCase (some ⟨"Lawyer John", Role.Lawyer⟩) sampleForm sampleClock
          (initialStore sampleClock)).state.cases = c :: (initialStore sampleClock).cases ∧
      c.title = sampleForm.title ∧ c.description = sampleForm.description ∧
      c.status = Status.Submitted ∧ c.ruling = none ∧ c.messages = [] ∧ c.evidence = [] ∧
      ∃ e : TimelineEntry, c.timeline = [e] ∧ e.action = "Submitted case" ∧
        e.ts = sampleClock 0 ∧ e.actor = "Lawyer John" :=
  ⟨by decide, by intro p hp; cases hp; decide, by decide, by decide,
   (submitCase_creates (some ⟨"Lawyer John", Role.Lawyer⟩) sampleForm sampleClock
     (initialStore sampleClock) (by decide) (by intro p hp; cases hp; decide)).2⟩

/-- C10. After a successful submitCase the case just created is the default
selection: the cases of the new store are the new case followed by the old
cases in their old order, the selected case id is the id of the new case, and
the default-selection effect run on the new cases with nothing selected selects
the new case (it picks the first case of a non-empty store). -/
theorem submitCase_selects_created (user : Option Principal) (newCase : NewCase)
    (now : Nat → Int) (st : Store)
    (htitle : ∃ ch ∈ newCase.title.data, isWhiteSpace ch = false) :
    ∃ c, (submitCase user newCase now st).state.cases = c :: st.cases ∧
      (submitCase user newCase now st).state.selectedCaseId = some c.id ∧
      defaultSelection (submitCase user newCase now st).state
        = (submitCase user newCase now st).state ∧
      (defaultSelection
        { cases := (submitCase user newCase now st).state.cases, selectedCaseId := none }).selectedCaseId
        = some c.id := by
  rw [submitCase_of_not_blank _ _ _ _ (trim_ne_empty_of_exists _ htitle)]
  refine ⟨createdCase user newCase now st, rfl, rfl, ?_, rfl⟩
  have hne : caseId (st.cases.length + 1) ≠ "" := by
    intro h
    have h1 := congrArg String.data h
    rw [caseId_data] at h1
    simp at h1
  simp [defaultSelection, truthy, hne]

theorem submitCase_selects_created_witness :
    (∃ ch ∈ sampleForm.title.data, isWhiteSpace ch = false) ∧
    ∃ c, (submitCase none sampleForm sampleClock (initialStore sampleClock)).state.cases
        = c :: (initialStore sampleClock).cases ∧
      (submitCase none sampleForm sampleClock (initialStore sampleClock)).state.selectedCaseId
        = some c.id ∧
      defaultSelection (submitCase none sampleForm sampleClock (initialStore sampleClock)).state
        = (submitCase none sampleForm sampleClock (initialStore sampleClock)).state ∧
      (defaultSelection
        { cases := (submitCase none sampleForm sampleClock (initialStore sampleClock)).state.cases,
          selectedCaseId := none }).selectedCaseId = some c.id :=
  ⟨by decide,
   submitCase_selects_created none sampleForm sampleClock (initialStore sampleClock) (by decide)⟩

/-! ## Names of principals are never empty -/

theorem namesNonEmpty_run (toLowerCase : String → String) (op : Op) (s : AppState)
    (h : NamesNonEmpty s) : NamesNonEmpty (op.run toLowerCase s).state := by
  obtain ⟨hu, hp⟩ := h
  cases op with
  | signup signupForm =>
    simp only [Op.run, signup]
    split
    · exact ⟨hu, hp⟩
    · next hblank =>
      split
      · exact ⟨hu, hp⟩
      · refine ⟨?_, hp⟩
        intro u hmem
        rcases List.mem_cons.mp hmem with rfl | hmem
        · exact fun h0 => hblank (Or.inl h0)
        · exact hu u hmem
  | login loginName loginPassword =>
    simp only [Op.run, login]
    split
    · exact ⟨hu, hp⟩
    · split
      · exact ⟨hu, hp⟩
      · next found hfound =>
        refine ⟨hu, ?_⟩
        intro p hpe
        cases hpe
        exact hu found (List.mem_of_find?_eq_some hfound)
  | logout => exact ⟨hu, fun p hpe => by cases hpe⟩
  | selectCase id => exact ⟨hu, hp⟩
  | submitCase newCase now => exact ⟨hu, hp⟩
  | sendMessage message to_ now => exact ⟨hu, hp⟩
  | evaluate favored now => exact ⟨hu, hp⟩
  | askAssistant prompt now =>
    simp only [Op.run, askAssistant]
    split
    · exact ⟨hu, hp⟩
    · split <;> exact ⟨hu, hp⟩
  | ask prompt now =>
    simp only [Op.run, ask]
    split
    · exact ⟨hu, hp⟩
    · split <;> exact ⟨hu, hp⟩

/-- In every state reached from the initial state by the handlers, the signed-in
principal, if any, has a non-empty name. -/
theorem namesNonEmpty_runOps (toLowerCase : String → String) (ops : List Op) :
    ∀ s : AppState, NamesNonEmpty s → NamesNonEmpty (runOps toLowerCase ops s) := by
  induction ops with
  | nil => intro s h; exact h
  | cons op rest ih => intro s h; exact ih _ (namesNonEmpty_run toLowerCase op s h)

theorem namesNonEmpty_initialState (now : Nat → Int) : NamesNonEmpty (initialState now) := by
  refine ⟨?_, fun p hpe => by cases hpe⟩
  intro u hmem
  simp only [initialState, initialUsers, List.mem_singleton] at hmem
  subst hmem
  decide

/-! ## `sendMessage` -/

theorem sendMessage_of_blank (user : Option Principal) (message to_ : String)
    (now : Nat → Int) (st : Store) (h : trim message = "") :
    sendMessage user message to_ now st = ⟨none, st⟩ := by
  unfold sendMessage
  rw [if_pos h]

theorem sendMessage_of_not_blank (user : Option Principal) (message to_ : String)
    (now : Nat → Int) (st : Store) (h : trim message ≠ "") :
    sendMessage user message to_ now st
      = ⟨none, { st with
          cases := mapSelected st.selectedCaseId
            (fun c t => { c with
              messages := c.messages ++ [sentMessage user message to_ now]
              timeline := c.timeline ++
                [{ ts := t, actor := (sentMessage user message to_ now).from_,
                   action := "Message to " ++ to_ }] })
            (fun k => now (k + 2)) st.cases }⟩ := by
  unfold sendMessage
  rw [if_neg h]
  rfl

theorem forall₂_exists_of_mem {R : Case → Case → Prop} :
    ∀ {l1 l2 : List Case}, List.Forall₂ R l1 l2 → ∀ c ∈ l1, ∃ c2 ∈ l2, R c c2 := by
  intro l1 l2 h
  induction h with
  | nil => intro c hc; cases hc
  | cons hab _ ih =>
    intro c hc
    rcases List.mem_cons.mp hc with rfl | hc
    · exact ⟨_, List.mem_cons_self _ _, hab⟩
    · obtain ⟨c2, hc2, hr⟩ := ih c hc
      exact ⟨c2, List.mem_cons_of_mem _ hc2, hr⟩

/-- C11. A message with a character that is not white space, sent to a case id
the store holds, is appended: no alert, the selection is kept, every case with
another id is untouched, and each case with the selected id gets exactly one
message more, placed last and carrying the given recipient label and the given
text, and exactly one timeline entry more, placed last, whose action is
"Message to " followed by the recipient label and whose actor is the
from-descriptor of the message; the store holds such a case. -/
theorem sendMessage_appends (user : Option Principal) (message to_ : String)
    (now : Nat → Int) (st : Store)
    (hsel : ∃ c ∈ st.cases, some c.id = st.selectedCaseId)
    (htext : ∃ ch ∈ message.data, isWhiteSpace ch = false) :
    (sendMessage user message to_ now st).alert = none ∧
    (sendMessage user message to_ now st).state.selectedCaseId = st.selectedCaseId ∧
    ∃ m : Message, m.to_ = to_ ∧ m.text = message ∧
      List.Forall₂
        (fun c c2 =>
          (some c.id ≠ st.selectedCaseId ∧ c2 = c) ∨
          (some c.id = st.selectedCaseId ∧ c2.id = c.id ∧
            c2.messages = c.messages ++ [m] ∧
            c2.messages.length = c.messages.length + 1 ∧
            c2.timeline.length = c.timeline.length + 1 ∧
            ∃ e : TimelineEntry, c2.timeline = c.timeline ++ [e] ∧
              e.action = "Message to " ++ to_ ∧ e.actor = m.from_))
        st.cases (sendMessage user message to_ now st).state.cases ∧
      ∃ c2 ∈ (sendMessage user message to_ now st).state.cases,
        some c2.id = st.selectedCaseId ∧ c2.messages.getLast? = some m := by
  rw [sendMessage_of_not_blank _ _ _ _ _ (trim_ne_empty_of_exists _ htext)]
  have hall : List.Forall₂
      (fun c c2 =>
        (some c.id ≠ st.selectedCaseId ∧ c2 = c) ∨
        (some c.id = st.selectedCaseId ∧ c2.id = c.id ∧
          c2.messages = c.messages ++ [sentMessage user message to_ now] ∧
          c2.messages.length = c.messages.length + 1 ∧
          c2.timeline.length = c.timeline.length + 1 ∧
          ∃ e : TimelineEntry, c2.timeline = c.timeline ++ [e] ∧
            e.action = "Message to " ++ to_ ∧ e.actor = (sentMessage user message to_ now).from_))
      st.cases
      (mapSelected st.selectedCaseId
        (fun c t => { c with
          messages := c.messages ++ [sentMessage user message to_ now]
          timeline := c.timeline ++
            [{ ts := t, actor := (sentMessage user message to_ now).from_,
               action := "Message to " ++ to_ }] })
        (fun k => now (k + 2)) st.cases) := by
    apply mapSelected_forall₂
    · intro c hc
      exact Or.inl ⟨hc, rfl⟩
    · intro c t hc
      exact Or.inr ⟨hc, rfl, rfl, by simp, by simp, ⟨_, rfl, rfl, rfl⟩⟩
  refine ⟨rfl, rfl, sentMessage user message to_ now, rfl, rfl, hall, ?_⟩
  obtain ⟨c, hc, hid⟩ := hsel
  obtain ⟨c2, hc2, hr⟩ := forall₂_exists_of_mem hall c hc
  rcases hr with ⟨hne, _⟩ | ⟨_, hid2, hmsg, _⟩
  · exact absurd hid hne
  · exact ⟨c2, hc2, by rw [hid2]; exact hid, by rw [hmsg]; simp⟩

theorem sendMessage_appends_witness :
    (∃ c ∈ (initialStore sampleClock).cases,
      some c.id = (initialStore sampleClock).selectedCaseId) ∧
    (∃ ch ∈ "Please file the reply by Friday.".data, isWhiteSpace ch = false) ∧
    (sendMessage (some ⟨"Lawyer John", Role.Lawyer⟩) "Please file the reply by Friday." "All"
        sampleClock (initialStore sampleClock)).state.cases.map
      (fun c => (c.id, c.messages.map (fun m => (m.from_, m.to_, m.text)),
        c.timeline.map (fun e => (e.actor, e.action))))
      = [("CASE-001", [("Lawyer:Lawyer John", "All", "Please file the reply by Friday.")],
           [("System", "Imported"), ("Lawyer:Lawyer John", "Message to All")]),
         ("CASE-002", [], [("User:Anon", "Submitted")])] ∧
    ∃ m : Message, m.to_ = "All" ∧ m.text = "Please file the reply by Friday." ∧
      List.Forall₂
        (fun c c2 =>
          (some c.id ≠ (initialStore sampleClock).selectedCaseId ∧ c2 = c) ∨
          (some c.id = (initialStore sampleClock).selectedCaseId ∧ c2.id = c.id ∧
            c2.messages = c.messages ++ [m] ∧
            c2.messages.length = c.messages.length + 1 ∧
            c2.timeline.length = c.timeline.length + 1 ∧
            ∃ e : TimelineEntry, c2.timeline = c.timeline ++ [e] ∧
              e.action = "Message to " ++ "All" ∧ e.actor = m.from_))
        (initialStore sampleClock).cases
        (sendMessage (some ⟨"Lawyer John", Role.Lawyer⟩) "Please file the reply by Friday." "All"
          sampleClock (initialStore sampleClock)).state.cases ∧
      ∃ c2 ∈ (sendMessage (some ⟨"Lawyer John", Role.Lawyer⟩) "Please file the reply by Friday."
          "All" sampleClock (initialStore sampleClock)).state.cases,
        some c2.id = (initialStore sampleClock).selectedCaseId ∧ c2.messages.getLast? = some m :=
  ⟨by decide, by decide, by decide,
   (sendMessage_appends (some ⟨"Lawyer John", Role.Lawyer⟩) "Please file the reply by Friday."
     "All" sampleClock (initialStore sampleClock) (by decide) (by decide)).2.2⟩


/-- C12, as amended. A message that is empty or made of white space only is
ignored in silence: sendMessage raises no alert, reports no failure, and returns
the store it was given, so no message and no timeline entry is added to any
case. -/
theorem sendMessage_blank_ignored (user : Option Principal) (message to_ : String)
    (now : Nat → Int) (st : Store)
    (htext : ∀ ch ∈ message.data, isWhiteSpace ch = true) :
    sendMessage user message to_ now st = ⟨none, st⟩ ∧
    reportedFailure (sendMessage user message to_ now st).alert = none := by
  rw [sendMessage_of_blank _ _ _ _ _ ((trim_eq_empty_iff _).mpr htext)]
  exact ⟨rfl, rfl⟩

theorem sendMessage_blank_ignored_witness :
    (∀ ch ∈ " \n".data, isWhiteSpace ch = true) ∧
    sendMessage none " \n" "All" sampleClock (initialStore sampleClock)
      = ⟨none, initialStore sampleClock⟩ ∧
    reportedFailure
      (sendMessage none " \n" "All" sampleClock (initialStore sampleClock)).alert = none :=
  ⟨by decide, sendMessage_blank_ignored none " \n" "All" sampleClock (initialStore sampleClock)
    (by decide)⟩

/-- C12, counterexample. On the seeded store the empty message is not answered
with InvalidInput: sendMessage returns without an alert, where submitCase with
an empty title alerts "Title required". -/
theorem sendMessage_blank_no_failure :
    (sendMessage none "" "All" sampleClock (initialStore sampleClock)).alert = none ∧
    reportedFailure (sendMessage none "" "All" sampleClock (initialStore sampleClock)).alert
      ≠ some Failure.InvalidInput ∧
    reportedFailure
      (submitCase none ⟨"", "desc", ""⟩ sampleClock (initialStore sampleClock)).alert
      = some Failure.InvalidInput := by
  decide

/-- C13, as amended. A message with a character that is not white space, sent
while no case of the store has the selected id (or nothing is selected), changes
nothing and is not reported: sendMessage raises no alert, as after a successful
append, and returns the store it was given. -/
theorem sendMessage_unknown_ignored (user : Option Principal) (message to_ : String)
    (now : Nat → Int) (st : Store)
    (htext : ∃ ch ∈ message.data, isWhiteSpace ch = false)
    (h : ∀ c ∈ st.cases, some c.id ≠ st.selectedCaseId) :
    sendMessage user message to_ now st = ⟨none, st⟩ ∧
    reportedFailure (sendMessage user message to_ now st).alert = none := by
  rw [sendMessage_of_not_blank _ _ _ _ _ (trim_ne_empty_of_exists _ htext),
    mapSelected_of_not_mem _ _ _ _ h]
  exact ⟨rfl, rfl⟩

theorem sendMessage_unknown_ignored_witness :
    (∃ ch ∈ "hello".data, isWhiteSpace ch = false) ∧
    (∀ c ∈ (selectCase (some "CASE-999") (initialStore sampleClock)).cases,
      some c.id ≠ (selectCase (some "CASE-999") (initialStore sampleClock)).selectedCaseId) ∧
    sendMessage none "hello" "All" sampleClock
        (selectCase (some "CASE-999") (initialStore sampleClock))
      = ⟨none, selectCase (some "CASE-999") (initialStore sampleClock)⟩ ∧
    reportedFailure (sendMessage none "hello" "All" sampleClock
        (selectCase (some "CASE-999") (initialStore sampleClock))).alert = none :=
  ⟨by decide, by decide,
   sendMessage_unknown_ignored none "hello" "All" sampleClock
     (selectCase (some "CASE-999") (initialStore sampleClock)) (by decide) (by decide)⟩

/-- C13, counterexample. On the seeded store a message to the unknown id
CASE-999 is not answered with NotFound: the handler raises no alert, exactly as
for the same message to CASE-001, which is appended; evaluate on the same
unknown id does alert "Select a case". -/
theorem sendMessage_unknown_no_failure :
    (sendMessage none "hello" "All" sampleClock
        (selectCase (some "CASE-999") (initialStore sampleClock))).alert = none ∧
    reportedFailure (sendMessage none "hello" "All" sampleClock
        (selectCase (some "CASE-999") (initialStore sampleClock))).alert
      ≠ some Failure.NotFound ∧
    (sendMessage none "hello" "All" sampleClock
        (selectCase (some "CASE-999") (initialStore sampleClock))).alert
      = (sendMessage none "hello" "All" sampleClock
        (selectCase (some "CASE-001") (initialStore sampleClock))).alert ∧
    (sendMessage none "hello" "All" sampleClock
        (selectCase (some "CASE-001") (initialStore sampleClock))).state.cases.map
      (fun c => c.messages.length) = [1, 0] ∧
    reportedFailure (evaluate asciiLower (some ⟨"Judge Judy", Role.Judge⟩) "plaintiff" sampleClock
        (selectCase (some "CASE-999") (initialStore sampleClock))).alert
      = some Failure.NotFound := by
  decide

/-! ## `login` -/

theorem login_of_blank (toLowerCase : String → String) (loginName loginPassword : String)
    (s : AppState) (h : trim loginName = "" ∨ trim loginPassword = "") :
    login toLowerCase loginName loginPassword s = ⟨some "Enter name and password", s⟩ := by
  unfold login
  rw [if_pos h]

theorem login_of_find (toLowerCase : String → String) (loginName loginPassword : String)
    (s : AppState) (h : ¬ (trim loginName = "" ∨ trim loginPassword = "")) :
    login toLowerCase loginName loginPassword s
      = match s.users.find? (loginMatch toLowerCase loginName loginPassword) with
        | none => ⟨some "Invalid credentials (prototype)", s⟩
        | some found => ⟨none, { s with user := some { name := found.name, role := found.role } }⟩ := by
  unfold login
  rw [if_neg h]
  rfl

theorem login_of_no_match (toLowerCase : String → String) (loginName loginPassword : String)
    (s : AppState) (h : ¬ (trim loginName = "" ∨ trim loginPassword = ""))
    (hno : ∀ u ∈ s.users,
      ¬ (toLowerCase u.name = toLowerCase (trim loginName) ∧ u.password = loginPassword)) :
    login toLowerCase loginName loginPassword s
      = ⟨some "Invalid credentials (prototype)", s⟩ := by
  rw [login_of_find _ _ _ _ h]
  have hf : s.users.find? (loginMatch toLowerCase loginName loginPassword) = none := by
    rw [List.find?_eq_none]
    intro u hu
    simpa [loginMatch] using hno u hu
  rw [hf]

theorem login_of_match (toLowerCase : String → String) (loginName loginPassword : String)
    (s : AppState) (h : ¬ (trim loginName = "" ∨ trim loginPassword = ""))
    (hyes : ∃ u ∈ s.users,
      toLowerCase u.name = toLowerCase (trim loginName) ∧ u.password = loginPassword) :
    ∃ found ∈ s.users,
      (toLowerCase found.name = toLowerCase (trim loginName) ∧ found.password = loginPassword) ∧
      s.users.find? (loginMatch toLowerCase loginName loginPassword) = some found ∧
      login toLowerCase loginName loginPassword s
        = ⟨none, { s with user := some { name := found.name, role := found.role } }⟩ := by
  rw [login_of_find _ _ _ _ h]
  cases hf : s.users.find? (loginMatch toLowerCase loginName loginPassword) with
  | none =>
    exfalso
    rw [List.find?_eq_none] at hf
    obtain ⟨u, hu, hm⟩ := hyes
    have := hf u hu
    simp [loginMatch, hm.1, hm.2] at this
  | some found =>
    have hp := List.find?_some hf
    simp only [loginMatch, Bool.and_eq_true, decide_eq_true_eq] at hp
    exact ⟨found, List.mem_of_find?_eq_some hf, hp, rfl, rfl⟩


/-- The three ways `login` can end. -/
theorem login_cases (toLowerCase : String → String) (loginName loginPassword : String)
    (s : AppState) :
    ((trim loginName = "" ∨ trim loginPassword = "") ∧
      login toLowerCase loginName loginPassword s = ⟨some "Enter name and password", s⟩) ∨
    (¬ (trim loginName = "" ∨ trim loginPassword = "") ∧
      (∀ u ∈ s.users,
        ¬ (toLowerCase u.name = toLowerCase (trim loginName) ∧ u.password = loginPassword)) ∧
      login toLowerCase loginName loginPassword s
        = ⟨some "Invalid credentials (prototype)", s⟩) ∨
    (¬ (trim loginName = "" ∨ trim loginPassword = "") ∧
      ∃ found ∈ s.users,
        (toLowerCase found.name = toLowerCase (trim loginName)
          ∧ found.password = loginPassword) ∧
        s.users.find? (loginMatch toLowerCase loginName loginPassword) = some found ∧
        login toLowerCase loginName loginPassword s
          = ⟨none, { s with user := some { name := found.name, role := found.role } }⟩) := by
  by_cases hb : trim loginName = "" ∨ trim loginPassword = ""
  · exact Or.inl ⟨hb, login_of_blank _ _ _ _ hb⟩
  · by_cases hyes : ∃ u ∈ s.users,
        toLowerCase u.name = toLowerCase (trim loginName) ∧ u.password = loginPassword
    · exact Or.inr (Or.inr ⟨hb, login_of_match _ _ _ _ hb hyes⟩)
    · exact Or.inr (Or.inl ⟨hb, fun u hu hm => hyes ⟨u, hu, hm⟩,
        login_of_no_match _ _ _ _ hb (fun u hu hm => hyes ⟨u, hu, hm⟩)⟩)

/-- C14, as amended. For every directory, name and credential, login signs a
principal in exactly when the name and the credential are both not blank and the
directory holds a principal whose name equals the given name with the
surrounding white space removed, case-insensitively, and whose credential equals
the given credential exactly; the principal signed in has the name as registered
and the registered role of such a principal. When it does not sign in, the state
is unchanged and the alert is "Enter name and password" (InvalidInput) for a
blank name or credential and "Invalid credentials (prototype)" otherwise. -/
theorem login_resolves (toLowerCase : String → String) (loginName loginPassword : String)
    (s : AppState) :
    ((login toLowerCase loginName loginPassword s).alert = none ↔
      (trim loginName ≠ "" ∧ trim loginPassword ≠ "" ∧
        ∃ u ∈ s.users,
          toLowerCase u.name = toLowerCase (trim loginName) ∧ u.password = loginPassword)) ∧
    ((login toLowerCase loginName loginPassword s).alert = none →
      ∃ u ∈ s.users,
        (toLowerCase u.name = toLowerCase (trim loginName) ∧ u.password = loginPassword) ∧
        (login toLowerCase loginName loginPassword s).state
          = { s with user := some { name := u.name, role := u.role } }) ∧
    ((login toLowerCase loginName loginPassword s).alert ≠ none →
      (login toLowerCase loginName loginPassword s).state = s ∧
      (((trim loginName = "" ∨ trim loginPassword = "") ∧
          (login toLowerCase loginName loginPassword s).alert = some "Enter name and password") ∨
        ((trim loginName ≠ "" ∧ trim loginPassword ≠ "") ∧
          (login toLowerCase loginName loginPassword s).alert
            = some "Invalid credentials (prototype)"))) := by
  by_cases hb : trim loginName = "" ∨ trim loginPassword = ""
  · rw [login_of_blank _ _ _ _ hb]
    refine ⟨⟨fun h => absurd h (by simp), fun h => ?_⟩, fun h => absurd h (by simp),
      fun _ => ⟨rfl, Or.inl ⟨hb, rfl⟩⟩⟩
    rcases hb with hb | hb
    · exact absurd hb h.1
    · exact absurd hb h.2.1
  · have hn : trim loginName ≠ "" := fun h => hb (Or.inl h)
    have hp : trim loginPassword ≠ "" := fun h => hb (Or.inr h)
    by_cases hyes : ∃ u ∈ s.users,
        toLowerCase u.name = toLowerCase (trim loginName) ∧ u.password = loginPassword
    · obtain ⟨found, hmem, hm, _, heq⟩ := login_of_match _ _ _ _ hb hyes
      rw [heq]
      exact ⟨⟨fun _ => ⟨hn, hp, hyes⟩, fun _ => rfl⟩, fun _ => ⟨found, hmem, hm, rfl⟩,
        fun h => absurd rfl h⟩
    · have hno : ∀ u ∈ s.users,
          ¬ (toLowerCase u.name = toLowerCase (trim loginName) ∧ u.password = loginPassword) :=
        fun u hu hm => hyes ⟨u, hu, hm⟩
      rw [login_of_no_match _ _ _ _ hb hno]
      exact ⟨⟨fun h => absurd h (by simp), fun h => absurd h.2.2 hyes⟩,
        fun h => absurd h (by simp), fun _ => ⟨rfl, Or.inr ⟨⟨hn, hp⟩, rfl⟩⟩⟩

theorem login_resolves_witness :
    login asciiLower "JUDGE JUDY" "judgepass" (initialState sampleClock)
      = ⟨none, { initialState sampleClock with user := some ⟨"Judge Judy", Role.Judge⟩ }⟩ ∧
    ∃ u ∈ (initialState sampleClock).users,
      (asciiLower u.name = asciiLower (trim "JUDGE JUDY") ∧ u.password = "judgepass") ∧
      (login asciiLower "JUDGE JUDY" "judgepass" (initialState sampleClock)).state
        = { initialState sampleClock with user := some { name := u.name, role := u.role } } :=
  ⟨by rfl,
   (login_resolves asciiLower "JUDGE JUDY" "judgepass" (initialState sampleClock)).2.1
     (by decide)⟩

/-- C14, counterexample. On the seeded directory login with the name
" Judge Judy " (a blank before and after) and the right credential signs Judge
Judy in although no principal has a name equal, case-insensitively, to the name
as given; and login with an empty name fails with "Enter name and password"
(InvalidInput), not with InvalidCredentials. -/
theorem login_trims_name :
    (login asciiLower " Judge Judy " "judgepass" (initialState sampleClock)).alert = none ∧
    (login asciiLower " Judge Judy " "judgepass" (initialState sampleClock)).state.user
      = some ⟨"Judge Judy", Role.Judge⟩ ∧
    ¬ (∃ u ∈ (initialState sampleClock).users,
        asciiLower u.name = asciiLower " Judge Judy " ∧ u.password = "judgepass") ∧
    (login asciiLower "" "judgepass" (initialState sampleClock)).alert
      = some "Enter name and password" ∧
    reportedFailure (login asciiLower "" "judgepass" (initialState sampleClock)).alert
      ≠ some Failure.InvalidCredentials := by
  decide

/-- C15, as amended. A failed login tells a wrong credential from an unknown
name only by telling a blank name from one that is not blank. For every
directory and every credential, login with a registered name and that
credential, which no principal of that name has, and login with the same
credential and a name no principal has both leave the state as it was, the
signed-in principal included; their outcomes are identical exactly when the
credential is blank or the two names are both blank or both not blank. With a
blank credential both alert "Enter name and password"; with a credential and two
names that are not blank both alert "Invalid credentials (prototype)". -/
theorem login_failure_uniform (toLowerCase : String → String)
    (name1 name2 credential : String) (s : AppState)
    (hregistered : ∃ u ∈ s.users, toLowerCase u.name = toLowerCase (trim name1))
    (hwrong : ∀ u ∈ s.users,
      toLowerCase u.name = toLowerCase (trim name1) → u.password ≠ credential)
    (hunknown : ∀ u ∈ s.users, toLowerCase u.name ≠ toLowerCase (trim name2)) :
    (∃ u ∈ s.users, toLowerCase u.name = toLowerCase (trim name1) ∧ u.password ≠ credential) ∧
    (login toLowerCase name1 credential s).state = s ∧
    (login toLowerCase name2 credential s).state = s ∧
    (login toLowerCase name1 credential s).state.user = s.user ∧
    (login toLowerCase name2 credential s).state.user = s.user ∧
    (login toLowerCase name1 credential s = login toLowerCase name2 credential s ↔
      (trim credential = "" ∨ (trim name1 = "" ↔ trim name2 = ""))) ∧
    (trim credential = "" →
      login toLowerCase name1 credential s = ⟨some "Enter name and password", s⟩ ∧
      login toLowerCase name2 credential s = ⟨some "Enter name and password", s⟩) ∧
    (trim credential ≠ "" → trim name1 ≠ "" → trim name2 ≠ "" →
      login toLowerCase name1 credential s = ⟨some "Invalid credentials (prototype)", s⟩ ∧
      login toLowerCase name2 credential s = ⟨some "Invalid credentials (prototype)", s⟩) := by
  have hne : (⟨some "Enter name and password", s⟩ : Outcome AppState)
      ≠ ⟨some "Invalid credentials (prototype)", s⟩ := by
    intro h
    have h2 : some "Enter name and password" = some "Invalid credentials (prototype)" :=
      congrArg Outcome.alert h
    exact absurd h2 (by decide)
  have hno1 : ∀ u ∈ s.users,
      ¬ (toLowerCase u.name = toLowerCase (trim name1) ∧ u.password = credential) :=
    fun u hu hm => hwrong u hu hm.1 hm.2
  have hno2 : ∀ u ∈ s.users,
      ¬ (toLowerCase u.name = toLowerCase (trim name2) ∧ u.password = credential) :=
    fun u hu hm => hunknown u hu hm.1
  obtain ⟨w, hw, hwm⟩ := hregistered
  refine ⟨⟨w, hw, hwm, hwrong w hw hwm⟩, ?_⟩
  by_cases hc : trim credential = ""
  · rw [login_of_blank toLowerCase name1 credential s (Or.inr hc),
      login_of_blank toLowerCase name2 credential s (Or.inr hc)]
    exact ⟨rfl, rfl, rfl, rfl, ⟨fun _ => Or.inl hc, fun _ => rfl⟩, fun _ => ⟨rfl, rfl⟩,
      fun h => absurd hc h⟩
  · by_cases hn1 : trim name1 = ""
    · by_cases hn2 : trim name2 = ""
      · rw [login_of_blank toLowerCase name1 credential s (Or.inl hn1),
          login_of_blank toLowerCase name2 credential s (Or.inl hn2)]
        exact ⟨rfl, rfl, rfl, rfl, ⟨fun _ => Or.inr ⟨fun _ => hn2, fun _ => hn1⟩, fun _ => rfl⟩,
          fun h => absurd h hc, fun _ h => absurd hn1 h⟩
      · rw [login_of_blank toLowerCase name1 credential s (Or.inl hn1),
          login_of_no_match toLowerCase name2 credential s (fun h => h.elim hn2 hc) hno2]
        refine ⟨rfl, rfl, rfl, rfl, ⟨fun h => absurd h hne, fun h => ?_⟩,
          fun h => absurd h hc, fun _ h => absurd hn1 h⟩
        rcases h with h | h
        · exact absurd h hc
        · exact absurd (h.mp hn1) hn2
    · by_cases hn2 : trim name2 = ""
      · rw [login_of_no_match toLowerCase name1 credential s (fun h => h.elim hn1 hc) hno1,
          login_of_blank toLowerCase name2 credential s (Or.inl hn2)]
        refine ⟨rfl, rfl, rfl, rfl, ⟨fun h => absurd h.symm hne, fun h => ?_⟩,
          fun h => absurd h hc, fun _ _ h => absurd hn2 h⟩
        rcases h with h | h
        · exact absurd h hc
        · exact absurd (h.mpr hn2) hn1
      · rw [login_of_no_match toLowerCase name1 credential s (fun h => h.elim hn1 hc) hno1,
          login_of_no_match toLowerCase name2 credential s (fun h => h.elim hn2 hc) hno2]
        exact ⟨rfl, rfl, rfl, rfl,
          ⟨fun _ => Or.inr ⟨fun h => absurd h hn1, fun h => absurd h hn2⟩, fun _ => rfl⟩,
          fun h => absurd h hc, fun _ _ _ => ⟨rfl, rfl⟩⟩

theorem login_failure_uniform_witness :
    (∃ u ∈ (initialState sampleClock).users, asciiLower u.name = asciiLower (trim "judge judy")) ∧
    (∀ u ∈ (initialState sampleClock).users,
      asciiLower u.name = asciiLower (trim "judge judy") → u.password ≠ "guess") ∧
    (∀ u ∈ (initialState sampleClock).users, asciiLower u.name ≠ asciiLower (trim "Nobody")) ∧
    trim "guess" ≠ "" ∧ trim "judge judy" ≠ "" ∧ trim "Nobody" ≠ "" ∧
    (login asciiLower "judge judy" "guess" (initialState sampleClock)
        = ⟨some "Invalid credentials (prototype)", initialState sampleClock⟩ ∧
      login asciiLower "Nobody" "guess" (initialState sampleClock)
        = ⟨some "Invalid credentials (prototype)", initialState sampleClock⟩) ∧
    (∀ u ∈ (initialState sampleClock).users,
      asciiLower u.name = asciiLower (trim "judge judy") → u.password ≠ "") ∧
    trim "" = "" ∧
    (login asciiLower "judge judy" "" (initialState sampleClock)
        = ⟨some "Enter name and password", initialState sampleClock⟩ ∧
      login asciiLower "Nobody" "" (initialState sampleClock)
        = ⟨some "Enter name and password", initialState sampleClock⟩) :=
  ⟨by decide, by decide, by decide, by decide, by decide, by decide,
   (login_failure_uniform asciiLower "judge judy" "Nobody" "guess" (initialState sampleClock)
     (by decide) (by decide) (by decide)).2.2.2.2.2.2.2 (by decide) (by decide) (by decide),
   by decide, by decide,
   (login_failure_uniform asciiLower "judge judy" "Nobody" "" (initialState sampleClock)
     (by decide) (by decide) (by decide)).2.2.2.2.2.2.1 (by decide)⟩

/-- C15, counterexample. On the seeded directory, with the same credential
"guess" in both runs, the registered name Judge Judy, for which the credential
is wrong, and the empty name, which no principal has, do not get the same
result: the first alerts "Invalid credentials (prototype)", the second "Enter
name and password". -/
theorem login_failure_differs :
    (∃ u ∈ (initialState sampleClock).users, asciiLower u.name = asciiLower (trim "Judge Judy")) ∧
    (∀ u ∈ (initialState sampleClock).users,
      asciiLower u.name = asciiLower (trim "Judge Judy") → u.password ≠ "guess") ∧
    (∀ u ∈ (initialState sampleClock).users,
      u.name ≠ "" ∧ asciiLower u.name ≠ asciiLower (trim "")) ∧
    (login asciiLower "Judge Judy" "guess" (initialState sampleClock)).alert
      = some "Invalid credentials (prototype)" ∧
    (login asciiLower "" "guess" (initialState sampleClock)).alert
      = some "Enter name and password" ∧
    login asciiLower "Judge Judy" "guess" (initialState sampleClock)
      ≠ login asciiLower "" "guess" (initialState sampleClock) :=
  ⟨by decide, by decide, by decide, by decide, by decide,
   fun h => absurd (congrArg Outcome.alert h) (by decide)⟩

/-! ## `signup` -/

theorem signup_of_blank (toLowerCase : String → String) (signupForm : SignupForm) (s : AppState)
    (h : trim signupForm.name = "" ∨ trim signupForm.password = "") :
    signup toLowerCase signupForm s = ⟨some "Please provide name and password", s⟩ := by
  unfold signup
  rw [if_pos h]

theorem signup_of_duplicate (toLowerCase : String → String) (signupForm : SignupForm)
    (s : AppState) (h : ¬ (trim signupForm.name = "" ∨ trim signupForm.password = ""))
    (hdup : ∃ u ∈ s.users, toLowerCase u.name = toLowerCase (trim signupForm.name)) :
    signup toLowerCase signupForm s = ⟨some "User already exists (prototype)", s⟩ := by
  unfold signup
  rw [if_neg h]
  have hf : (s.users.find? (fun u =>
      decide (toLowerCase u.name = toLowerCase (trim signupForm.name)))).isSome = true := by
    rw [List.find?_isSome]
    obtain ⟨u, hu, he⟩ := hdup
    exact ⟨u, hu, by simpa using he⟩
  rw [if_pos hf]

theorem signup_of_fresh (toLowerCase : String → String) (signupForm : SignupForm)
    (s : AppState) (h : ¬ (trim signupForm.name = "" ∨ trim signupForm.password = ""))
    (hfresh : ∀ u ∈ s.users, toLowerCase u.name ≠ toLowerCase (trim signupForm.name)) :
    signup toLowerCase signupForm s
      = ⟨some "Signup saved locally — use Login (prototype)",
          { s with users := signedUpUser signupForm :: s.users }⟩ := by
  unfold signup
  rw [if_neg h]
  have hf : ¬ (s.users.find? (fun u =>
      decide (toLowerCase u.name = toLowerCase (trim signupForm.name)))).isSome = true := by
    rw [List.find?_isSome]
    rintro ⟨u, hu, he⟩
    exact hfresh u hu (by simpa using he)
  rw [if_neg hf]
  rfl

/-- A signup that answers with the alert of success took the last branch. -/
theorem signup_success_iff (toLowerCase : String → String) (signupForm : SignupForm)
    (s : AppState)
    (hok : (signup toLowerCase signupForm s).alert
      = some "Signup saved locally — use Login (prototype)") :
    ¬ (trim signupForm.name = "" ∨ trim signupForm.password = "") ∧
    ∀ u ∈ s.users, toLowerCase u.name ≠ toLowerCase (trim signupForm.name) := by
  by_cases hb : trim signupForm.name = "" ∨ trim signupForm.password = ""
  · rw [signup_of_blank _ _ _ hb] at hok
    have hok2 : some "Please provide name and password"
        = some "Signup saved locally — use Login (prototype)" := hok
    exact absurd hok2 (by decide)
  · refine ⟨hb, ?_⟩
    by_contra hne
    have hdup : ∃ u ∈ s.users, toLowerCase u.name = toLowerCase (trim signupForm.name) := by
      by_contra hnd
      exact hne (fun u hu he => hnd ⟨u, hu, he⟩)
    rw [signup_of_duplicate _ _ _ hb hdup] at hok
    have hok2 : some "User already exists (prototype)"
        = some "Signup saved locally — use Login (prototype)" := hok
    exact absurd hok2 (by decide)

/-- C16, as amended. For every directory, signup with a name that, with the
surrounding white space removed, equals the name of an existing principal
case-insensitively leaves the whole state unchanged whatever the role and the
credential; the alert is "User already exists (prototype)" (DuplicatePrincipal)
when name and credential are not blank, and "Please provide name and password"
(InvalidInput) when one of them is blank. -/
theorem signup_duplicate_rejected (toLowerCase : String → String) (signupForm : SignupForm)
    (s : AppState)
    (hdup : ∃ u ∈ s.users, toLowerCase u.name = toLowerCase (trim signupForm.name)) :
    (signup toLowerCase signupForm s).state = s ∧
    (trim signupForm.name ≠ "" ∧ trim signupForm.password ≠ "" →
      signup toLowerCase signupForm s = ⟨some "User already exists (prototype)", s⟩) ∧
    (trim signupForm.name = "" ∨ trim signupForm.password = "" →
      signup toLowerCase signupForm s = ⟨some "Please provide name and password", s⟩) := by
  by_cases hb : trim signupForm.name = "" ∨ trim signupForm.password = ""
  · rw [signup_of_blank _ _ _ hb]
    exact ⟨rfl, fun h => hb.elim (fun h0 => absurd h0 h.1) (fun h0 => absurd h0 h.2),
      fun _ => rfl⟩
  · rw [signup_of_duplicate _ _ _ hb hdup]
    exact ⟨rfl, fun _ => rfl, fun h => absurd h hb⟩

theorem signup_duplicate_rejected_witness :
    (∃ u ∈ (initialState sampleClock).users,
      asciiLower u.name = asciiLower (trim (SignupForm.mk "JUDGE judy" Role.Lawyer "secret").name)) ∧
    (trim (SignupForm.mk "JUDGE judy" Role.Lawyer "secret").name ≠ "" ∧
      trim (SignupForm.mk "JUDGE judy" Role.Lawyer "secret").password ≠ "") ∧
    signup asciiLower ⟨"JUDGE judy", Role.Lawyer, "secret"⟩ (initialState sampleClock)
      = ⟨some "User already exists (prototype)", initialState sampleClock⟩ :=
  ⟨by decide, by decide,
   (signup_duplicate_rejected asciiLower ⟨"JUDGE judy", Role.Lawyer, "secret"⟩
     (initialState sampleClock) (by decide)).2.1 (by decide)⟩

/-- C16, counterexample. On the seeded directory signup with the existing name
Judge Judy and an empty credential is not answered with DuplicatePrincipal: the
blank check comes first and the alert is "Please provide name and password". -/
theorem signup_duplicate_blank_credential :
    (∃ u ∈ (initialState sampleClock).users, asciiLower u.name = asciiLower "Judge Judy") ∧
    (signup asciiLower ⟨"Judge Judy", Role.Lawyer, ""⟩ (initialState sampleClock)).alert
      = some "Please provide name and password" ∧
    reportedFailure
      (signup asciiLower ⟨"Judge Judy", Role.Lawyer, ""⟩ (initialState sampleClock)).alert
      ≠ some Failure.DuplicatePrincipal := by
  decide

/-- C17. Register then authenticate round-trips. When signup answers with the
alert of success, the directory is the new principal (name trimmed, role and
credential as given) in front of the old ones, login with the same name and
credential on the resulting state signs in that principal with the role given at
registration, and every login that signed a principal in before the signup
signs the same principal in, with the same role, after it. -/
theorem signup_then_login (toLowerCase : String → String) (signupForm : SignupForm)
    (s : AppState)
    (hok : (signup toLowerCase signupForm s).alert
      = some "Signup saved locally — use Login (prototype)") :
    (signup toLowerCase signupForm s).state.users
      = { name := trim signupForm.name, role := signupForm.role,
          password := signupForm.password } :: s.users ∧
    login toLowerCase signupForm.name signupForm.password (signup toLowerCase signupForm s).state
      = ⟨none, { (signup toLowerCase signupForm s).state with
          user := some { name := trim signupForm.name, role := signupForm.role } }⟩ ∧
    ∀ (loginName loginPassword : String) (p : Principal),
      (login toLowerCase loginName loginPassword s).alert = none →
      (login toLowerCase loginName loginPassword s).state.user = some p →
      (login toLowerCase loginName loginPassword (signup toLowerCase signupForm s).state).alert
        = none ∧
      (login toLowerCase loginName loginPassword (signup toLowerCase signupForm s).state).state.user
        = some p := by
  obtain ⟨hb, hfresh⟩ := signup_success_iff toLowerCase signupForm s hok
  rw [signup_of_fresh _ _ _ hb hfresh]
  refine ⟨rfl, ?_, ?_⟩
  · rw [login_of_find _ _ _ _ hb]
    have hf : List.find? (loginMatch toLowerCase signupForm.name signupForm.password)
        (signedUpUser signupForm :: s.users) = some (signedUpUser signupForm) := by
      rw [List.find?_cons_of_pos]
      simp [loginMatch, signedUpUser]
    rw [hf]
    rfl
  · intro loginName loginPassword p halert huser
    rcases login_cases toLowerCase loginName loginPassword s with
      ⟨_, heq⟩ | ⟨_, _, heq⟩ | ⟨hnb, found, hmem, hm, hfind, heq⟩
    · rw [heq] at halert
      exact absurd halert (by simp)
    · rw [heq] at halert
      exact absurd halert (by simp)
    rw [heq] at huser
    rw [login_of_find _ _ _ _ hnb]
    have hskip : loginMatch toLowerCase loginName loginPassword (signedUpUser signupForm)
        = false := by
      have hne : toLowerCase (trim signupForm.name) ≠ toLowerCase (trim loginName) := by
        intro he
        exact hfresh found hmem (hm.1.trans he.symm)
      simp [loginMatch, signedUpUser, hne]
    have hf : List.find? (loginMatch toLowerCase loginName loginPassword)
        (signedUpUser signupForm :: s.users) = some found := by
      rw [List.find?_cons_of_neg _ (by simp [hskip])]
      exact hfind
    rw [hf]
    exact ⟨rfl, huser⟩

theorem signup_then_login_witness :
    (signup asciiLower ⟨" Lawyer John ", Role.Lawyer, "lawyerpass"⟩
        (initialState sampleClock)).alert
      = some "Signup saved locally — use Login (prototype)" ∧
    (login asciiLower " Lawyer John " "lawyerpass"
        (signup asciiLower ⟨" Lawyer John ", Role.Lawyer, "lawyerpass"⟩
          (initialState sampleClock)).state).state.user
      = some ⟨"Lawyer John", Role.Lawyer⟩ ∧
    (login asciiLower "Judge Judy" "judgepass"
        (signup asciiLower ⟨" Lawyer John ", Role.Lawyer, "lawyerpass"⟩
          (initialState sampleClock)).state).state.user
      = some ⟨"Judge Judy", Role.Judge⟩ ∧
    (signup asciiLower ⟨" Lawyer John ", Role.Lawyer, "lawyerpass"⟩
        (initialState sampleClock)).state.users
      = { name := trim " Lawyer John ", role := Role.Lawyer, password := "lawyerpass" }
          :: (initialState sampleClock).users :=
  ⟨by decide, by decide, by decide,
   (signup_then_login asciiLower ⟨" Lawyer John ", Role.Lawyer, "lawyerpass"⟩
     (initialState sampleClock) (by decide)).1⟩

/-! ## Names stay unique in the directory -/

theorem namesUnique_run (toLowerCase : String → String) (op : Op) (s : AppState)
    (h : NamesUnique toLowerCase s.users) :
    NamesUnique toLowerCase (op.run toLowerCase s).state.users := by
  cases op with
  | signup signupForm =>
    show NamesUnique toLowerCase (signup toLowerCase signupForm s).state.users
    by_cases hb : trim signupForm.name = "" ∨ trim signupForm.password = ""
    · rw [signup_of_blank _ _ _ hb]; exact h
    · by_cases hdup : ∃ u ∈ s.users, toLowerCase u.name = toLowerCase (trim signupForm.name)
      · rw [signup_of_duplicate _ _ _ hb hdup]; exact h
      · have hfresh : ∀ u ∈ s.users, toLowerCase u.name ≠ toLowerCase (trim signupForm.name) :=
          fun u hu he => hdup ⟨u, hu, he⟩
        rw [signup_of_fresh _ _ _ hb hfresh]
        exact List.pairwise_cons.mpr ⟨fun u hu he => hfresh u hu he.symm, h⟩
  | login loginName loginPassword =>
    show NamesUnique toLowerCase (login toLowerCase loginName loginPassword s).state.users
    rcases login_cases toLowerCase loginName loginPassword s with
      ⟨_, heq⟩ | ⟨_, _, heq⟩ | ⟨_, found, _, _, _, heq⟩
    · rw [heq]; exact h
    · rw [heq]; exact h
    · rw [heq]; exact h
  | logout => exact h
  | selectCase id => exact h
  | submitCase newCase now => exact h
  | sendMessage message to_ now => exact h
  | evaluate favored now => exact h
  | askAssistant prompt now =>
    simp only [Op.run, askAssistant]
    split
    · exact h
    · split <;> exact h
  | ask prompt now =>
    simp only [Op.run, ask]
    split
    · exact h
    · split <;> exact h

theorem namesUnique_runOps (toLowerCase : String → String) (ops : List Op) :
    ∀ s : AppState, NamesUnique toLowerCase s.users →
      NamesUnique toLowerCase (runOps toLowerCase ops s).users := by
  induction ops with
  | nil => intro s h; exact h
  | cons op rest ih => intro s h; exact ih _ (namesUnique_run toLowerCase op s h)

/-- C18. Principal names are unique case-insensitively in every reachable
directory: in the state reached from the initial state (directory seeded with
Judge Judy) by any finite sequence of handlers, signup with any form among
them, successful or not, no two principals of the directory have names that are
equal after lower-casing. -/
theorem names_unique_reachable (toLowerCase : String → String) (ops : List Op)
    (now : Nat → Int) :
    (runOps toLowerCase ops (initialState now)).users.Pairwise
      (fun u v => toLowerCase u.name ≠ toLowerCase v.name) :=
  namesUnique_runOps toLowerCase ops (initialState now) (List.pairwise_singleton _ _)

/-! ## The conversation ledger -/

theorem find?_map_setKey_same (key : String) (v : List ChatMsg) :
    ∀ h : List (String × List ChatMsg), h.any (fun e => decide (e.1 = key)) = true →
      (h.map (fun e => if e.1 = key then (key, v) else e)).find? (fun e => decide (e.1 = key))
        = some (key, v) := by
  intro h
  induction h with
  | nil => intro hany; simp at hany
  | cons e h ih =>
    intro hany
    by_cases he : e.1 = key
    · simp [he]
    · have hany2 : h.any (fun e => decide (e.1 = key)) = true := by
        simpa [he] using hany
      rw [List.map_cons, if_neg he, List.find?_cons_of_neg _ (by simpa using he)]
      exact ih hany2

theorem find?_map_setKey_other (key other : String) (v : List ChatMsg) (hne : other ≠ key) :
    ∀ h : List (String × List ChatMsg),
      (h.map (fun e => if e.1 = key then (key, v) else e)).find? (fun e => decide (e.1 = other))
        = h.find? (fun e => decide (e.1 = other)) := by
  intro h
  induction h with
  | nil => rfl
  | cons e h ih =>
    by_cases he : e.1 = key
    · have h1 : ¬ e.1 = other := fun h0 => hne (h0.symm.trans he)
      rw [List.map_cons, if_pos he, List.find?_cons_of_neg _ (by simpa using Ne.symm hne),
        List.find?_cons_of_neg _ (by simpa using h1)]
      exact ih
    · rw [List.map_cons, if_neg he]
      by_cases ho : e.1 = other
      · rw [List.find?_cons_of_pos _ (by simpa using ho),
          List.find?_cons_of_pos _ (by simpa using ho)]
      · rw [List.find?_cons_of_neg _ (by simpa using ho),
          List.find?_cons_of_neg _ (by simpa using ho)]
        exact ih

/-- Reading a key right after writing it gives the value written. -/
theorem history_setKey_same (h : List (String × List ChatMsg)) (key : String)
    (v : List ChatMsg) : history (setKey h key v) key = v := by
  unfold history setKey
  by_cases hany : h.any (fun e => decide (e.1 = key)) = true
  · rw [if_pos hany, find?_map_setKey_same key v h hany]
  · rw [if_neg hany]
    have hnone : h.find? (fun e => decide (e.1 = key)) = none := by
      rw [List.find?_eq_none]
      intro e he
      simp only [List.any_eq_true, not_exists, not_and] at hany
      exact hany e he
    rw [List.find?_append, hnone]
    simp

/-- Writing a key leaves what is read under every other key as it was. -/
theorem history_setKey_other (h : List (String × List ChatMsg)) (key other : String)
    (v : List ChatMsg) (hne : other ≠ key) :
    history (setKey h key v) other = history h other := by
  unfold history setKey
  by_cases hany : h.any (fun e => decide (e.1 = key)) = true
  · rw [if_pos hany, find?_map_setKey_other key other v hne h]
  · rw [if_neg hany, List.find?_append]
    cases hf : h.find? (fun e => decide (e.1 = other)) with
    | some e => simp
    | none => simp [Ne.symm hne]

theorem readsInherited_of_not_mem (h : List (String × List ChatMsg)) (key : String)
    (hkey : key ∉ inheritedKeys) : readsInherited h key = false := by
  unfold readsInherited
  have hc : inheritedKeys.contains key = false := by
    cases hx : inheritedKeys.contains key with
    | false => rfl
    | true => exact absurd (List.elem_iff.mp hx) hkey
  rw [hc, Bool.and_false]

theorem readsInherited_of_own (h : List (String × List ChatMsg)) (key : String)
    (hown : ∃ e ∈ h, e.1 = key) : readsInherited h key = false := by
  unfold readsInherited
  have ha : h.any (fun e => decide (e.1 = key)) = true := by
    obtain ⟨e, he, hk⟩ := hown
    exact List.any_eq_true.mpr ⟨e, he, decide_eq_true hk⟩
  rw [ha]
  rfl

theorem readsInherited_of_either (h : List (String × List ChatMsg)) (key : String)
    (hkey : key ∉ inheritedKeys ∨ ∃ e ∈ h, e.1 = key) : readsInherited h key = false := by
  rcases hkey with hk | hk
  · exact readsInherited_of_not_mem h key hk
  · exact readsInherited_of_own h key hk

theorem setKey_own (h : List (String × List ChatMsg)) (key : String) (v : List ChatMsg) :
    ∃ e ∈ setKey h key v, e.1 = key := by
  unfold setKey
  by_cases hany : h.any (fun e => decide (e.1 = key)) = true
  · rw [if_pos hany]
    obtain ⟨e, he, hk⟩ := List.any_eq_true.mp hany
    have hk2 : e.1 = key := of_decide_eq_true hk
    exact ⟨(key, v), List.mem_map.mpr ⟨e, he, by rw [if_pos hk2]⟩, rfl⟩
  · rw [if_neg hany]
    exact ⟨(key, v), List.mem_append_right _ (List.mem_singleton.mpr rfl), rfl⟩

theorem ask_of_not_blank (toLowerCase : String → String) (prompt : String) (now : Nat → Int)
    (s : AppState) (h : trim prompt ≠ "")
    (hread : readsInherited s.assistantHistory (keyOf s.store.selectedCaseId) = false) :
    ask toLowerCase prompt now s
      = ⟨none, { s with
          assistantHistory :=
            setKey s.assistantHistory (keyOf s.store.selectedCaseId)
              (history s.assistantHistory (keyOf s.store.selectedCaseId)
                ++ [askUserTurn prompt now, askBotTurn toLowerCase prompt now]) }⟩ := by
  unfold ask
  rw [if_neg h]
  simp only [hread]
  rfl

theorem ask_of_inherited (toLowerCase : String → String) (prompt : String) (now : Nat → Int)
    (s : AppState) (h : trim prompt ≠ "")
    (hread : readsInherited s.assistantHistory (keyOf s.store.selectedCaseId) = true) :
    ask toLowerCase prompt now s = ⟨none, { s with crashed := true }⟩ := by
  unfold ask
  rw [if_neg h]
  simp only [hread]
  rfl

theorem askAssistant_of_not_blank (toLowerCase : String → String) (prompt : String)
    (now : Nat → Int) (s : AppState) (h : trim prompt ≠ "")
    (hread : (truthy s.store.selectedCaseId
      && readsInherited s.assistantHistory (keyOf s.store.selectedCaseId)) = false) :
    askAssistant toLowerCase prompt now s
      = ⟨none, { s with
          localChat := s.localChat
            ++ [askAssistantUserTurn prompt now s, askAssistantBotTurn toLowerCase prompt now s]
          assistantHistory :=
            if truthy s.store.selectedCaseId then
              setKey s.assistantHistory (keyOf s.store.selectedCaseId)
                (history s.assistantHistory (keyOf s.store.selectedCaseId)
                  ++ [askAssistantUserTurn prompt now s,
                    askAssistantBotTurn toLowerCase prompt now s])
            else s.assistantHistory }⟩ := by
  unfold askAssistant
  rw [if_neg h]
  simp only [hread]
  rfl

theorem askAssistant_of_inherited (toLowerCase : String → String) (prompt : String)
    (now : Nat → Int) (s : AppState) (h : trim prompt ≠ "")
    (hread : (truthy s.store.selectedCaseId
      && readsInherited s.assistantHistory (keyOf s.store.selectedCaseId)) = true) :
    askAssistant toLowerCase prompt now s = ⟨none, { s with crashed := true }⟩ := by
  unfold askAssistant
  rw [if_neg h]
  simp only [hread]
  rfl

theorem ask_store (toLowerCase : String → String) (prompt : String) (now : Nat → Int)
    (s : AppState) : (ask toLowerCase prompt now s).state.store = s.store := by
  unfold ask
  split
  · rfl
  · split <;> rfl

theorem askAssistant_store (toLowerCase : String → String) (prompt : String) (now : Nat → Int)
    (s : AppState) : (askAssistant toLowerCase prompt now s).state.store = s.store := by
  unfold askAssistant
  split
  · rfl
  · split <;> rfl

theorem ask_history_same (toLowerCase : String → String) (prompt : String) (now : Nat → Int)
    (s : AppState) (h : trim prompt ≠ "")
    (hread : readsInherited s.assistantHistory (keyOf s.store.selectedCaseId) = false) :
    history (ask toLowerCase prompt now s).state.assistantHistory (keyOf s.store.selectedCaseId)
      = history s.assistantHistory (keyOf s.store.selectedCaseId)
        ++ [askUserTurn prompt now, askBotTurn toLowerCase prompt now] := by
  rw [ask_of_not_blank _ _ _ _ h hread]
  exact history_setKey_same _ _ _

theorem ask_history_other (toLowerCase : String → String) (prompt : String) (now : Nat → Int)
    (s : AppState) (h : trim prompt ≠ "")
    (hread : readsInherited s.assistantHistory (keyOf s.store.selectedCaseId) = false)
    (other : String) (hne : other ≠ keyOf s.store.selectedCaseId) :
    history (ask toLowerCase prompt now s).state.assistantHistory other
      = history s.assistantHistory other := by
  rw [ask_of_not_blank _ _ _ _ h hread]
  exact history_setKey_other _ _ _ _ hne

theorem ask_own (toLowerCase : String → String) (prompt : String) (now : Nat → Int)
    (s : AppState) (h : trim prompt ≠ "")
    (hread : readsInherited s.assistantHistory (keyOf s.store.selectedCaseId) = false) :
    ∃ e ∈ (ask toLowerCase prompt now s).state.assistantHistory,
      e.1 = keyOf s.store.selectedCaseId := by
  rw [ask_of_not_blank _ _ _ _ h hread]
  exact setKey_own _ _ _

theorem askAssistant_history_same (toLowerCase : String → String) (prompt : String)
    (now : Nat → Int) (s : AppState) (h : trim prompt ≠ "")
    (ht : truthy s.store.selectedCaseId = true)
    (hread : readsInherited s.assistantHistory (keyOf s.store.selectedCaseId) = false) :
    history (askAssistant toLowerCase prompt now s).state.assistantHistory
        (keyOf s.store.selectedCaseId)
      = history s.assistantHistory (keyOf s.store.selectedCaseId)
        ++ [askAssistantUserTurn prompt now s, askAssistantBotTurn toLowerCase prompt now s] := by
  rw [askAssistant_of_not_blank _ _ _ _ h (by rw [hread, Bool.and_false])]
  show history (if truthy s.store.selectedCaseId = true then _ else _) _ = _
  rw [if_pos ht]
  exact history_setKey_same _ _ _

theorem askAssistant_history_other (toLowerCase : String → String) (prompt : String)
    (now : Nat → Int) (s : AppState) (h : trim prompt ≠ "")
    (hread : readsInherited s.assistantHistory (keyOf s.store.selectedCaseId) = false)
    (other : String) (hne : other ≠ keyOf s.store.selectedCaseId) :
    history (askAssistant toLowerCase prompt now s).state.assistantHistory other
      = history s.assistantHistory other := by
  rw [askAssistant_of_not_blank _ _ _ _ h (by rw [hread, Bool.and_false])]
  show history (if truthy s.store.selectedCaseId = true then _ else _) _ = _
  split
  · exact history_setKey_other _ _ _ _ hne
  · rfl

theorem askAssistant_own (toLowerCase : String → String) (prompt : String) (now : Nat → Int)
    (s : AppState) (h : trim prompt ≠ "")
    (ht : truthy s.store.selectedCaseId = true)
    (hread : readsInherited s.assistantHistory (keyOf s.store.selectedCaseId) = false) :
    ∃ e ∈ (askAssistant toLowerCase prompt now s).state.assistantHistory,
      e.1 = keyOf s.store.selectedCaseId := by
  rw [askAssistant_of_not_blank _ _ _ _ h (by rw [hread, Bool.and_false])]
  show ∃ e ∈ (if truthy s.store.selectedCaseId = true then _ else _), _
  rw [if_pos ht]
  exact setKey_own _ _ _

/-- C19. The ledger is extended in call order and per key. For every ledger and
every selected case id that is a key of the ledger already or is not a property
name every object inherits, known to the case store or not, a prompt with a
character that is not white space makes `ask` record, under that id, what was
recorded before (nothing, for an id without history) followed by the user turn
and then the assistant turn, and leaves what is recorded under every other id
as it was; a second such call puts its two turns after those of the first, so
an id without history then has exactly four entries: user 1, assistant 1,
user 2, assistant 2. `askAssistant` does the same for every such id that is not
the empty string. The empty string it takes for no selection: the exchange goes
to its local chat and the ledger stays as it was. -/
theorem appendExchange_history (toLowerCase : String → String) (prompt prompt2 : String)
    (now now2 : Nat → Int) (s : AppState) (id : String)
    (hsel : s.store.selectedCaseId = some id)
    (hprompt : ∃ ch ∈ prompt.data, isWhiteSpace ch = false)
    (hprompt2 : ∃ ch ∈ prompt2.data, isWhiteSpace ch = false)
    (hkey : id ∉ inheritedKeys ∨ ∃ e ∈ s.assistantHistory, e.1 = id) :
    ((ask toLowerCase prompt now s).alert = none ∧
      (∃ u b : ChatMsg, u.from_ = "User" ∧ u.text = trim prompt ∧ b.from_ = "AI Assistant" ∧
        history (ask toLowerCase prompt now s).state.assistantHistory id
          = history s.assistantHistory id ++ [u, b] ∧
        ∀ other : String, other ≠ id →
          history (ask toLowerCase prompt now s).state.assistantHistory other
            = history s.assistantHistory other) ∧
      ∃ u1 b1 u2 b2 : ChatMsg,
        u1.from_ = "User" ∧ u1.text = trim prompt ∧ b1.from_ = "AI Assistant" ∧
        u2.from_ = "User" ∧ u2.text = trim prompt2 ∧ b2.from_ = "AI Assistant" ∧
        history (ask toLowerCase prompt2 now2
            (ask toLowerCase prompt now s).state).state.assistantHistory id
          = history s.assistantHistory id ++ [u1, b1, u2, b2]) ∧
    (id ≠ "" →
      (askAssistant toLowerCase prompt now s).alert = none ∧
      (∃ u b : ChatMsg, u.text = trim prompt ∧ b.from_ = "AI Assistant" ∧
        (askAssistant toLowerCase prompt now s).state.localChat = s.localChat ++ [u, b] ∧
        history (askAssistant toLowerCase prompt now s).state.assistantHistory id
          = history s.assistantHistory id ++ [u, b] ∧
        ∀ other : String, other ≠ id →
          history (askAssistant toLowerCase prompt now s).state.assistantHistory other
            = history s.assistantHistory other) ∧
      ∃ u1 b1 u2 b2 : ChatMsg,
        u1.text = trim prompt ∧ b1.from_ = "AI Assistant" ∧
        u2.text = trim prompt2 ∧ b2.from_ = "AI Assistant" ∧
        history (askAssistant toLowerCase prompt2 now2
            (askAssistant toLowerCase prompt now s).state).state.assistantHistory id
          = history s.assistantHistory id ++ [u1, b1, u2, b2]) ∧
    (id = "" →
      (askAssistant toLowerCase prompt now s).alert = none ∧
      (askAssistant toLowerCase prompt now s).state.assistantHistory = s.assistantHistory ∧
      ∃ u b : ChatMsg, u.text = trim prompt ∧ b.from_ = "AI Assistant" ∧
        (askAssistant toLowerCase prompt now s).state.localChat = s.localChat ++ [u, b]) := by
  have hb := trim_ne_empty_of_exists _ hprompt
  have hb2 := trim_ne_empty_of_exists _ hprompt2
  have hk : keyOf s.store.selectedCaseId = id := by rw [hsel]; rfl
  have hread : readsInherited s.assistantHistory (keyOf s.store.selectedCaseId) = false := by
    rw [hk]; exact readsInherited_of_either _ _ hkey
  refine ⟨⟨?_, ?_, ?_⟩, ?_, ?_⟩
  · rw [ask_of_not_blank _ _ _ _ hb hread]
  · refine ⟨askUserTurn prompt now, askBotTurn toLowerCase prompt now, rfl, rfl, rfl, ?_, ?_⟩
    · have h1 := ask_history_same toLowerCase prompt now s hb hread
      rw [hk] at h1
      exact h1
    · intro other hne
      exact ask_history_other toLowerCase prompt now s hb hread other (by rw [hk]; exact hne)
  · have hk1 : keyOf (ask toLowerCase prompt now s).state.store.selectedCaseId = id := by
      rw [ask_store, hk]
    have hread1 : readsInherited (ask toLowerCase prompt now s).state.assistantHistory
        (keyOf (ask toLowerCase prompt now s).state.store.selectedCaseId) = false := by
      rw [hk1, ← hk]
      exact readsInherited_of_own _ _ (ask_own toLowerCase prompt now s hb hread)
    have h2 := ask_history_same toLowerCase prompt2 now2 _ hb2 hread1
    have h1 := ask_history_same toLowerCase prompt now s hb hread
    rw [hk1] at h2
    rw [hk] at h1
    rw [h1, List.append_assoc] at h2
    exact ⟨askUserTurn prompt now, askBotTurn toLowerCase prompt now,
      askUserTurn prompt2 now2, askBotTurn toLowerCase prompt2 now2,
      rfl, rfl, rfl, rfl, rfl, rfl, h2⟩
  · intro hid
    have ht : truthy s.store.selectedCaseId = true := by
      rw [hsel]; simpa [truthy] using hid
    refine ⟨?_, ?_, ?_⟩
    · rw [askAssistant_of_not_blank _ _ _ _ hb (by rw [hread, Bool.and_false])]
    · refine ⟨askAssistantUserTurn prompt now s, askAssistantBotTurn toLowerCase prompt now s,
        rfl, rfl, ?_, ?_, ?_⟩
      · rw [askAssistant_of_not_blank _ _ _ _ hb (by rw [hread, Bool.and_false])]
      · have h1 := askAssistant_history_same toLowerCase prompt now s hb ht hread
        rw [hk] at h1
        exact h1
      · intro other hne
        exact askAssistant_history_other toLowerCase prompt now s hb hread other
          (by rw [hk]; exact hne)
    · have hst : (askAssistant toLowerCase prompt now s).state.store = s.store :=
        askAssistant_store toLowerCase prompt now s
      have hk1 : keyOf (askAssistant toLowerCase prompt now s).state.store.selectedCaseId
          = id := by rw [hst, hk]
      have ht1 : truthy (askAssistant toLowerCase prompt now s).state.store.selectedCaseId
          = true := by rw [hst]; exact ht
      have hread1 : readsInherited (askAssistant toLowerCase prompt now s).state.assistantHistory
          (keyOf (askAssistant toLowerCase prompt now s).state.store.selectedCaseId) = false := by
        rw [hk1, ← hk]
        exact readsInherited_of_own _ _ (askAssistant_own toLowerCase prompt now s hb ht hread)
      have h2 := askAssistant_history_same toLowerCase prompt2 now2 _ hb2 ht1 hread1
      have h1 := askAssistant_history_same toLowerCase prompt now s hb ht hread
      rw [hk1] at h2
      rw [hk] at h1
      rw [h1, List.append_assoc] at h2
      exact ⟨askAssistantUserTurn prompt now s, askAssistantBotTurn toLowerCase prompt now s,
        askAssistantUserTurn prompt2 now2 (askAssistant toLowerCase prompt now s).state,
        askAssistantBotTurn toLowerCase prompt2 now2 (askAssistant toLowerCase prompt now s).state,
        rfl, rfl, rfl, rfl, h2⟩
  · intro hid
    have ht : truthy s.store.selectedCaseId = false := by
      rw [hsel, hid]; rfl
    rw [askAssistant_of_not_blank _ _ _ _ hb (by rw [ht, Bool.false_and])]
    refine ⟨rfl, ?_, askAssistantUserTurn prompt now s,
      askAssistantBotTurn toLowerCase prompt now s, rfl, rfl, rfl⟩
    show (if truthy s.store.selectedCaseId = true then _ else _) = _
    rw [if_neg (by rw [ht]; decide)]

theorem appendExchange_history_witness :
    (initialState sampleClock).store.selectedCaseId = some "CASE-001" ∧
    (∃ ch ∈ "what should I file?".data, isWhiteSpace ch = false) ∧
    (∃ ch ∈ "summarize the record".data, isWhiteSpace ch = false) ∧
    "CASE-001" ∉ inheritedKeys ∧
    history (initialState sampleClock).assistantHistory "CASE-001" = [] ∧
    (history
        (ask asciiLower "summarize the record" sampleClock
          (ask asciiLower "what should I file?" sampleClock
            (initialState sampleClock)).state).state.assistantHistory "CASE-001").map
      (fun m => (m.from_, m.text))
      = [("User", "what should I file?"),
         ("AI Assistant", "Legal Assistant: Based on the facts, consider documenting evidence and reviewing statutory provisions."),
         ("User", "summarize the record"),
         ("AI Assistant", "Summary — No case: No facts provided.")] ∧
    ∃ u1 b1 u2 b2 : ChatMsg,
      u1.from_ = "User" ∧ u1.text = trim "what should I file?" ∧ b1.from_ = "AI Assistant" ∧
      u2.from_ = "User" ∧ u2.text = trim "summarize the record" ∧ b2.from_ = "AI Assistant" ∧
      history (ask asciiLower "summarize the record" sampleClock
          (ask asciiLower "what should I file?" sampleClock
            (initialState sampleClock)).state).state.assistantHistory "CASE-001"
        = history (initialState sampleClock).assistantHistory "CASE-001" ++ [u1, b1, u2, b2] :=
  ⟨by decide, by decide, by decide, by decide, by decide, by decide,
   (appendExchange_history asciiLower "what should I file?" "summarize the record" sampleClock
     sampleClock (initialState sampleClock) "CASE-001" (by decide) (by decide) (by decide)
     (Or.inl (by decide))).1.2.2⟩

/-- C19 as stated fails on two kinds of case id. With the empty string selected,
`askAssistant` answers the prompt in its local chat and records nothing under
that id. With `constructor` selected, a name every object inherits, the ledger
update of `ask` and of `askAssistant` throws: nothing is recorded, and what is
read under the id afterwards is not what was there followed by two turns. -/
theorem appendExchange_not_recorded :
    (selecting "").store.selectedCaseId = some "" ∧
    (askAssistant asciiLower "what should I file?" sampleClock (selecting "")).alert = none ∧
    (askAssistant asciiLower "what should I file?" sampleClock (selecting "")).state.crashed
      = false ∧
    ((askAssistant asciiLower "what should I file?" sampleClock (selecting "")).state.localChat.map
      (fun m => (m.from_, m.text))
      = [("Guest", "what should I file?"),
         ("AI Assistant", "Legal Assistant: Based on the facts, consider documenting evidence and reviewing statutory provisions.")]) ∧
    (¬ ∃ u b : ChatMsg,
      history (askAssistant asciiLower "what should I file?" sampleClock
          (selecting "")).state.assistantHistory ""
        = history (selecting "").assistantHistory "" ++ [u, b]) ∧
    (selecting "constructor").store.selectedCaseId = some "constructor" ∧
    (ask asciiLower "what should I file?" sampleClock (selecting "constructor")).state.crashed
      = true ∧
    (¬ ∃ u b : ChatMsg,
      history (ask asciiLower "what should I file?" sampleClock
          (selecting "constructor")).state.assistantHistory "constructor"
        = history (selecting "constructor").assistantHistory "constructor" ++ [u, b]) ∧
    (askAssistant asciiLower "what should I file?" sampleClock
      (selecting "constructor")).state.crashed = true ∧
    (¬ ∃ u b : ChatMsg,
      history (askAssistant asciiLower "what should I file?" sampleClock
          (selecting "constructor")).state.assistantHistory "constructor"
        = history (selecting "constructor").assistantHistory "constructor" ++ [u, b]) := by
  have hlen : ∀ (l r : List ChatMsg), l = [] → r = [] → ¬ ∃ u b : ChatMsg, l = r ++ [u, b] := by
    intro l r hl hr hex
    obtain ⟨u, b, h⟩ := hex
    rw [hl, hr] at h
    have h2 := congrArg List.length h
    simp at h2
  refine ⟨rfl, by decide, by decide, by decide, hlen _ _ (by decide) (by decide), rfl,
    by decide, hlen _ _ (by decide) (by decide), by decide, hlen _ _ (by decide) (by decide)⟩

/-- C20. For every prompt with a character that is not white space and every
clock whose successive readings never decrease, constant clocks included, the
assistant turn that `ask` and `askAssistant` record has a timestamp strictly
greater than the timestamp of the user turn recorded just before it (the key
written is not a property name objects inherit). -/
theorem exchange_timestamps_increase (toLowerCase : String → String) (prompt : String)
    (now : Nat → Int) (s : AppState)
    (hprompt : ∃ ch ∈ prompt.data, isWhiteSpace ch = false)
    (hclock : Monotone now)
    (hkey : keyOf s.store.selectedCaseId ∉ inheritedKeys) :
    (∃ u b : ChatMsg,
      history (ask toLowerCase prompt now s).state.assistantHistory
          (keyOf s.store.selectedCaseId)
        = history s.assistantHistory (keyOf s.store.selectedCaseId) ++ [u, b] ∧
      u.from_ = "User" ∧ b.from_ = "AI Assistant" ∧ u.ts < b.ts) ∧
    (∃ u b : ChatMsg,
      (askAssistant toLowerCase prompt now s).state.localChat = s.localChat ++ [u, b] ∧
      (truthy s.store.selectedCaseId = true →
        history (askAssistant toLowerCase prompt now s).state.assistantHistory
            (keyOf s.store.selectedCaseId)
          = history s.assistantHistory (keyOf s.store.selectedCaseId) ++ [u, b]) ∧
      b.from_ = "AI Assistant" ∧ u.ts < b.ts) := by
  have hread := readsInherited_of_not_mem s.assistantHistory _ hkey
  have hb := trim_ne_empty_of_exists _ hprompt
  have hlt : now 1 < now 3 + 1 := by
    have := hclock (show (1 : Nat) ≤ 3 by decide)
    omega
  constructor
  · rw [ask_of_not_blank _ _ _ _ hb hread]
    exact ⟨askUserTurn prompt now, askBotTurn toLowerCase prompt now,
      history_setKey_same _ _ _, rfl, rfl, hlt⟩
  · rw [askAssistant_of_not_blank _ _ _ _ hb (by rw [hread, Bool.and_false])]
    refine ⟨askAssistantUserTurn prompt now s, askAssistantBotTurn toLowerCase prompt now s,
      rfl, ?_, rfl, hlt⟩
    intro ht
    show history (if truthy s.store.selectedCaseId = true then _ else _) _ = _
    rw [if_pos ht]
    exact history_setKey_same _ _ _

theorem exchange_timestamps_increase_witness :
    (∃ ch ∈ "what should I file?".data, isWhiteSpace ch = false) ∧
    Monotone frozenClock ∧
    keyOf (initialState frozenClock).store.selectedCaseId ∉ inheritedKeys ∧
    (history (ask asciiLower "what should I file?" frozenClock
        (initialState frozenClock)).state.assistantHistory "CASE-001").map (fun m => m.ts)
      = [1700000000000, 1700000000001] ∧
    ∃ u b : ChatMsg,
      history (ask asciiLower "what should I file?" frozenClock
          (initialState frozenClock)).state.assistantHistory
          (keyOf (initialState frozenClock).store.selectedCaseId)
        = history (initialState frozenClock).assistantHistory
            (keyOf (initialState frozenClock).store.selectedCaseId) ++ [u, b] ∧
      u.from_ = "User" ∧ b.from_ = "AI Assistant" ∧ u.ts < b.ts :=
  ⟨by decide, fun _ _ _ => le_refl _, by decide, by decide,
   (exchange_timestamps_increase asciiLower "what should I file?" frozenClock
     (initialState frozenClock) (by decide) (fun _ _ _ => le_refl _) (by decide)).1⟩

/-! ## A blank prompt -/

theorem ask_eq_askWith (toLowerCase : String → String) (prompt : String) (now : Nat → Int)
    (s : AppState) :
    ask toLowerCase prompt now s = askWith (fakeAiResponse toLowerCase) prompt now s :=
  rfl

theorem askAssistant_eq_askAssistantWith (toLowerCase : String → String) (prompt : String)
    (now : Nat → Int) (s : AppState) :
    askAssistant toLowerCase prompt now s
      = askAssistantWith (fakeAiResponse toLowerCase) prompt now s :=
  rfl

/-- C21, as amended. A prompt that is empty or made of white space only is
ignored in silence by both assistant handlers: no alert is raised and no failure
reported, the state is returned as it was (the ledger reads the same under every
case id, the chat of the landing page is unchanged), and this is so whatever
response generator the handler was given, which it does not consult. -/
theorem ask_blank_ignored (toLowerCase : String → String) (prompt : String) (now : Nat → Int)
    (s : AppState) (hprompt : ∀ ch ∈ prompt.data, isWhiteSpace ch = true) :
    ask toLowerCase prompt now s = ⟨none, s⟩ ∧
    askAssistant toLowerCase prompt now s = ⟨none, s⟩ ∧
    reportedFailure (ask toLowerCase prompt now s).alert = none ∧
    reportedFailure (askAssistant toLowerCase prompt now s).alert = none ∧
    (∀ generate : String → Context → String,
      askWith generate prompt now s = ⟨none, s⟩ ∧
      askAssistantWith generate prompt now s = ⟨none, s⟩) ∧
    ∀ id : String,
      history (ask toLowerCase prompt now s).state.assistantHistory id
        = history s.assistantHistory id ∧
      history (askAssistant toLowerCase prompt now s).state.assistantHistory id
        = history s.assistantHistory id := by
  have hb : trim prompt = "" := (trim_eq_empty_iff _).mpr hprompt
  have hw : ∀ generate : String → Context → String,
      askWith generate prompt now s = ⟨none, s⟩ ∧
      askAssistantWith generate prompt now s = ⟨none, s⟩ := by
    intro generate
    constructor
    · unfold askWith; rw [if_pos hb]
    · unfold askAssistantWith; rw [if_pos hb]
  rw [ask_eq_askWith, askAssistant_eq_askAssistantWith, (hw _).1, (hw _).2]
  exact ⟨rfl, rfl, rfl, rfl, hw, fun _ => ⟨rfl, rfl⟩⟩

theorem ask_blank_ignored_witness :
    (∀ ch ∈ "  ".data, isWhiteSpace ch = true) ∧
    ask asciiLower "  " sampleClock (initialState sampleClock)
      = ⟨none, initialState sampleClock⟩ ∧
    askAssistant asciiLower "  " sampleClock (initialState sampleClock)
      = ⟨none, initialState sampleClock⟩ :=
  ⟨by decide,
   (ask_blank_ignored asciiLower "  " sampleClock (initialState sampleClock) (by decide)).1,
   (ask_blank_ignored asciiLower "  " sampleClock (initialState sampleClock) (by decide)).2.1⟩

/-- C21, counterexample. On the initial state the empty prompt is not answered
with InvalidInput: both assistant handlers return without an alert. -/
theorem ask_blank_no_failure :
    (ask asciiLower "" sampleClock (initialState sampleClock)).alert = none ∧
    (askAssistant asciiLower "" sampleClock (initialState sampleClock)).alert = none ∧
    reportedFailure (ask asciiLower "" sampleClock (initialState sampleClock)).alert
      ≠ some Failure.InvalidInput ∧
    reportedFailure (askAssistant asciiLower "" sampleClock (initialState sampleClock)).alert
      ≠ some Failure.InvalidInput := by
  decide

/-! ## Append-only sequences and the frame of the in-place updates -/

theorem forall₂_same (R : Case → Case → Prop) (hR : ∀ c, R c c) (cs : List Case) :
    List.Forall₂ R cs cs := by
  induction cs with
  | nil => exact List.Forall₂.nil
  | cons c cs ih => exact List.Forall₂.cons (hR c) ih

/-- The two ways `evaluate` can end: the store as given, or the in-place update
with the ruling built for the case found. -/
theorem evaluate_cases (toLowerCase : String → String) (userObj : Option Principal)
    (favored : String) (now : Nat → Int) (st : Store) :
    ((evaluate toLowerCase userObj favored now st).state = st ∧
      (evaluate toLowerCase userObj favored now st).alert ≠ none) ∨
    ∃ judge sc, userObj = some judge ∧ judge.role = Role.Judge ∧ sc ∈ st.cases ∧
      some sc.id = st.selectedCaseId ∧
      evaluate toLowerCase userObj favored now st
        = ⟨none, { st with
            cases := mapSelected st.selectedCaseId
              (fun c t => { c with
                ruling := some (evaluateRuling toLowerCase judge favored now sc)
                status := Status.Ruled
                timeline := c.timeline ++
                  [{ ts := t, actor := "Judge:" ++ judge.name, action := "Issued ruling" }] })
              (fun k => now (k + 2)) st.cases }⟩ := by
  cases userObj with
  | none => exact Or.inl ⟨rfl, by simp [evaluate]⟩
  | some judge =>
    by_cases hrole : judge.role = Role.Judge
    · cases hf : st.cases.find? (fun c => decide (some c.id = st.selectedCaseId)) with
      | none =>
        left
        have h : evaluate toLowerCase (some judge) favored now st
            = ⟨some "Select a case", st⟩ := by
          unfold evaluate
          simp only [hrole, ne_eq, not_true_eq_false, if_false, hf]
        rw [h]
        exact ⟨rfl, by simp⟩
      | some sc =>
        right
        have hp := List.find?_some hf
        exact ⟨judge, sc, rfl, hrole, List.mem_of_find?_eq_some hf, by simpa using hp,
          evaluate_eq_of_found toLowerCase judge favored now st sc hrole hf⟩
    · left
      have h : evaluate toLowerCase (some judge) favored now st
          = ⟨some "Sign in as Judge to evaluate.", st⟩ := by
        unfold evaluate
        simp only [ne_eq, hrole, not_false_eq_true, if_true]
      rw [h]
      exact ⟨rfl, by simp⟩

/-- The two ways `sendMessage` can end. -/
theorem sendMessage_cases (user : Option Principal) (message to_ : String) (now : Nat → Int)
    (st : Store) :
    (sendMessage user message to_ now st).state = st ∨
    sendMessage user message to_ now st
      = ⟨none, { st with
          cases := mapSelected st.selectedCaseId
            (fun c t => { c with
              messages := c.messages ++ [sentMessage user message to_ now]
              timeline := c.timeline ++
                [{ ts := t, actor := (sentMessage user message to_ now).from_,
                   action := "Message to " ++ to_ }] })
            (fun k => now (k + 2)) st.cases }⟩ := by
  by_cases hb : trim message = ""
  · left; rw [sendMessage_of_blank _ _ _ _ _ hb]
  · right; exact sendMessage_of_not_blank _ _ _ _ _ hb

/-- C23. Timelines and message sequences are append-only. For every store and
every call (create, appendMessage, evaluate) with any arguments, the cases after
the call are the cases before it, in their order, possibly preceded by a new
one, and for every case that was there before, its timeline before the call is
an initial segment of its timeline after, and so are its messages. -/
theorem sequences_append_only (toLowerCase : String → String) (call : StoreCall) (st : Store) :
    ∃ added kept, (call.run toLowerCase st).state.cases = added ++ kept ∧
      List.Forall₂
        (fun c c2 => c2.id = c.id ∧ c.timeline <+: c2.timeline ∧ c.messages <+: c2.messages)
        st.cases kept := by
  have hsame : ∀ cs : List Case, List.Forall₂
      (fun c c2 => c2.id = c.id ∧ c.timeline <+: c2.timeline ∧ c.messages <+: c2.messages)
      cs cs :=
    forall₂_same _ (fun c => ⟨rfl, ⟨[], by simp⟩, ⟨[], by simp⟩⟩)
  cases call with
  | create author newCase now =>
    obtain ⟨added, h⟩ := submitCase_cases author newCase now st
    exact ⟨added, st.cases, h, hsame _⟩
  | appendMessage id sender message to_ now =>
    refine ⟨[], _, rfl, ?_⟩
    show List.Forall₂ _ (selectCase id st).cases
      (sendMessage sender message to_ now (selectCase id st)).state.cases
    rcases sendMessage_cases sender message to_ now (selectCase id st) with h | h
    · rw [h]; exact hsame _
    · rw [h]
      apply mapSelected_forall₂
      · intro c _; exact ⟨rfl, ⟨[], by simp⟩, ⟨[], by simp⟩⟩
      · intro c t _; exact ⟨rfl, ⟨_, rfl⟩, ⟨_, rfl⟩⟩
  | evaluate id principal favored now =>
    refine ⟨[], _, rfl, ?_⟩
    show List.Forall₂ _ (selectCase id st).cases
      (evaluate toLowerCase principal favored now (selectCase id st)).state.cases
    rcases evaluate_cases toLowerCase principal favored now (selectCase id st) with
      ⟨h, _⟩ | ⟨judge, sc, _, _, _, _, h⟩
    · rw [h]; exact hsame _
    · rw [h]
      apply mapSelected_forall₂
      · intro c _; exact ⟨rfl, ⟨[], by simp⟩, ⟨[], by simp⟩⟩
      · intro c t _; exact ⟨rfl, ⟨_, rfl⟩, ⟨[], by simp⟩⟩

/-- C24. sendMessage and evaluate change the selected case in place and nothing
else. After either handler, whether it succeeds or not, the store holds the same
case ids in the same order and the same selection, and every case with an id
other than the selected one is identical to what it was; in every case
sendMessage leaves title, description, tags, evidence, status and ruling as they
were and evaluate leaves title, description, tags, evidence and messages as they
were. -/
theorem in_place_frame (toLowerCase : String → String) (user : Option Principal)
    (message to_ favored : String) (now : Nat → Int) (st : Store) :
    ((sendMessage user message to_ now st).state.selectedCaseId = st.selectedCaseId ∧
      (sendMessage user message to_ now st).state.cases.map (fun c => c.id)
        = st.cases.map (fun c => c.id) ∧
      List.Forall₂
        (fun c c2 => (some c.id = st.selectedCaseId ∨ c2 = c) ∧ c2.id = c.id ∧
          c2.title = c.title ∧ c2.description = c.description ∧ c2.tags = c.tags ∧
          c2.evidence = c.evidence ∧ c2.status = c.status ∧ c2.ruling = c.ruling)
        st.cases (sendMessage user message to_ now st).state.cases) ∧
    ((evaluate toLowerCase user favored now st).state.selectedCaseId = st.selectedCaseId ∧
      (evaluate toLowerCase user favored now st).state.cases.map (fun c => c.id)
        = st.cases.map (fun c => c.id) ∧
      List.Forall₂
        (fun c c2 => (some c.id = st.selectedCaseId ∨ c2 = c) ∧ c2.id = c.id ∧
          c2.title = c.title ∧ c2.description = c.description ∧ c2.tags = c.tags ∧
          c2.evidence = c.evidence ∧ c2.messages = c.messages)
        st.cases (evaluate toLowerCase user favored now st).state.cases) := by
  constructor
  · refine ⟨?_, sendMessage_ids user message to_ now st, ?_⟩
    · rcases sendMessage_cases user message to_ now st with h | h <;> rw [h]
    · rcases sendMessage_cases user message to_ now st with h | h
      · rw [h]
        exact forall₂_same _ (fun c => ⟨Or.inr rfl, rfl, rfl, rfl, rfl, rfl, rfl, rfl⟩) _
      · rw [h]
        apply mapSelected_forall₂
        · intro c _; exact ⟨Or.inr rfl, rfl, rfl, rfl, rfl, rfl, rfl, rfl⟩
        · intro c t hc; exact ⟨Or.inl hc, rfl, rfl, rfl, rfl, rfl, rfl, rfl⟩
  · refine ⟨?_, evaluate_ids toLowerCase user favored now st, ?_⟩
    · rcases evaluate_cases toLowerCase user favored now st with
        ⟨h, _⟩ | ⟨judge, sc, _, _, _, _, h⟩ <;> rw [h]
    · rcases evaluate_cases toLowerCase user favored now st with
        ⟨h, _⟩ | ⟨judge, sc, _, _, _, _, h⟩
      · rw [h]
        exact forall₂_same _ (fun c => ⟨Or.inr rfl, rfl, rfl, rfl, rfl, rfl, rfl⟩) _
      · rw [h]
        apply mapSelected_forall₂
        · intro c _; exact ⟨Or.inr rfl, rfl, rfl, rfl, rfl, rfl, rfl⟩
        · intro c t hc; exact ⟨Or.inl hc, rfl, rfl, rfl, rfl, rfl, rfl⟩

/-! ## The from-descriptor of a message -/

theorem role_toString_ne_empty (r : Role) : r.toString ≠ "" := by
  cases r <;> decide

/-- C25, as amended. The from-descriptor of every message sendMessage appends
is the role of the signed-in principal, a colon and the name of the signed-in
principal, and it is "Lawyer:Anon" when no principal is signed in (names of
principals are never empty: signup and the seeds see to that). -/
theorem sendMessage_from_descriptor (user : Option Principal) (message to_ : String)
    (now : Nat → Int) (st : Store)
    (htext : ∃ ch ∈ message.data, isWhiteSpace ch = false)
    (hname : ∀ p, user = some p → p.name ≠ "") :
    ∃ m : Message,
      m.from_ = (match user with
        | none => "Lawyer:Anon"
        | some p => p.role.toString ++ ":" ++ p.name) ∧
      m.text = message ∧
      List.Forall₂
        (fun c c2 =>
          (some c.id ≠ st.selectedCaseId ∧ c2 = c) ∨
          (some c.id = st.selectedCaseId ∧ c2.messages = c.messages ++ [m]))
        st.cases (sendMessage user message to_ now st).state.cases := by
  rw [sendMessage_of_not_blank _ _ _ _ _ (trim_ne_empty_of_exists _ htext)]
  refine ⟨sentMessage user message to_ now, ?_, rfl, ?_⟩
  · cases user with
    | none => rfl
    | some p =>
      simp [sentMessage, orElse, hname p rfl, role_toString_ne_empty p.role]
  · apply mapSelected_forall₂
    · intro c hc; exact Or.inl ⟨hc, rfl⟩
    · intro c t hc; exact Or.inr ⟨hc, rfl⟩

theorem sendMessage_from_descriptor_witness :
    (∃ ch ∈ "hello".data, isWhiteSpace ch = false) ∧
    (∀ p, some (Principal.mk "Assistant Mary" Role.LegalAssistant) = some p → p.name ≠ "") ∧
    (sendMessage (some ⟨"Assistant Mary", Role.LegalAssistant⟩) "hello" "All" sampleClock
        (initialStore sampleClock)).state.cases.map
      (fun c => c.messages.map (fun m => m.from_))
      = [["Legal Assistant:Assistant Mary"], []] ∧
    ∃ m : Message,
      m.from_ = "Legal Assistant" ++ ":" ++ "Assistant Mary" ∧
      m.text = "hello" ∧
      List.Forall₂
        (fun c c2 =>
          (some c.id ≠ (initialStore sampleClock).selectedCaseId ∧ c2 = c) ∨
          (some c.id = (initialStore sampleClock).selectedCaseId ∧
            c2.messages = c.messages ++ [m]))
        (initialStore sampleClock).cases
        (sendMessage (some ⟨"Assistant Mary", Role.LegalAssistant⟩) "hello" "All" sampleClock
          (initialStore sampleClock)).state.cases :=
  ⟨by decide, by intro p hp; cases hp; decide, by decide,
   sendMessage_from_descriptor (some ⟨"Assistant Mary", Role.LegalAssistant⟩) "hello" "All"
     sampleClock (initialStore sampleClock) (by decide) (by intro p hp; cases hp; decide)⟩

/-- C25, counterexample. With no principal signed in, the message sendMessage
appends to CASE-001 of the seeded store has the from-descriptor "Lawyer:Anon",
not "Anon". -/
theorem sendMessage_from_anonymous :
    (sendMessage none "hello" "All" sampleClock (initialStore sampleClock)).state.cases.map
      (fun c => c.messages.map (fun m => m.from_))
      = [["Lawyer:Anon"], []] ∧
    ¬ (∀ c ∈ (sendMessage none "hello" "All" sampleClock (initialStore sampleClock)).state.cases,
        ∀ m ∈ c.messages, m.from_ = "Anon") := by
  decide

/-! ## The text of a ruling -/

theorem includes_evaluate_facts :
    includes "evaluate and decide" "summarize" = false ∧
    includes "evaluate and decide" "advice" = false ∧
    includes "evaluate and decide" "what should" = false ∧
    includes "evaluate and decide" "evaluate" = true := by
  decide

/-- The answer of the response generator to the instruction of `evaluate`. -/
theorem fakeAiResponse_evaluate (toLowerCase : String → String)
    (hlower : toLowerCase "Evaluate and decide" = "evaluate and decide")
    (favored : String) (hfav : favored ≠ "") (caseTitle shortFacts : Option String) :
    fakeAiResponse toLowerCase "Evaluate and decide"
        { caseTitle := caseTitle, shortFacts := shortFacts, favored := some favored }
      = "Ruling: In favor of " ++ favored
          ++ "\nReasoning: The record indicates breach of duty supported by exhibits." := by
  obtain ⟨h1, h2, h3, h4⟩ := includes_evaluate_facts
  unfold fakeAiResponse
  rw [if_neg (by decide)]
  simp only [hlower, h1, h2, h3, h4, orElse, hfav]
  simp

/-! ## Properties of every case after a call -/

/-- What holds of every case before the in-place update holds, in its updated
form, of every case after it; `P` is a property of the clock readings. -/
theorem mapSelected_all (Q Q2 : Case → Prop) (P : Int → Prop) (sel : Option String)
    (upd : Case → Int → Case) (hkeep : ∀ c, some c.id ≠ sel → Q c → Q2 c)
    (hupd : ∀ c t, some c.id = sel → Q c → P t → Q2 (upd c t)) :
    ∀ (cs : List Case) (now : Nat → Int), (∀ k, P (now k)) → (∀ c ∈ cs, Q c) →
      ∀ c2 ∈ mapSelected sel upd now cs, Q2 c2 := by
  intro cs
  induction cs with
  | nil => intro now _ _ c2 hc2; cases hc2
  | cons c cs ih =>
    intro now hP hQ c2 hc2
    unfold mapSelected at hc2
    have hQc := hQ c (List.mem_cons_self _ _)
    have hQcs : ∀ d ∈ cs, Q d := fun d hd => hQ d (List.mem_cons_of_mem _ hd)
    by_cases h : some c.id = sel
    · rw [if_pos h] at hc2
      rcases List.mem_cons.mp hc2 with rfl | hc2
      · exact hupd c _ h hQc (hP 0)
      · exact ih _ (fun k => hP (k + 1)) hQcs c2 hc2
    · rw [if_neg h] at hc2
      rcases List.mem_cons.mp hc2 with rfl | hc2
      · exact hkeep _ h hQc
      · exact ih _ hP hQcs c2 hc2

/-- A property of every case is carried over a call of the case store when it is
carried over each of the three changes a call can make: a new case, one more
message with its timeline entry, a ruling with its timeline entry. -/
theorem run_all (toLowerCase : String → String) (Q Q2 : Case → Prop) (call : StoreCall)
    (st : Store) (hkeep : ∀ c, Q c → Q2 c)
    (hnew : ∀ (author : Option Principal) (newCase : NewCase) (cs : List Case),
      Q2 (createdCase author newCase call.clock ⟨cs, none⟩))
    (hmsg : ∀ (c : Case) (m : Message) (e : TimelineEntry), Q c →
      m.id = toString (call.clock 0) → (∃ k, e.ts = call.clock k) →
      Q2 { c with messages := c.messages ++ [m], timeline := c.timeline ++ [e] })
    (hrul : ∀ (c : Case) (r : Ruling) (e : TimelineEntry), Q c → (∃ k, e.ts = call.clock k) →
      Q2 { c with ruling := some r, status := Status.Ruled, timeline := c.timeline ++ [e] })
    (h : ∀ c ∈ st.cases, Q c) :
    ∀ c2 ∈ (call.run toLowerCase st).state.cases, Q2 c2 := by
  cases call with
  | create author newCase now =>
    show ∀ c2 ∈ (submitCase author newCase now st).state.cases, Q2 c2
    by_cases hb : trim newCase.title = ""
    · rw [submitCase_of_blank _ _ _ _ hb]
      exact fun c2 hc2 => hkeep c2 (h c2 hc2)
    · rw [submitCase_of_not_blank _ _ _ _ hb]
      intro c2 hc2
      rcases List.mem_cons.mp hc2 with rfl | hc2
      · exact hnew author newCase st.cases
      · exact hkeep c2 (h c2 hc2)
  | appendMessage id sender message to_ now =>
    show ∀ c2 ∈ (sendMessage sender message to_ now (selectCase id st)).state.cases, Q2 c2
    rcases sendMessage_cases sender message to_ now (selectCase id st) with he | he
    · rw [he]
      exact fun c2 hc2 => hkeep c2 (h c2 hc2)
    · rw [he]
      exact mapSelected_all Q Q2 (fun t => ∃ k, t = now k) _ _ (fun c _ hc => hkeep c hc)
        (fun c t _ hc ht => hmsg c _ _ hc rfl ht) _ _ (fun k => ⟨k + 2, rfl⟩) h
  | evaluate id principal favored now =>
    show ∀ c2 ∈ (evaluate toLowerCase principal favored now (selectCase id st)).state.cases,
      Q2 c2
    rcases evaluate_cases toLowerCase principal favored now (selectCase id st) with
      ⟨he, _⟩ | ⟨judge, sc, _, _, _, _, he⟩
    · rw [he]
      exact fun c2 hc2 => hkeep c2 (h c2 hc2)
    · rw [he]
      exact mapSelected_all Q Q2 (fun t => ∃ k, t = now k) _ _ (fun c _ hc => hkeep c hc)
        (fun c t _ hc ht => hrul c _ _ hc ht) _ _ (fun k => ⟨k + 2, rfl⟩) h

/-- A property of every case that each call carries over holds after any
sequence of calls. -/
theorem runCalls_all (toLowerCase : String → String) (Q : Case → Prop)
    (hstep : ∀ (call : StoreCall) (st : Store), (∀ c ∈ st.cases, Q c) →
      ∀ c ∈ (call.run toLowerCase st).state.cases, Q c)
    (calls : List StoreCall) :
    ∀ st : Store, (∀ c ∈ st.cases, Q c) → ∀ c ∈ (runCalls toLowerCase calls st).cases, Q c := by
  induction calls with
  | nil => intro st h; exact h
  | cons call rest ih => intro st h; exact ih _ (hstep call st h)

/-! ## The text of a ruling, continued -/

/-- C27. The text of the ruling a successful evaluate records is the answer of
the response generator to the instruction "Evaluate and decide" with the chosen
party and the title of the selected case as context, and it depends on the
chosen party only: for a party among plaintiff, defendant and split it is
"Ruling: In favor of " followed by the party and the fixed reasoning, so two
successful evaluate calls with the same party record equal texts whatever the
store, the case, the judge and the clock (lower-casing takes the instruction to
"evaluate and decide"). -/
theorem ruling_text_deterministic (toLowerCase : String → String)
    (hlower : toLowerCase "Evaluate and decide" = "evaluate and decide")
    (favored : String) (hfav : favored ∈ ["plaintiff", "defendant", "split"])
    (judge1 judge2 : Principal) (now1 now2 : Nat → Int) (st1 st2 : Store)
    (hrole1 : judge1.role = Role.Judge) (hrole2 : judge2.role = Role.Judge)
    (hsel1 : ∃ c ∈ st1.cases, some c.id = st1.selectedCaseId)
    (hsel2 : ∃ c ∈ st2.cases, some c.id = st2.selectedCaseId) :
    ∃ text : String,
      text = "Ruling: In favor of " ++ favored
        ++ "\nReasoning: The record indicates breach of duty supported by exhibits." ∧
      (∃ sc ∈ st1.cases, some sc.id = st1.selectedCaseId ∧
        text = fakeAiResponse toLowerCase "Evaluate and decide"
          { caseTitle := some sc.title, shortFacts := none, favored := some favored }) ∧
      (∀ c ∈ (evaluate toLowerCase (some judge1) favored now1 st1).state.cases,
        some c.id = st1.selectedCaseId → ∃ r, c.ruling = some r ∧ r.text = text) ∧
      (∀ c ∈ (evaluate toLowerCase (some judge2) favored now2 st2).state.cases,
        some c.id = st2.selectedCaseId → ∃ r, c.ruling = some r ∧ r.text = text) := by
  have hne : favored ≠ "" := by
    intro h0
    rw [h0] at hfav
    revert hfav
    decide
  have key : ∀ (judge : Principal) (now : Nat → Int) (st : Store),
      judge.role = Role.Judge → (∃ c ∈ st.cases, some c.id = st.selectedCaseId) →
      (∃ sc ∈ st.cases, some sc.id = st.selectedCaseId ∧
        "Ruling: In favor of " ++ favored
            ++ "\nReasoning: The record indicates breach of duty supported by exhibits."
          = fakeAiResponse toLowerCase "Evaluate and decide"
            { caseTitle := some sc.title, shortFacts := none, favored := some favored }) ∧
      ∀ c ∈ (evaluate toLowerCase (some judge) favored now st).state.cases,
        some c.id = st.selectedCaseId → ∃ r, c.ruling = some r ∧
          r.text = "Ruling: In favor of " ++ favored
            ++ "\nReasoning: The record indicates breach of duty supported by exhibits." := by
    intro judge now st hrole hsel
    obtain ⟨sc, hsc⟩ := find?_selected_isSome st hsel
    have hmem := List.mem_of_find?_eq_some hsc
    have hid : some sc.id = st.selectedCaseId := by simpa using List.find?_some hsc
    refine ⟨⟨sc, hmem, hid, (fakeAiResponse_evaluate toLowerCase hlower favored hne _ _).symm⟩, ?_⟩
    rw [evaluate_eq_of_found toLowerCase judge favored now st sc hrole hsc]
    exact mapSelected_all (fun _ => True)
      (fun c => some c.id = st.selectedCaseId → ∃ r, c.ruling = some r ∧
        r.text = "Ruling: In favor of " ++ favored
          ++ "\nReasoning: The record indicates breach of duty supported by exhibits.")
      (fun _ => True) _ _ (fun c hc _ h => absurd h hc)
      (fun c t _ _ _ _ => ⟨_, rfl, fakeAiResponse_evaluate toLowerCase hlower favored hne _ _⟩)
      _ _ (fun _ => trivial) (fun _ _ => trivial)
  exact ⟨_, rfl, (key judge1 now1 st1 hrole1 hsel1).1, (key judge1 now1 st1 hrole1 hsel1).2,
    (key judge2 now2 st2 hrole2 hsel2).2⟩

theorem ruling_text_deterministic_witness :
    asciiLower "Evaluate and decide" = "evaluate and decide" ∧
    "split" ∈ ["plaintiff", "defendant", "split"] ∧
    (evaluate asciiLower (some ⟨"Judge Judy", Role.Judge⟩) "split" sampleClock
        (initialStore sampleClock)).state.cases.map
      (fun c => c.ruling.map (fun r => r.text))
      = [some "Ruling: In favor of split\nReasoning: The record indicates breach of duty supported by exhibits.",
         none] ∧
    (evaluate asciiLower (some ⟨"Judge Amy", Role.Judge⟩) "split" frozenClock
        (selectCase (some "CASE-002") (initialStore frozenClock))).state.cases.map
      (fun c => c.ruling.map (fun r => r.text))
      = [none,
         some "Ruling: In favor of split\nReasoning: The record indicates breach of duty supported by exhibits."] ∧
    ∃ text : String,
      text = "Ruling: In favor of " ++ "split"
        ++ "\nReasoning: The record indicates breach of duty supported by exhibits." ∧
      (∃ sc ∈ (initialStore sampleClock).cases,
        some sc.id = (initialStore sampleClock).selectedCaseId ∧
        text = fakeAiResponse asciiLower "Evaluate and decide"
          { caseTitle := some sc.title, shortFacts := none, favored := some "split" }) ∧
      (∀ c ∈ (evaluate asciiLower (some ⟨"Judge Judy", Role.Judge⟩) "split" sampleClock
          (initialStore sampleClock)).state.cases,
        some c.id = (initialStore sampleClock).selectedCaseId →
          ∃ r, c.ruling = some r ∧ r.text = text) ∧
      (∀ c ∈ (evaluate asciiLower (some ⟨"Judge Amy", Role.Judge⟩) "split" frozenClock
          (selectCase (some "CASE-002") (initialStore frozenClock))).state.cases,
        some c.id = (selectCase (some "CASE-002") (initialStore frozenClock)).selectedCaseId →
          ∃ r, c.ruling = some r ∧ r.text = text) :=
  ⟨by decide, by decide, by decide, by decide,
   ruling_text_deterministic asciiLower (by decide) "split" (by decide)
     ⟨"Judge Judy", Role.Judge⟩ ⟨"Judge Amy", Role.Judge⟩ sampleClock frozenClock
     (initialStore sampleClock) (selectCase (some "CASE-002") (initialStore frozenClock))
     rfl rfl (by decide) (by decide)⟩


/-! ## Invariants of the reachable stores -/

/-- C28. Status and ruling stay in sync: in the store reached from the seeded
store by any finite sequence of create, appendMessage and evaluate calls, with
any arguments, a case has status Ruled exactly when its ruling is present. -/
theorem status_ruling_in_sync (toLowerCase : String → String) (calls : List StoreCall)
    (now : Nat → Int) :
    ∀ c ∈ (runCalls toLowerCase calls (initialStore now)).cases,
      (c.status = Status.Ruled ↔ c.ruling ≠ none) := by
  apply runCalls_all toLowerCase (fun c => c.status = Status.Ruled ↔ c.ruling ≠ none)
  · intro call st h
    apply run_all toLowerCase _ _ call st (fun c hc => hc) _ _ _ h
    · intro author newCase cs
      simp [createdCase]
    · intro c m e hc _ _
      exact hc
    · intro c r e _ _
      simp
  · intro c hc
    simp only [initialStore, sampleCases, List.mem_cons, List.mem_singleton,
      List.not_mem_nil, or_false] at hc
    rcases hc with rfl | rfl <;> simp

theorem status_ruling_in_sync_witness :
    (runCalls asciiLower sampleCalls (initialStore frozenClock)).cases.map
      (fun c => (c.id, c.status, c.ruling.map (fun r => r.judge)))
      = [("CASE-003", Status.Submitted, none), ("CASE-001", Status.Ruled, some "Judge Judy"),
         ("CASE-002", Status.Submitted, none)] ∧
    ∃ c ∈ (runCalls asciiLower sampleCalls (initialStore frozenClock)).cases,
      c.id = "CASE-001" ∧ (c.status = Status.Ruled ↔ c.ruling ≠ none) :=
  ⟨by decide,
   (runCalls asciiLower sampleCalls (initialStore frozenClock)).cases.get ⟨1, by decide⟩,
   List.get_mem _ _ _, by decide,
   status_ruling_in_sync asciiLower sampleCalls frozenClock _ (List.get_mem _ _ _)⟩

/-- C29. The timeline accounts for every mutation: in the store reached from the
seeded store by any finite sequence of create, appendMessage and evaluate calls,
with any arguments, the timeline of each case has at least one entry more than
the case has messages, and exactly one more when the case has no ruling. -/
theorem timeline_accounts (toLowerCase : String → String) (calls : List StoreCall)
    (now : Nat → Int) :
    ∀ c ∈ (runCalls toLowerCase calls (initialStore now)).cases,
      c.messages.length + 1 ≤ c.timeline.length ∧
      (c.ruling = none → c.timeline.length = c.messages.length + 1) := by
  apply runCalls_all toLowerCase (fun c => c.messages.length + 1 ≤ c.timeline.length ∧
    (c.ruling = none → c.timeline.length = c.messages.length + 1))
  · intro call st h
    apply run_all toLowerCase _ _ call st (fun c hc => hc) _ _ _ h
    · intro author newCase cs
      simp [createdCase]
    · intro c m e hc _ _
      obtain ⟨h1, h2⟩ := hc
      refine ⟨by simp; omega, fun hr => ?_⟩
      have := h2 hr
      simp; omega
    · intro c r e hc _
      obtain ⟨h1, _⟩ := hc
      exact ⟨by simp; omega, fun hr => by simp at hr⟩
  · intro c hc
    simp only [initialStore, sampleCases, List.mem_cons, List.mem_singleton,
      List.not_mem_nil, or_false] at hc
    rcases hc with rfl | rfl <;> simp

theorem timeline_accounts_witness :
    (runCalls asciiLower sampleCalls (initialStore frozenClock)).cases.map
      (fun c => (c.id, c.messages.length, c.timeline.length, c.ruling.isSome))
      = [("CASE-003", 0, 1, false), ("CASE-001", 2, 4, true), ("CASE-002", 0, 1, false)] ∧
    ∃ c ∈ (runCalls asciiLower sampleCalls (initialStore frozenClock)).cases,
      c.id = "CASE-001" ∧ c.messages.length + 1 ≤ c.timeline.length ∧
      (c.ruling = none → c.timeline.length = c.messages.length + 1) :=
  ⟨by decide,
   (runCalls asciiLower sampleCalls (initialStore frozenClock)).cases.get ⟨1, by decide⟩,
   List.get_mem _ _ _, by decide,
   timeline_accounts asciiLower sampleCalls frozenClock _ (List.get_mem _ _ _)⟩


/-! ## Rulings are attributable -/

theorem attributable_run (toLowerCase : String → String) (op : Op) (s : AppState)
    (h : Attributable s) : Attributable (op.run toLowerCase s).state := by
  obtain ⟨hu, hr⟩ := h
  cases op with
  | signup signupForm =>
    show Attributable (signup toLowerCase signupForm s).state
    by_cases hb : trim signupForm.name = "" ∨ trim signupForm.password = ""
    · rw [signup_of_blank _ _ _ hb]; exact ⟨hu, hr⟩
    · by_cases hdup : ∃ u ∈ s.users, toLowerCase u.name = toLowerCase (trim signupForm.name)
      · rw [signup_of_duplicate _ _ _ hb hdup]; exact ⟨hu, hr⟩
      · rw [signup_of_fresh _ _ _ hb (fun u hu he => hdup ⟨u, hu, he⟩)]
        constructor
        · intro p hp
          obtain ⟨u, hmem, hn⟩ := hu p hp
          exact ⟨u, List.mem_cons_of_mem _ hmem, hn⟩
        · intro c hc r hcr
          obtain ⟨u, hmem, hn⟩ := hr c hc r hcr
          exact ⟨u, List.mem_cons_of_mem _ hmem, hn⟩
  | login loginName loginPassword =>
    show Attributable (login toLowerCase loginName loginPassword s).state
    rcases login_cases toLowerCase loginName loginPassword s with
      ⟨_, heq⟩ | ⟨_, _, heq⟩ | ⟨_, found, hmem, _, _, heq⟩
    · rw [heq]; exact ⟨hu, hr⟩
    · rw [heq]; exact ⟨hu, hr⟩
    · rw [heq]
      refine ⟨?_, hr⟩
      intro p hp
      cases hp
      exact ⟨found, hmem, rfl, rfl⟩
  | logout => exact ⟨fun p hp => Option.noConfusion hp, hr⟩
  | selectCase id => exact ⟨hu, hr⟩
  | submitCase newCase now =>
    refine ⟨hu, ?_⟩
    show ∀ c ∈ (submitCase s.user newCase now s.store).state.cases, _
    by_cases hb : trim newCase.title = ""
    · rw [submitCase_of_blank _ _ _ _ hb]; exact hr
    · rw [submitCase_of_not_blank _ _ _ _ hb]
      intro c hc r hcr
      rcases List.mem_cons.mp hc with rfl | hc
      · cases hcr
      · exact hr c hc r hcr
  | sendMessage message to_ now =>
    refine ⟨hu, ?_⟩
    have hx : ∀ c ∈ (sendMessage s.user message to_ now s.store).state.cases,
        ∀ r, c.ruling = some r → ∃ u ∈ s.users, u.name = r.judge ∧ u.role = Role.Judge := by
      rcases sendMessage_cases s.user message to_ now s.store with he | he
      · rw [he]; exact hr
      · rw [he]
        refine mapSelected_all
          (fun c => ∀ r, c.ruling = some r →
            ∃ u ∈ s.users, u.name = r.judge ∧ u.role = Role.Judge)
          (fun c => ∀ r, c.ruling = some r →
            ∃ u ∈ s.users, u.name = r.judge ∧ u.role = Role.Judge)
          (fun _ => True) _ _ (fun c _ hc => hc) ?_ _ _ (fun _ => trivial) hr
        intro c t _ hc _
        exact hc
    exact hx
  | evaluate favored now =>
    refine ⟨hu, ?_⟩
    have hx : ∀ c ∈ (evaluate toLowerCase s.user favored now s.store).state.cases,
        ∀ r, c.ruling = some r → ∃ u ∈ s.users, u.name = r.judge ∧ u.role = Role.Judge := by
      rcases evaluate_cases toLowerCase s.user favored now s.store with
        ⟨he, _⟩ | ⟨judge, sc, huser, hrole, _, _, he⟩
      · rw [he]; exact hr
      · rw [he]
        obtain ⟨u, hmem, hn, hro⟩ := hu judge huser
        refine mapSelected_all
          (fun c => ∀ r, c.ruling = some r →
            ∃ u ∈ s.users, u.name = r.judge ∧ u.role = Role.Judge)
          (fun c => ∀ r, c.ruling = some r →
            ∃ u ∈ s.users, u.name = r.judge ∧ u.role = Role.Judge)
          (fun _ => True) _ _ (fun c _ hc => hc) ?_ _ _ (fun _ => trivial) hr
        intro c t _ _ _ r hcr
        cases hcr
        exact ⟨u, hmem, hn, hro.trans hrole⟩
    exact hx
  | askAssistant prompt now =>
    simp only [Op.run, askAssistant]
    split
    · exact ⟨hu, hr⟩
    · split <;> exact ⟨hu, hr⟩
  | ask prompt now =>
    simp only [Op.run, ask]
    split
    · exact ⟨hu, hr⟩
    · split <;> exact ⟨hu, hr⟩

theorem attributable_runOps (toLowerCase : String → String) (ops : List Op) :
    ∀ s : AppState, Attributable s → Attributable (runOps toLowerCase ops s) := by
  induction ops with
  | nil => intro s h; exact h
  | cons op rest ih => intro s h; exact ih _ (attributable_run toLowerCase op s h)

theorem attributable_initialState (now : Nat → Int) : Attributable (initialState now) := by
  refine ⟨fun p hp => Option.noConfusion hp, ?_⟩
  intro c hc r hcr
  simp only [initialState, initialStore, sampleCases, List.mem_cons, List.mem_singleton,
    List.not_mem_nil, or_false] at hc
  rcases hc with rfl | rfl <;> cases hcr

/-- C30. Every ruling is attributable to a registered Judge: in the state
reached from the initial state by any finite sequence of handlers (signup,
login, logout, submitCase, sendMessage and evaluate among them), with any
arguments, the signed-in principal, if any, has the name and the role of a
principal of the directory, and the judge name of the ruling of every case is
the name of a principal of the directory whose role is Judge. -/
theorem rulings_attributable (toLowerCase : String → String) (ops : List Op)
    (now : Nat → Int) :
    (∀ p, (runOps toLowerCase ops (initialState now)).user = some p →
      ∃ u ∈ (runOps toLowerCase ops (initialState now)).users,
        u.name = p.name ∧ u.role = p.role) ∧
    ∀ c ∈ (runOps toLowerCase ops (initialState now)).store.cases, ∀ r, c.ruling = some r →
      ∃ u ∈ (runOps toLowerCase ops (initialState now)).users,
        u.name = r.judge ∧ u.role = Role.Judge :=
  attributable_runOps toLowerCase ops (initialState now) (attributable_initialState now)

theorem rulings_attributable_witness :
    (runOps asciiLower sampleOps (initialState frozenClock)).user
      = some ⟨"Lawyer John", Role.Lawyer⟩ ∧
    (runOps asciiLower sampleOps (initialState frozenClock)).users.map (fun u => (u.name, u.role))
      = [("Lawyer John", Role.Lawyer), ("Judge Judy", Role.Judge)] ∧
    (runOps asciiLower sampleOps (initialState frozenClock)).store.cases.map
      (fun c => (c.id, c.ruling.map (fun r => r.judge), c.messages.map (fun m => m.from_)))
      = [("CASE-001", some "Judge Judy", ["Lawyer:Lawyer John"]), ("CASE-002", none, [])] ∧
    (∃ u ∈ (runOps asciiLower sampleOps (initialState frozenClock)).users,
      u.name = (Principal.mk "Lawyer John" Role.Lawyer).name
        ∧ u.role = (Principal.mk "Lawyer John" Role.Lawyer).role) ∧
    ∃ c ∈ (runOps asciiLower sampleOps (initialState frozenClock)).store.cases,
      ∃ r, c.ruling = some r ∧
        ∃ u ∈ (runOps asciiLower sampleOps (initialState frozenClock)).users,
          u.name = r.judge ∧ u.role = Role.Judge := by
  have hsome : ((runOps asciiLower sampleOps (initialState frozenClock)).store.cases.get
      ⟨0, by decide⟩).ruling.isSome = true := by decide
  exact ⟨by decide, by decide, by decide,
    (rulings_attributable asciiLower sampleOps frozenClock).1 ⟨"Lawyer John", Role.Lawyer⟩
      (by decide),
    _, List.get_mem _ _ _, _, (Option.some_get hsome).symm,
    (rulings_attributable asciiLower sampleOps frozenClock).2 _ (List.get_mem _ _ _) _
      (Option.some_get hsome).symm⟩

/-! ## Time order of the timeline -/

theorem timelineOk_step (toLowerCase : String → String) (f : Nat → Int) (call : StoreCall)
    (st : Store) (hlink : ∀ a b, f a ≤ call.clock b) (h : ∀ c ∈ st.cases, TimelineOk f c) :
    ∀ c ∈ (call.run toLowerCase st).state.cases, TimelineOk call.clock c := by
  have happend : ∀ (c : Case) (e : TimelineEntry), TimelineOk f c →
      (∃ k, e.ts = call.clock k) →
      ((c.timeline ++ [e]).map (fun e => e.ts)).Pairwise (fun a b => a ≤ b) ∧
      ∀ e2 ∈ c.timeline ++ [e], ∃ a, e2.ts ≤ call.clock a := by
    intro c e hc hk
    obtain ⟨k, hk⟩ := hk
    constructor
    · rw [List.map_append, List.pairwise_append]
      refine ⟨hc.1, by simp, ?_⟩
      intro x hx y hy
      simp only [List.map_cons, List.map_nil, List.mem_singleton] at hy
      obtain ⟨e1, he1, rfl⟩ := List.mem_map.mp hx
      obtain ⟨a, ha⟩ := hc.2 e1 he1
      rw [hy, hk]
      exact le_trans ha (hlink a k)
    · intro e2 he2
      rcases List.mem_append.mp he2 with he2 | he2
      · obtain ⟨a, ha⟩ := hc.2 e2 he2
        exact ⟨0, le_trans ha (hlink a 0)⟩
      · rw [List.mem_singleton] at he2
        exact ⟨k, by rw [he2, hk]⟩
  apply run_all toLowerCase (TimelineOk f) (TimelineOk call.clock) call st _ _ _ _ h
  · intro c hc
    refine ⟨hc.1, fun e he => ?_⟩
    obtain ⟨a, ha⟩ := hc.2 e he
    exact ⟨0, le_trans ha (hlink a 0)⟩
  · intro author newCase cs
    refine ⟨by simp [createdCase], fun e he => ⟨0, ?_⟩⟩
    simp only [createdCase, List.mem_singleton] at he
    rw [he]
  · intro c m e hc _ hk
    exact happend c e hc hk
  · intro c r e hc hk
    exact happend c e hc hk

theorem timelineOk_runCalls (toLowerCase : String → String) (calls : List StoreCall) :
    ∀ (f : Nat → Int) (st : Store), ClockOrdered f calls → (∀ c ∈ st.cases, TimelineOk f c) →
      ∃ g, ∀ c ∈ (runCalls toLowerCase calls st).cases, TimelineOk g c := by
  induction calls with
  | nil => intro f st _ h; exact ⟨f, h⟩
  | cons call rest ih =>
    intro f st hclock h
    obtain ⟨_, hlink, hrest⟩ := hclock
    exact ih call.clock _ hrest (timelineOk_step toLowerCase f call st hlink h)

theorem timelineOk_initialStore (now : Nat → Int) :
    ∀ c ∈ (initialStore now).cases, TimelineOk now c := by
  intro c hc
  simp only [initialStore, sampleCases, List.mem_cons, List.mem_singleton,
    List.not_mem_nil, or_false] at hc
  rcases hc with rfl | rfl
  · refine ⟨by simp, fun e he => ⟨0, ?_⟩⟩
    simp only [List.mem_singleton] at he
    rw [he]
    show now 0 - 1000 * 60 * 60 * 24 ≤ now 0
    omega
  · refine ⟨by simp, fun e he => ⟨1, ?_⟩⟩
    simp only [List.mem_singleton] at he
    rw [he]
    show now 1 - 1000 * 60 * 60 * 12 ≤ now 1
    omega

/-- C22. The timeline is shown most recent first. For every case of a store
reached from the seeded store by create, appendMessage and evaluate calls made
against a clock whose readings never decrease, the entries shown are the stored
timeline reversed, their timestamps never increase down the list, the first
entry shown is the entry appended last, and the stored timeline is what it was
before the entries were computed. -/
theorem entries_most_recent_first (toLowerCase : String → String) (calls : List StoreCall)
    (now : Nat → Int) (hclock : ClockOrdered now calls) :
    ∀ c ∈ (runCalls toLowerCase calls (initialStore now)).cases,
      (entries c).1 = c.timeline.reverse ∧ (entries c).2 = c.timeline ∧
      ((entries c).1.map (fun e => e.ts)).Pairwise (fun a b => b ≤ a) ∧
      (entries c).1.head? = c.timeline.getLast? := by
  obtain ⟨g, hg⟩ := timelineOk_runCalls toLowerCase calls now (initialStore now) hclock
    (timelineOk_initialStore now)
  intro c hc
  refine ⟨rfl, rfl, ?_, ?_⟩
  · show (c.timeline.reverse.map (fun e => e.ts)).Pairwise (fun a b => b ≤ a)
    rw [List.map_reverse, List.pairwise_reverse]
    exact (hg c hc).1
  · show c.timeline.reverse.head? = c.timeline.getLast?
    exact List.head?_reverse _


theorem clockAdvancing_sampleCalls : ClockAdvancing frozenClock sampleCalls := by
  refine ⟨fun _ _ _ => le_refl _, fun _ _ => ?_, fun _ _ _ => le_refl _, fun _ _ => ?_,
    fun _ _ _ => le_refl _, fun _ _ => ?_, fun _ _ _ => le_refl _, fun _ _ => ?_, trivial⟩
  · show (1700000000000 : Int) < 1700000000000 + ((1 : Nat) : Int); decide
  · show (1700000000000 : Int) + ((1 : Nat) : Int) < 1700000000000 + ((2 : Nat) : Int); decide
  · show (1700000000000 : Int) + ((2 : Nat) : Int) < 1700000000000 + ((3 : Nat) : Int); decide
  · show (1700000000000 : Int) + ((3 : Nat) : Int) < 1700000000000 + ((4 : Nat) : Int); decide

theorem clockOrdered_of_advancing (calls : List StoreCall) :
    ∀ f : Nat → Int, ClockAdvancing f calls → ClockOrdered f calls := by
  induction calls with
  | nil => intro f _; trivial
  | cons call rest ih =>
    intro f h
    exact ⟨h.1, fun a b => le_of_lt (h.2.1 a b), ih _ h.2.2⟩

theorem clockOrdered_frozenCalls : ClockOrdered frozenClock frozenCalls :=
  ⟨fun _ _ _ => le_refl _, fun _ _ => le_refl _, fun _ _ _ => le_refl _, fun _ _ => le_refl _,
    trivial⟩

theorem entries_most_recent_first_witness :
    ClockOrdered frozenClock sampleCalls ∧
    (runCalls asciiLower sampleCalls (initialStore frozenClock)).cases.map
      (fun c => (c.id, (entries c).1.map (fun e => (e.ts, e.action))))
      = [("CASE-003", [(1700000000001, "Submitted case")]),
         ("CASE-001", [(1700000000004, "Issued ruling"), (1700000000003, "Message to All"),
            (1700000000002, "Message to All"), (1700000000000 - 86400000, "Imported")]),
         ("CASE-002", [(1700000000000 - 43200000, "Submitted")])] ∧
    ∃ c ∈ (runCalls asciiLower sampleCalls (initialStore frozenClock)).cases,
      c.id = "CASE-001" ∧
      (entries c).1 = c.timeline.reverse ∧ (entries c).2 = c.timeline ∧
      ((entries c).1.map (fun e => e.ts)).Pairwise (fun a b => b ≤ a) ∧
      (entries c).1.head? = c.timeline.getLast? :=
  ⟨clockOrdered_of_advancing _ _ clockAdvancing_sampleCalls, by decide,
   (runCalls asciiLower sampleCalls (initialStore frozenClock)).cases.get ⟨1, by decide⟩,
   List.get_mem _ _ _, by decide,
   entries_most_recent_first asciiLower sampleCalls frozenClock
     (clockOrdered_of_advancing _ _ clockAdvancing_sampleCalls) _ (List.get_mem _ _ _)⟩

/-! ## Ids of the messages of a case -/

theorem repr_isDigit (n : Nat) : ∀ c ∈ (Nat.repr n).data, 48 ≤ c.toNat ∧ c.toNat ≤ 57 :=
  toDigitsCore_isDigit (n + 1) n [] (by simp)

theorem repr_injective (m n : Nat) (h : Nat.repr m = Nat.repr n) : m = n := by
  rw [← digitsValue_repr m, ← digitsValue_repr n, h]

/-- The decimal form of an integer determines the integer. -/
theorem int_toString_injective (a b : Int) (h : toString a = toString b) : a = b := by
  have hminus : ∀ m n : Nat, Nat.repr m ≠ "-" ++ Nat.repr n := by
    intro m n he
    have hd : (Nat.repr m).data = '-' :: (Nat.repr n).data := by
      rw [he, String.data_append]; rfl
    have := repr_isDigit m '-' (by rw [hd]; exact List.mem_cons_self _ _)
    revert this
    decide
  cases a with
  | ofNat m =>
    cases b with
    | ofNat n =>
      have h2 : Nat.repr m = Nat.repr n := h
      rw [repr_injective m n h2]
    | negSucc n =>
      have h2 : Nat.repr m = "-" ++ Nat.repr (Nat.succ n) := h
      exact absurd h2 (hminus _ _)
  | negSucc m =>
    cases b with
    | ofNat n =>
      have h2 : "-" ++ Nat.repr (Nat.succ m) = Nat.repr n := h
      exact absurd h2.symm (hminus _ _)
    | negSucc n =>
      have h2 : "-" ++ Nat.repr (Nat.succ m) = "-" ++ Nat.repr (Nat.succ n) := h
      have h3 := congrArg String.data h2
      rw [String.data_append, String.data_append] at h3
      have h4 : Nat.repr (Nat.succ m) = Nat.repr (Nat.succ n) :=
        String.ext (List.append_cancel_left h3)
      have h5 := repr_injective _ _ h4
      have h6 : m = n := Nat.succ.inj h5
      rw [h6]

theorem messagesOk_step (toLowerCase : String → String) (f : Nat → Int) (call : StoreCall)
    (st : Store) (hlink : ∀ a b, f a < call.clock b) (h : ∀ c ∈ st.cases, MessagesOk f c) :
    ∀ c ∈ (call.run toLowerCase st).state.cases, MessagesOk call.clock c := by
  have hkeep : ∀ c, MessagesOk f c → MessagesOk call.clock c := by
    intro c hc
    refine ⟨hc.1, fun m hm => ?_⟩
    obtain ⟨t, a, hid, ht⟩ := hc.2 m hm
    exact ⟨t, 0, hid, le_trans ht (le_of_lt (hlink a 0))⟩
  apply run_all toLowerCase (MessagesOk f) (MessagesOk call.clock) call st hkeep _ _ _ h
  · intro author newCase cs
    exact ⟨by simp [createdCase], fun m hm => by simp [createdCase] at hm⟩
  · intro c m e hc hid _
    constructor
    · show ((c.messages ++ [m]).map (fun m => m.id)).Nodup
      rw [List.map_append, List.nodup_append]
      refine ⟨hc.1, by simp, ?_⟩
      intro x hx hy
      simp only [List.map_cons, List.map_nil, List.mem_singleton] at hy
      obtain ⟨m1, hm1, rfl⟩ := List.mem_map.mp hx
      obtain ⟨t, a, hid1, ht⟩ := hc.2 m1 hm1
      rw [hid1, hid] at hy
      have := int_toString_injective _ _ hy
      have hlt := hlink a 0
      omega
    · intro m2 hm2
      rcases List.mem_append.mp hm2 with hm2 | hm2
      · exact (hkeep c hc).2 m2 hm2
      · rw [List.mem_singleton] at hm2
        exact ⟨call.clock 0, 0, by rw [hm2, hid], le_refl _⟩
  · intro c r e hc _
    exact hkeep c hc

theorem messagesOk_runCalls (toLowerCase : String → String) (calls : List StoreCall) :
    ∀ (f : Nat → Int) (st : Store), ClockAdvancing f calls →
      (∀ c ∈ st.cases, MessagesOk f c) →
      ∃ g, ∀ c ∈ (runCalls toLowerCase calls st).cases, MessagesOk g c := by
  induction calls with
  | nil => intro f st _ h; exact ⟨f, h⟩
  | cons call rest ih =>
    intro f st hclock h
    obtain ⟨_, hlink, hrest⟩ := hclock
    exact ih call.clock _ hrest (messagesOk_step toLowerCase f call st hlink h)

theorem messagesOk_initialStore (now : Nat → Int) :
    ∀ c ∈ (initialStore now).cases, MessagesOk now c := by
  intro c hc
  simp only [initialStore, sampleCases, List.mem_cons, List.mem_singleton,
    List.not_mem_nil, or_false] at hc
  rcases hc with rfl | rfl <;> exact ⟨by simp, fun m hm => by simp at hm⟩

/-- C26, as amended. Message ids are unique within a case when the clock moves
on between calls: for every case of a store reached from the seeded store by
create, appendMessage and evaluate calls of which each reads times later than
every time read before it, the ids of the messages of the case are pairwise
distinct. -/
theorem message_ids_unique (toLowerCase : String → String) (calls : List StoreCall)
    (now : Nat → Int) (hclock : ClockAdvancing now calls) :
    ∀ c ∈ (runCalls toLowerCase calls (initialStore now)).cases,
      (c.messages.map (fun m => m.id)).Nodup := by
  obtain ⟨g, hg⟩ := messagesOk_runCalls toLowerCase calls now (initialStore now) hclock
    (messagesOk_initialStore now)
  exact fun c hc => (hg c hc).1

theorem message_ids_unique_witness :
    ClockAdvancing frozenClock sampleCalls ∧
    (runCalls asciiLower sampleCalls (initialStore frozenClock)).cases.map
      (fun c => (c.id, c.messages.map (fun m => m.id)))
      = [("CASE-003", []), ("CASE-001", ["1700000000002", "1700000000003"]),
         ("CASE-002", [])] ∧
    ∃ c ∈ (runCalls asciiLower sampleCalls (initialStore frozenClock)).cases,
      c.id = "CASE-001" ∧ (c.messages.map (fun m => m.id)).Nodup :=
  ⟨clockAdvancing_sampleCalls, by decide,
   (runCalls asciiLower sampleCalls (initialStore frozenClock)).cases.get ⟨1, by decide⟩,
   List.get_mem _ _ _, by decide,
   message_ids_unique asciiLower sampleCalls frozenClock clockAdvancing_sampleCalls _
     (List.get_mem _ _ _)⟩

/-- C26, counterexample. Two messages sent to CASE-001 of the seeded store while
the clock shows the same time, a clock whose readings never decrease, get the
same id "1700000000000": the ids of the messages of the case are not pairwise
distinct. -/
theorem message_ids_collide :
    ClockOrdered frozenClock frozenCalls ∧
    (runCalls asciiLower frozenCalls (initialStore frozenClock)).cases.map
      (fun c => (c.id, c.messages.map (fun m => (m.id, m.text))))
      = [("CASE-001", [("1700000000000", "First."), ("1700000000000", "Second.")]),
         ("CASE-002", [])] ∧
    ¬ (∀ c ∈ (runCalls asciiLower frozenCalls (initialStore frozenClock)).cases,
        (c.messages.map (fun m => m.id)).Nodup) :=
  ⟨clockOrdered_frozenCalls, by decide, by decide⟩

end AIJudicial
